import Mathlib

/-!
# Task Manager: telemetry rings and scroll viewports

A shallow embedding of the ring-buffer history code (`tm_perf.c`,
`tm_app_history.c`, the graph readers of `ui_tab_performance.c` and
`ui_tab_history.c`), of the scrollbar, layout, selection and command code
(`ui_scrollbar.c`, `ui_core.c`, `ui_tab_processes.c`) and of the process and
startup lists (`tm_process.c`, `tm_startup.c`) of `Version_2`, and of the
scrollbar interaction of `Version_1/main.c` and `src/main.c`, together with the
properties proved about them.

Conventions of the embedding

* C `int` is `Int`; `%` and `/` on `int` are `Int.tmod` and `Int.tdiv`
  (truncation toward zero).  The one product whose overflow is discussed,
  `visible_height * visible_height`, is wrapped to 32 bits with `wrap32`; the
  other `int` computations (row counts times row heights, pixel offsets) stay
  far below `2 ^ 31` and are not wrapped.
* C `float` is `ℚ`: float arithmetic is read as exact arithmetic, and the cast
  `(int)x` is truncation toward zero, `truncQ`.
* `uint64_t` is `Nat`; `rand()` results are `Nat` (the C library returns a
  value in `[0, RAND_MAX]`).
* A C array `T a[N]` is a map `Nat → T` from slot number to content.  The
  array accesses whose index is a run-time `int` go through `arrWrite`, which
  yields `none` for an index outside `[0, N)` (undefined behaviour in C).
* Values obtained from the platform layer, the C library or Raylib (`clock()`,
  `rand()`, `sample_cpu()`, mouse position, button events, wheel delta) are
  parameters of the functions that consume them.
* Singly linked lists are `List`s; a non-NULL pointer argument is the value it
  points to.
-/

namespace TaskManager

/-! ## Constants (`tm_types.h`) -/

def TM_NAME_MAX : Nat := 256
def TM_HIST_LEN : Int := 100
def TM_HIST_SHORT : Int := 30
def TM_ROW_HEIGHT_PX : Int := 30
def TM_STARTUP_ROW_PX : Int := 45
def TM_HISTORY_ROW_PX : Int := 65
def TM_SCROLLBAR_WIDTH_PX : Int := 12

/-! ## Machine arithmetic -/

/-- Two's-complement wrap of an integer to the range of a 32-bit `int`. -/
def wrap32 (x : Int) : Int := (x + 2147483648) % 4294967296 - 2147483648

/-- The C cast `(int)x` of a float: truncation toward zero. -/
def truncQ (q : ℚ) : Int := if 0 ≤ q then ⌊q⌋ else ⌈q⌉

/-- The C cast `(uint64_t)x` of a non-negative float. -/
def truncU64 (q : ℚ) : Nat := ⌊q⌋₊

/-- Store `v` in slot `i` of an array of `cap` slots; `none` when `i` is not a
slot of the array. -/
def arrWrite {α : Type} (cap : Int) (a : Nat → α) (i : Int) (v : α) : Option (Nat → α) :=
  if 0 ≤ i ∧ i < cap then some (Function.update a i.toNat v) else none

/-! ## Data (`tm_types.h`) -/

/-- Per-application resource history (30-sample rings), `TmAppHistory`. -/
structure TmAppHistory where
  name : String
  cpu_time : ℚ
  cpu_time_history : Nat → ℚ
  memory_kb : Nat
  memory_history : Nat → Nat
  network_kb : Nat
  network_history : Nat → Nat
  history_idx : Int
  last_update : Int

/-- System-wide performance metrics with 100-sample rings, `TmPerfData`. -/
structure TmPerfData where
  cpu_percent : ℚ
  cpu_history : Nat → ℚ
  cpu_idx : Int
  mem_used_kb : Nat
  mem_total_kb : Nat
  mem_available_kb : Nat
  mem_history : Nat → Nat
  mem_idx : Int
  disk_used_kb : Nat
  disk_total_kb : Nat
  disk_history : Nat → Nat
  disk_idx : Int
  gpu_percent : ℚ
  gpu_history : Nat → ℚ
  gpu_idx : Int
  process_count : Int
  thread_count : Int
  uptime_s : Nat
  last_update : Int

/-! ## System rings (`tm_perf.c`) -/

/-- Embeds `tm_perf_data_init`: zero the whole struct, set the fixed totals and stamp
the clock reading `now`. -/
def tm_perf_data_init (now : Int) : TmPerfData :=
  { cpu_percent := 0, cpu_history := fun _ => 0, cpu_idx := 0,
    mem_used_kb := 0, mem_total_kb := 16 * 1024 * 1024, mem_available_kb := 0,
    mem_history := fun _ => 0, mem_idx := 0,
    disk_used_kb := 0, disk_total_kb := 500 * 1024 * 1024,
    disk_history := fun _ => 0, disk_idx := 0,
    gpu_percent := 0, gpu_history := fun _ => 0, gpu_idx := 0,
    process_count := 0, thread_count := 0, uptime_s := 0,
    last_update := now }

/-- Embeds `update_cpu`; `sample` is the value returned by `g_platform->sample_cpu()`. -/
def update_cpu (d : TmPerfData) (sample : ℚ) : Option TmPerfData :=
  let cpu_percent := if sample > 100 then 100 else sample
  match arrWrite TM_HIST_LEN d.cpu_history d.cpu_idx cpu_percent with
  | none => none
  | some h =>
    some { d with cpu_percent := cpu_percent, cpu_history := h,
                  cpu_idx := Int.tmod (d.cpu_idx + 1) TM_HIST_LEN }

/-- Embeds `update_memory`; `used` and `total` are the figures stored by
`g_platform->query_memory`. -/
def update_memory (d : TmPerfData) (used total : Nat) : Option TmPerfData :=
  let mem_used_kb := if used > total then total else used
  match arrWrite TM_HIST_LEN d.mem_history d.mem_idx mem_used_kb with
  | none => none
  | some h =>
    some { d with mem_used_kb := mem_used_kb, mem_total_kb := total,
                  mem_available_kb := total - mem_used_kb, mem_history := h,
                  mem_idx := Int.tmod (d.mem_idx + 1) TM_HIST_LEN }

/-- Embeds `update_disk`; `r` is the value returned by `rand()`. -/
def update_disk (d : TmPerfData) (r : Nat) : Option TmPerfData :=
  let disk_used_kb := 200000000 + r % 150000000
  match arrWrite TM_HIST_LEN d.disk_history d.disk_idx disk_used_kb with
  | none => none
  | some h =>
    some { d with disk_used_kb := disk_used_kb, disk_history := h,
                  disk_idx := Int.tmod (d.disk_idx + 1) TM_HIST_LEN }

/-- Embeds `update_gpu`; `r` is the value returned by `rand()`. -/
def update_gpu (d : TmPerfData) (r : Nat) : Option TmPerfData :=
  let g : ℚ := 8 + ((r % 50 : Nat) : ℚ)
  let gpu_percent := if g > 100 then 100 else g
  match arrWrite TM_HIST_LEN d.gpu_history d.gpu_idx gpu_percent with
  | none => none
  | some h =>
    some { d with gpu_percent := gpu_percent, gpu_history := h,
                  gpu_idx := Int.tmod (d.gpu_idx + 1) TM_HIST_LEN }

/-- Embeds `update_threads`; `r` is the value returned by `rand()`. -/
def update_threads (d : TmPerfData) (r : Nat) : TmPerfData :=
  { d with thread_count := d.process_count * 3 + ((r % 100 : Nat) : Int) }

/-! ## Per-application rings (`tm_app_history.c`) -/

/-- The seeding loop of `init_history_entry`: for `j = 0 .. TM_HIST_SHORT - 1`,
slot `j` of each ring receives the current value scaled by
`0.8 + (rand() % 40) / 100`; `jit j` is the `rand()` result of iteration `j`. -/
def seed_history (app : TmAppHistory) (jit : Nat → Nat) : TmAppHistory :=
  (List.range TM_HIST_SHORT.toNat).foldl
    (fun acc j =>
      let factor : ℚ := 0.8 + ((jit j % 40 : Nat) : ℚ) / 100
      { acc with
        cpu_time_history := Function.update acc.cpu_time_history j (acc.cpu_time * factor)
        memory_history :=
          Function.update acc.memory_history j (truncU64 ((acc.memory_kb : ℚ) * factor))
        network_history :=
          Function.update acc.network_history j (truncU64 ((acc.network_kb : ℚ) * factor)) })
    app

/-- Embeds `init_history_entry`; `r_cpu`, `r_mem`, `r_net` and `jit` are the `rand()`
results in call order, `now` the clock reading.  The freshly allocated rings
are written in every slot by the seeding loop. -/
def init_history_entry (name : String) (r_cpu r_mem r_net : Nat) (now : Int)
    (jit : Nat → Nat) : TmAppHistory :=
  let app : TmAppHistory :=
    { name := name.take (TM_NAME_MAX - 1),
      cpu_time := 5 + ((r_cpu % 50 : Nat) : ℚ),
      cpu_time_history := fun _ => 0,
      memory_kb := 100 + r_mem % 500,
      memory_history := fun _ => 0,
      network_kb := 10 + r_net % 100,
      network_history := fun _ => 0,
      history_idx := 0,
      last_update := now }
  seed_history app jit

/-- Embeds `update_history_entry`; `r1`, `r2` are the two `rand()` results, `now` the
clock reading. -/
def update_history_entry (app : TmAppHistory) (r1 r2 : Nat) (now : Int) :
    Option TmAppHistory :=
  let factor : ℚ := 0.9 + ((r1 % 20 : Nat) : ℚ) / 100
  let cpu_time := app.cpu_time * factor
  let memory_kb := truncU64 ((app.memory_kb : ℚ) * factor)
  let network_kb := truncU64 ((app.network_kb : ℚ) * (0.8 + ((r2 % 40 : Nat) : ℚ) / 100))
  match arrWrite TM_HIST_SHORT app.cpu_time_history app.history_idx cpu_time,
        arrWrite TM_HIST_SHORT app.memory_history app.history_idx memory_kb,
        arrWrite TM_HIST_SHORT app.network_history app.history_idx network_kb with
  | some hc, some hm, some hn =>
    some { app with cpu_time := cpu_time, memory_kb := memory_kb, network_kb := network_kb,
                    cpu_time_history := hc, memory_history := hm, network_history := hn,
                    history_idx := Int.tmod (app.history_idx + 1) TM_HIST_SHORT,
                    last_update := now }
  | _, _, _ => none

/-! ## Chronological readers (`ui_tab_performance.c`, `ui_tab_history.c`) -/

/-- The slot pairs `(idx1, idx2)` that the loop of `draw_line_graph` computes,
one per iteration `i = 0 .. hist_len - 2`. -/
def draw_line_graph_slots (hist_len start_idx : Int) : List (Int × Int) :=
  (List.range (hist_len - 1).toNat).map fun (i : Nat) =>
    (Int.tmod (start_idx + (i : Int)) hist_len, Int.tmod (start_idx + (i : Int) + 1) hist_len)

/-- Embeds `draw_line_graph`: the samples `(history[idx1], history[idx2])` joined by
the line segment of each iteration, in drawing order.  The pixel coordinates,
which are computed from these two samples alone, are left out. -/
def draw_line_graph (history : Nat → ℚ) (hist_len start_idx : Int) : List (ℚ × ℚ) :=
  (draw_line_graph_slots hist_len start_idx).map fun p =>
    (history p.1.toNat, history p.2.toNat)

/-- Embeds `draw_history_mini_graph`: the samples of the application's CPU ring joined
by each line segment, in drawing order. -/
def draw_history_mini_graph (app : TmAppHistory) : List (ℚ × ℚ) :=
  (List.range (TM_HIST_SHORT - 1).toNat).map fun (i : Nat) =>
    (app.cpu_time_history (Int.tmod (app.history_idx + (i : Int)) TM_HIST_SHORT).toNat,
     app.cpu_time_history (Int.tmod (app.history_idx + (i : Int) + 1) TM_HIST_SHORT).toNat)

/-- The slot pairs `(idx1, idx2)` that the loop of `draw_history_mini_graph`
computes. -/
def draw_history_mini_graph_slots (app : TmAppHistory) : List (Int × Int) :=
  (List.range (TM_HIST_SHORT - 1).toNat).map fun (i : Nat) =>
    (Int.tmod (app.history_idx + (i : Int)) TM_HIST_SHORT,
     Int.tmod (app.history_idx + (i : Int) + 1) TM_HIST_SHORT)

/-- Run a fallible update once per input and collect the state after each
run; `none` as soon as one update fails. -/
def runTrace {σ ι : Type} (step : σ → ι → Option σ) : σ → List ι → Option (List σ)
  | _, [] => some []
  | s, i :: rest =>
    match step s i with
    | none => none
    | some s' =>
      match runTrace step s' rest with
      | none => none
      | some tr => some (s' :: tr)

/-! ## Geometry and scrollbar data (`raylib.h`, `tm_types.h`) -/

/-- Raylib `Vector2`. -/
structure Vector2 where
  x : ℚ
  y : ℚ

/-- Raylib `Rectangle`. -/
structure Rectangle where
  x : ℚ
  y : ℚ
  width : ℚ
  height : ℚ

/-- Raylib `CheckCollisionPointRec`: the point lies in the rectangle, whose
left and top edges belong to it and whose right and bottom edges do not. -/
def CheckCollisionPointRec (point : Vector2) (r : Rectangle) : Bool :=
  decide (point.x ≥ r.x) && decide (point.x < r.x + r.width) &&
    decide (point.y ≥ r.y) && decide (point.y < r.y + r.height)

/-- Embeds `TmScrollBar`. -/
structure TmScrollBar where
  bounds : Rectangle
  thumb : Rectangle
  is_dragging : Bool
  drag_offset : Int
  content_height : Int
  visible_height : Int
  scroll_pos : Int
  max_scroll : Int

/-! ## Scrollbar interaction (`ui_scrollbar.c`)

`IsMouseButtonPressed(MOUSE_LEFT_BUTTON)` and
`IsMouseButtonReleased(MOUSE_LEFT_BUTTON)` of the current frame are the
parameters `pressed` and `released`. -/

/-- Embeds `ui_scrollbar_needed`. -/
def ui_scrollbar_needed (sb : TmScrollBar) : Bool :=
  decide (sb.content_height > sb.visible_height)

/-- Embeds `ui_scrollbar_thumb_h`; the `int` product is taken modulo `2 ^ 32`. -/
def ui_scrollbar_thumb_h (sb : TmScrollBar) : ℚ :=
  let th : ℚ := ((wrap32 (sb.visible_height * sb.visible_height) : Int) : ℚ)
    / (sb.content_height : ℚ)
  if th < 30 then 30 else th

/-- Embeds `ui_scrollbar_thumb_rect`. -/
def ui_scrollbar_thumb_rect (sb : TmScrollBar) (th : ℚ) : Rectangle :=
  let range := sb.bounds.height - th
  let y := if sb.max_scroll > 0
    then sb.bounds.y + ((sb.scroll_pos : ℚ) * range) / (sb.max_scroll : ℚ)
    else sb.bounds.y
  { x := sb.bounds.x, y := y, width := sb.bounds.width, height := th }

/-- Embeds `ui_scrollbar_handle_click`. -/
def ui_scrollbar_handle_click (sb : TmScrollBar) (mouse : Vector2) (th : ℚ)
    (pressed : Bool) : TmScrollBar :=
  if !pressed then sb
  else if CheckCollisionPointRec mouse sb.thumb then
    { sb with is_dragging := true, drag_offset := truncQ (mouse.y - sb.thumb.y) }
  else if CheckCollisionPointRec mouse sb.bounds then
    let new_y := mouse.y - th / 2
    let lo := sb.bounds.y
    let hi := sb.bounds.y + sb.bounds.height - th
    let new_y := if new_y < lo then lo else new_y
    let new_y := if new_y > hi then hi else new_y
    let range := sb.bounds.height - th
    { sb with scroll_pos :=
        if range > 0 then truncQ ((new_y - sb.bounds.y) * (sb.max_scroll : ℚ) / range) else 0 }
  else sb

/-- Embeds `ui_scrollbar_handle_drag`. -/
def ui_scrollbar_handle_drag (sb : TmScrollBar) (mouse : Vector2) (th : ℚ)
    (released : Bool) : TmScrollBar :=
  if released then { sb with is_dragging := false }
  else if !sb.is_dragging then sb
  else
    let new_y := mouse.y - (sb.drag_offset : ℚ)
    let lo := sb.bounds.y
    let hi := sb.bounds.y + sb.bounds.height - th
    let new_y := if new_y < lo then lo else new_y
    let new_y := if new_y > hi then hi else new_y
    let range := sb.bounds.height - th
    { sb with scroll_pos :=
        if range > 0 then truncQ ((new_y - sb.bounds.y) * (sb.max_scroll : ℚ) / range) else 0 }

/-- Embeds `ui_scrollbar_handle_wheel`. -/
def ui_scrollbar_handle_wheel (sb : TmScrollBar) (wheel : ℚ) (scroll_area : Rectangle)
    (mouse : Vector2) : TmScrollBar :=
  if wheel = 0 then sb
  else if !CheckCollisionPointRec mouse scroll_area then sb
  else
    let scroll_pos := sb.scroll_pos - truncQ (wheel * (TM_ROW_HEIGHT_PX : ℚ))
    let scroll_pos := if scroll_pos < 0 then 0 else scroll_pos
    let scroll_pos := if scroll_pos > sb.max_scroll then sb.max_scroll else scroll_pos
    { sb with scroll_pos := scroll_pos }

/-- Embeds `ui_scrollbar_update`. -/
def ui_scrollbar_update (sb : TmScrollBar) (mouse : Vector2) (wheel : ℚ)
    (scroll_area : Rectangle) (pressed released : Bool) : TmScrollBar :=
  if !ui_scrollbar_needed sb then sb
  else
    let th := ui_scrollbar_thumb_h sb
    let sb := { sb with thumb := ui_scrollbar_thumb_rect sb th }
    let sb := ui_scrollbar_handle_click sb mouse th pressed
    let sb := ui_scrollbar_handle_drag sb mouse th released
    ui_scrollbar_handle_wheel sb wheel scroll_area mouse

/-- Result codes, `tm_result_t`. -/
inductive tm_result_t where
  | TM_OK
  | TM_ERR_ALLOC
  | TM_ERR_IO
  | TM_ERR_PLATFORM
  | TM_ERR_INVALID_ARG
  deriving DecidableEq

/-- Tab identifiers, `TmTabId`. -/
inductive TmTabId where
  | TM_TAB_PROCESSES
  | TM_TAB_PERFORMANCE
  | TM_TAB_APP_HISTORY
  | TM_TAB_STARTUP
  deriving DecidableEq

/-- A process entry, `TmProcess` (the `next` pointer is the list structure). -/
structure TmProcess where
  name : String
  pid : Nat
  memory_bytes : Nat
  cpu_percent : ℚ
  is_selected : Bool

/-- A startup application entry, `TmStartupApp`. -/
structure TmStartupApp where
  name : String
  publisher : String
  status : String
  impact_s : ℚ
  is_enabled : Bool

/-- Embeds `TmButton`, without caption and colours. -/
structure TmButton where
  bounds : Rectangle
  is_hovered : Bool
  is_enabled : Bool

/-- Embeds `TmTab`, without caption. -/
structure TmTab where
  bounds : Rectangle
  is_active : Bool
  is_hovered : Bool

/-- Embeds `TmAppState`, without the toast message. -/
structure TmAppState where
  process_list : List TmProcess
  process_count : Int
  startup_list : List TmStartupApp
  history_list : List TmAppHistory
  perf : TmPerfData
  tabs : Nat → TmTab
  refresh_btn : TmButton
  end_task_btn : TmButton
  enable_startup_btn : TmButton
  disable_startup_btn : TmButton
  process_scroll : TmScrollBar
  startup_scroll : TmScrollBar
  history_scroll : TmScrollBar
  selected_process_idx : Int
  selected_startup_idx : Int
  active_tab : TmTabId
  screen_w : Int
  screen_h : Int
  is_resizing : Bool

/-! ## Layout and scrollbar content (`ui_core.c`) -/

/-- Embeds `layout_scrollbars`. -/
def layout_scrollbars (s : TmAppState) : TmAppState :=
  let x : Int := s.screen_w - TM_SCROLLBAR_WIDTH_PX - 3
  { s with
    process_scroll := { s.process_scroll with
      bounds := ⟨(x : ℚ), 120, (TM_SCROLLBAR_WIDTH_PX : ℚ), ((s.screen_h - 200 : Int) : ℚ)⟩
      visible_height := s.screen_h - 200 }
    startup_scroll := { s.startup_scroll with
      bounds := ⟨(x : ℚ), 220, (TM_SCROLLBAR_WIDTH_PX : ℚ), ((s.screen_h - 300 : Int) : ℚ)⟩
      visible_height := s.screen_h - 300 }
    history_scroll := { s.history_scroll with
      bounds := ⟨(x : ℚ), 230, (TM_SCROLLBAR_WIDTH_PX : ℚ), ((s.screen_h - 310 : Int) : ℚ)⟩
      visible_height := s.screen_h - 310 } }

/-- Embeds `layout_buttons`. -/
def layout_buttons (s : TmAppState) : TmAppState :=
  { s with
    refresh_btn := { s.refresh_btn with
      bounds := ⟨((s.screen_w - 180 : Int) : ℚ), 10, 120, 30⟩ }
    end_task_btn := { s.end_task_btn with
      bounds := ⟨((s.screen_w - 310 : Int) : ℚ), 10, 120, 30⟩ }
    enable_startup_btn := { s.enable_startup_btn with
      bounds := ⟨((s.screen_w - 320 : Int) : ℚ), 10, 140, 30⟩ }
    disable_startup_btn := { s.disable_startup_btn with
      bounds := ⟨((s.screen_w - 470 : Int) : ℚ), 10, 140, 30⟩ } }

/-- The tab widths `tab_w` of `layout_tabs`. -/
def tab_w : List Int := [100, 100, 100, 80]

/-- Embeds `layout_tabs`: the tabs are laid out left to right from x = 10 with a gap
of 5 pixels. -/
def layout_tabs (s : TmAppState) : TmAppState :=
  let step := fun (acc : (Nat → TmTab) × Int × Nat) (w : Int) =>
    (Function.update acc.1 acc.2.2
        { acc.1 acc.2.2 with bounds := ⟨(acc.2.1 : ℚ), 50, (w : ℚ), 35⟩ },
      acc.2.1 + (w + 5), acc.2.2 + 1)
  { s with tabs := (tab_w.foldl step (s.tabs, 10, 0)).1 }

/-- The counting loops of `update_scrollbar_content`: walk the linked list and
increment a counter that starts at 0. -/
def list_count {α : Type} (l : List α) : Int :=
  l.foldl (fun cnt _ => cnt + 1) 0

/-- Embeds `update_scrollbar_content`. -/
def update_scrollbar_content (s : TmAppState) : TmAppState :=
  let process_content := s.process_count * TM_ROW_HEIGHT_PX
  let excess_p := process_content - s.process_scroll.visible_height
  let startup_cnt := list_count s.startup_list
  let startup_content := startup_cnt * TM_STARTUP_ROW_PX
  let excess_s := startup_content - s.startup_scroll.visible_height
  let hist_cnt := list_count s.history_list
  let history_content := hist_cnt * TM_HISTORY_ROW_PX
  let excess_h := history_content - s.history_scroll.visible_height
  { s with
    process_scroll := { s.process_scroll with
      content_height := process_content
      max_scroll := if excess_p > 0 then excess_p else 0 }
    startup_scroll := { s.startup_scroll with
      content_height := startup_content
      max_scroll := if excess_s > 0 then excess_s else 0 }
    history_scroll := { s.history_scroll with
      content_height := history_content
      max_scroll := if excess_h > 0 then excess_h else 0 } }

/-- Embeds `ui_layout_update`. -/
def ui_layout_update (s : TmAppState) : TmAppState :=
  update_scrollbar_content (layout_scrollbars (layout_buttons (layout_tabs s)))

/-- Embeds `handle_scrollbars`. -/
def handle_scrollbars (s : TmAppState) (mouse : Vector2) (wheel : ℚ)
    (pressed released : Bool) : TmAppState :=
  match s.active_tab with
  | TmTabId.TM_TAB_PROCESSES =>
    let area : Rectangle :=
      ⟨10, 120, ((s.screen_w - 30 : Int) : ℚ), ((s.screen_h - 200 : Int) : ℚ)⟩
    { s with process_scroll :=
        ui_scrollbar_update s.process_scroll mouse wheel area pressed released }
  | TmTabId.TM_TAB_STARTUP =>
    let area : Rectangle :=
      ⟨20, 120, ((s.screen_w - 30 : Int) : ℚ), ((s.screen_h - 170 : Int) : ℚ)⟩
    { s with startup_scroll :=
        ui_scrollbar_update s.startup_scroll mouse wheel area pressed released }
  | TmTabId.TM_TAB_APP_HISTORY =>
    let area : Rectangle :=
      ⟨20, 120, ((s.screen_w - 30 : Int) : ℚ), ((s.screen_h - 170 : Int) : ℚ)⟩
    { s with history_scroll :=
        ui_scrollbar_update s.history_scroll mouse wheel area pressed released }
  | TmTabId.TM_TAB_PERFORMANCE => s

/-- The hover loop at the head of `ui_input_update`. -/
def update_tab_hover (s : TmAppState) (mouse : Vector2) : TmAppState :=
  { s with tabs := fun i =>
      if i < 4 then { s.tabs i with is_hovered := CheckCollisionPointRec mouse (s.tabs i).bounds }
      else s.tabs i }

/-- Embeds `ui_input_update` in a frame in which the left button is not pressed and no
key is pressed: `handle_tab_clicks`, `handle_process_selection` and
`handle_startup_selection` return at their `IsMouseButtonPressed` test and
`handle_keyboard` runs no command, which leaves the hover loop,
`handle_scrollbars` and `update_scrollbar_content`. -/
def ui_input_update_no_press (s : TmAppState) (mouse : Vector2) (wheel : ℚ)
    (released : Bool) : TmAppState :=
  update_scrollbar_content (handle_scrollbars (update_tab_hover s mouse) mouse wheel false released)

/-! ## Process list (`tm_process.c`, `main.c`) -/

/-- Embeds `tm_process_list_free`. -/
def tm_process_list_free (s : TmAppState) : TmAppState :=
  { s with process_list := [], process_count := 0 }

/-- Embeds `prepend_process`; `alloc_ok` tells whether `malloc` returns a node. -/
def prepend_process (s : TmAppState) (entry : TmProcess) (alloc_ok : Bool) :
    tm_result_t × TmAppState :=
  if !alloc_ok then (tm_result_t.TM_ERR_ALLOC, s)
  else (tm_result_t.TM_OK,
    { s with process_list := entry :: s.process_list, process_count := s.process_count + 1 })

/-- The parse loop of `tm_process_list_refresh`: each line that
`parse_process_line` accepts is prepended; the loop stops with the error of the
first failed allocation. -/
def refresh_loop (s : TmAppState) : List (TmProcess × Bool) → tm_result_t × TmAppState
  | [] => (tm_result_t.TM_OK, s)
  | (entry, alloc_ok) :: rest =>
    match prepend_process s entry alloc_ok with
    | (tm_result_t.TM_OK, s') => refresh_loop s' rest
    | (r, s') => (r, s')

/-- Embeds `notify_observers`: the registered observers run in registration order. -/
def notify_observers (observers : List (TmAppState → TmAppState)) (s : TmAppState) :
    TmAppState :=
  observers.foldl (fun acc f => f acc) s

/-- Embeds `on_process_changed` of `main.c`, the observer registered by `app_init`. -/
def on_process_changed (s : TmAppState) : TmAppState := ui_layout_update s

/-- Embeds `tm_process_list_refresh`; `fp` is `none` when `open_process_list` fails and
otherwise the entries that `parse_process_line` yields before end of input,
each with the outcome of its allocation. -/
def tm_process_list_refresh (s : TmAppState) (fp : Option (List (TmProcess × Bool)))
    (observers : List (TmAppState → TmAppState)) : tm_result_t × TmAppState :=
  let s := tm_process_list_free s
  match fp with
  | none => (tm_result_t.TM_ERR_IO, s)
  | some lines =>
    match refresh_loop s lines with
    | (tm_result_t.TM_OK, s) =>
      let s := { s with selected_process_idx := -1,
                        end_task_btn := { s.end_task_btn with is_enabled := false } }
      (tm_result_t.TM_OK, notify_observers observers s)
    | (r, s) => (r, s)

/-! ## Start-up (`ui_core.c`, `main.c`) -/

/-- A zero-filled `TmScrollBar`. -/
def zero_scrollbar : TmScrollBar :=
  { bounds := ⟨0, 0, 0, 0⟩, thumb := ⟨0, 0, 0, 0⟩, is_dragging := false, drag_offset := 0,
    content_height := 0, visible_height := 0, scroll_pos := 0, max_scroll := 0 }

/-- The state `TmAppState app = {0}` of `main`, with the performance data
initialised and the window size set as `app_init` does before `ui_init`. -/
def zero_state : TmAppState :=
  { process_list := [], process_count := 0, startup_list := [], history_list := [],
    perf := tm_perf_data_init 0,
    tabs := fun _ => ⟨⟨0, 0, 0, 0⟩, false, false⟩,
    refresh_btn := ⟨⟨0, 0, 0, 0⟩, false, false⟩,
    end_task_btn := ⟨⟨0, 0, 0, 0⟩, false, false⟩,
    enable_startup_btn := ⟨⟨0, 0, 0, 0⟩, false, false⟩,
    disable_startup_btn := ⟨⟨0, 0, 0, 0⟩, false, false⟩,
    process_scroll := zero_scrollbar, startup_scroll := zero_scrollbar,
    history_scroll := zero_scrollbar,
    selected_process_idx := 0, selected_startup_idx := 0,
    active_tab := TmTabId.TM_TAB_PROCESSES,
    screen_w := 1200, screen_h := 800, is_resizing := false }

/-- Embeds `init_tabs`. -/
def init_tabs (s : TmAppState) : TmAppState :=
  { s with tabs := fun i =>
      if i < 4 then { s.tabs i with is_active := decide (i = 0), is_hovered := false }
      else s.tabs i }

/-- Embeds `init_buttons`. -/
def init_buttons (s : TmAppState) : TmAppState :=
  { s with
    refresh_btn := ⟨⟨0, 0, 0, 0⟩, false, true⟩
    end_task_btn := ⟨⟨0, 0, 0, 0⟩, false, false⟩
    enable_startup_btn := ⟨⟨0, 0, 0, 0⟩, false, false⟩
    disable_startup_btn := ⟨⟨0, 0, 0, 0⟩, false, false⟩ }

/-- Embeds `ui_init`. -/
def ui_init (s : TmAppState) : TmAppState :=
  let s := init_buttons (init_tabs s)
  ui_layout_update
    { s with selected_process_idx := -1, selected_startup_idx := -1,
             active_tab := TmTabId.TM_TAB_PROCESSES }

/-- A process entry as `parse_process_line` fills it. -/
def demo_process : TmProcess :=
  { name := "bash", pid := 4242, memory_bytes := 2048 * 1024, cpu_percent := 12,
    is_selected := false }

/-- A run of the application in which the process list shrinks: start-up, a
refresh that lists 25 processes, a frame on the Processes tab with the pointer
over the list and wheel delta -5, then a refresh that lists 3 processes.  Every
allocation succeeds and the observer registered by `app_init` is in place. -/
def shrink_run : TmAppState :=
  let s := ui_init zero_state
  let s := (tm_process_list_refresh s
    (some ((List.replicate 25 demo_process).map fun e => (e, true))) [on_process_changed]).2
  let s := ui_input_update_no_press s ⟨400, 300⟩ (-5) false
  (tm_process_list_refresh s
    (some ((List.replicate 3 demo_process).map fun e => (e, true))) [on_process_changed]).2

/-! ## Scrollbar content in `src/main.c` -/

/-- Embeds `ScrollBar` of `src/main.c`. -/
structure ScrollBar where
  bounds : Rectangle
  thumb : Rectangle
  isDragging : Bool
  dragOffset : Int
  contentHeight : Int
  visibleHeight : Int
  scrollPosition : Int
  maxScroll : Int

/-- The globals of `src/main.c` that `UI_UpdateScrollBars` reads and writes. -/
structure MainGlobals where
  g_processCount : Int
  g_startupList : List TmStartupApp
  g_appHistoryList : List TmAppHistory
  g_processScrollBar : ScrollBar
  g_startupScrollBar : ScrollBar
  g_appHistoryScrollBar : ScrollBar

/-- Embeds `UI_UpdateScrollBars` of `src/main.c`. -/
def UI_UpdateScrollBars (g : MainGlobals) : MainGlobals :=
  let pc := g.g_processCount * 30
  let sc := list_count g.g_startupList * 45
  let hc := list_count g.g_appHistoryList * 65
  { g with
    g_processScrollBar := { g.g_processScrollBar with
      contentHeight := pc
      maxScroll := if pc - g.g_processScrollBar.visibleHeight > 0
        then pc - g.g_processScrollBar.visibleHeight else 0 }
    g_startupScrollBar := { g.g_startupScrollBar with
      contentHeight := sc
      maxScroll := if sc - g.g_startupScrollBar.visibleHeight > 0
        then sc - g.g_startupScrollBar.visibleHeight else 0 }
    g_appHistoryScrollBar := { g.g_appHistoryScrollBar with
      contentHeight := hc
      maxScroll := if hc - g.g_appHistoryScrollBar.visibleHeight > 0
        then hc - g.g_appHistoryScrollBar.visibleHeight else 0 } }

/-! ## Scrollbar drawing (`ui_scrollbar.c`) -/

/-- Embeds `ui_scrollbar_draw`: the rectangles drawn, track first and thumb second;
nothing is drawn when the content fits the viewport. -/
def ui_scrollbar_draw (sb : TmScrollBar) : List Rectangle :=
  if sb.content_height ≤ sb.visible_height then [] else [sb.bounds, sb.thumb]

/-! ## Process rows (`ui_tab_processes.c`) -/

/-- One call of `draw_process_row`: the process drawn, the y coordinate of its
row and its index in the list. -/
structure DrawnRow where
  proc : TmProcess
  y_pos : Int
  row_index : Int

/-- The local `skip` of `draw_process_rows`: the number of rows above the
viewport. -/
def rows_skip (scroll_px : Int) : Int := Int.tdiv scroll_px TM_ROW_HEIGHT_PX

/-- The local `row_off` of `draw_process_rows`: the pixel offset within the first
row. -/
def rows_off (scroll_px : Int) : Int := Int.tmod scroll_px TM_ROW_HEIGHT_PX

/-- The local `max_vis` of `draw_process_rows`: the bound on the number of loop
iterations. -/
def rows_max_vis (list_h : Int) : Int := Int.tdiv list_h TM_ROW_HEIGHT_PX + 1

/-- The first loop of `draw_process_rows`, `while (cur && abs_idx < skip)`: the
remaining list and the index reached. -/
def skip_rows : List TmProcess → Int → Int → List TmProcess × Int
  | [], abs_idx, _ => ([], abs_idx)
  | p :: rest, abs_idx, skip =>
    if abs_idx < skip then skip_rows rest (abs_idx + 1) skip else (p :: rest, abs_idx)

/-- The second loop of `draw_process_rows`, `while (cur && vis_idx < max_vis)`: a
row is drawn when its y coordinate lies in `[start_y, start_y + list_h)`. -/
def draw_rows_loop (start_y list_h row_off max_vis : Int) :
    List TmProcess → Int → Int → List DrawnRow
  | [], _, _ => []
  | p :: rest, abs_idx, vis_idx =>
    if vis_idx < max_vis then
      let y := start_y + vis_idx * TM_ROW_HEIGHT_PX - row_off
      let later := draw_rows_loop start_y list_h row_off max_vis rest (abs_idx + 1) (vis_idx + 1)
      if y ≥ start_y ∧ y < start_y + list_h then ⟨p, y, abs_idx⟩ :: later else later
    else []

/-- Embeds `draw_process_rows`: the rows drawn, in drawing order (`content_w` only
sets the width of the row rectangles). -/
def draw_process_rows (s : TmAppState) (start_y list_h : Int) : List DrawnRow :=
  let scroll_px := s.process_scroll.scroll_pos
  let cur := skip_rows s.process_list 0 (rows_skip scroll_px)
  draw_rows_loop start_y list_h (rows_off scroll_px) (rows_max_vis list_h) cur.1 cur.2 0

/-- The process rows drawn by `ui_tab_process_draw`: `start_y = 120` and
`list_h = screen_h - 200`. -/
def ui_tab_process_draw (s : TmAppState) : List DrawnRow :=
  draw_process_rows s 120 (s.screen_h - 200)

/-! ## Row selection (`ui_core.c`, `tm_startup.c`) -/

/-- The marking loop of `handle_process_selection`: node `i` is selected exactly
when `i == new_idx`. -/
def mark_selected : List TmProcess → Int → Int → List TmProcess
  | [], _, _ => []
  | p :: rest, i, new_idx =>
    { p with is_selected := decide (i = new_idx) } :: mark_selected rest (i + 1) new_idx

/-- Embeds `handle_process_selection`. -/
def handle_process_selection (s : TmAppState) (mouse : Vector2) (pressed : Bool) :
    TmAppState :=
  if !(s.tabs 0).is_active then s
  else if !pressed then s
  else
    let area : Rectangle :=
      ⟨10, 120, ((s.screen_w - 30 : Int) : ℚ), ((s.screen_h - 200 : Int) : ℚ)⟩
    if !CheckCollisionPointRec mouse area then s
    else
      let click_y := truncQ (mouse.y - 120) + s.process_scroll.scroll_pos
      let new_idx := Int.tdiv click_y TM_ROW_HEIGHT_PX
      if new_idx < 0 ∨ new_idx ≥ s.process_count then s
      else
        { s with
          selected_process_idx := new_idx
          end_task_btn := { s.end_task_btn with is_enabled := true }
          process_list := mark_selected s.process_list 0 new_idx }

/-- The walk of `tm_startup_get`, `while (cur && i < index)`. -/
def startup_walk : List TmStartupApp → Int → Int → Option TmStartupApp
  | [], _, _ => none
  | a :: rest, i, index => if i < index then startup_walk rest (i + 1) index else some a

/-- Embeds `tm_startup_get`; `none` is the NULL result. -/
def tm_startup_get (s : TmAppState) (index : Int) : Option TmStartupApp :=
  if index < 0 then none else startup_walk s.startup_list 0 index

/-- Embeds `handle_startup_selection`. -/
def handle_startup_selection (s : TmAppState) (mouse : Vector2) (pressed : Bool) :
    TmAppState :=
  if !(s.tabs 3).is_active then s
  else if !pressed then s
  else
    let area : Rectangle :=
      ⟨30, 220, ((s.screen_w - 60 : Int) : ℚ), ((s.screen_h - 300 : Int) : ℚ)⟩
    if !CheckCollisionPointRec mouse area then s
    else
      let click_y := truncQ (mouse.y - 220) + s.startup_scroll.scroll_pos
      let new_idx := Int.tdiv click_y TM_STARTUP_ROW_PX
      match tm_startup_get s new_idx with
      | none => s
      | some app =>
        { s with
          selected_startup_idx := new_idx
          enable_startup_btn := { s.enable_startup_btn with is_enabled := !app.is_enabled }
          disable_startup_btn := { s.disable_startup_btn with is_enabled := app.is_enabled } }

/-! ## Chart normalisation (`ui_tab_history.c`, `src/main.c`) -/

/-- Embeds `posix_sample_cpu`; `r` is the value returned by `rand()`. -/
def posix_sample_cpu (r : Nat) : ℚ := 5 + ((r % 60 : Nat) : ℚ)

/-- Embeds `win32_sample_cpu`; `r` is the value returned by `rand()`. -/
def win32_sample_cpu (r : Nat) : ℚ := 5 + ((r % 60 : Nat) : ℚ)

/-! ## Throttled update (`tm_perf.c`, `tm_app_history.c`)

`CLOCKS_PER_SEC` of `<time.h>` is the parameter `cps`. -/

def TM_PERF_UPDATE_INTERVAL_S : ℚ := 1
def TM_HISTORY_UPDATE_INTERVAL_S : ℚ := 2

/-- Embeds `tm_perf_delta_seconds`; `now` is the clock reading. -/
def tm_perf_delta_seconds (d : TmPerfData) (now : Int) (cps : ℚ) : ℚ :=
  ((now - d.last_update : Int) : ℚ) / cps

/-- The C cast `(uint32_t)x` of a non-negative float. -/
def truncU32 (q : ℚ) : Nat := ⌊q⌋₊ % 4294967296

/-- Everything `tm_history_tick` obtains from outside for one list entry: the
clock reading of the interval test, the two `rand()` results and the clock
reading stored by `update_history_entry`. -/
structure HistoryInput where
  now : Int
  r1 : Nat
  r2 : Nat
  stamp : Int

/-- The loop of `tm_history_tick`; entry number `k` of the list receives
`inp k`.  `none` when an update writes outside its ring. -/
def history_tick_loop (cps : ℚ) (inp : Nat → HistoryInput) :
    List TmAppHistory → Nat → Option (List TmAppHistory)
  | [], _ => some []
  | app :: rest, k =>
    let delta : ℚ := (((inp k).now - app.last_update : Int) : ℚ) / cps
    if delta ≥ TM_HISTORY_UPDATE_INTERVAL_S then
      match update_history_entry app (inp k).r1 (inp k).r2 (inp k).stamp with
      | none => none
      | some app' =>
        match history_tick_loop cps inp rest (k + 1) with
        | none => none
        | some rest' => some (app' :: rest')
    else
      match history_tick_loop cps inp rest (k + 1) with
      | none => none
      | some rest' => some (app :: rest')

/-- Embeds `tm_history_tick`. -/
def tm_history_tick (s : TmAppState) (cps : ℚ) (inp : Nat → HistoryInput) :
    Option (tm_result_t × TmAppState) :=
  match history_tick_loop cps inp s.history_list 0 with
  | none => none
  | some l => some (tm_result_t.TM_OK, { s with history_list := l })

/-- Everything `tm_perf_update` obtains from outside: the clock readings of
`tm_perf_delta_seconds` and of the `last_update` assignment, the CPU sample,
the memory figures, the `rand()` results of the disk, GPU and thread updates,
and the inputs of `tm_history_tick`. -/
structure PerfInput where
  now : Int
  stamp : Int
  cpu_sample : ℚ
  mem_used : Nat
  mem_total : Nat
  r_disk : Nat
  r_gpu : Nat
  r_threads : Nat
  history : Nat → HistoryInput

/-- Embeds `tm_perf_update`.  `none` when a ring update writes outside its
array. -/
def tm_perf_update (s : TmAppState) (cps : ℚ) (inp : PerfInput) :
    Option (tm_result_t × TmAppState) :=
  let delta := tm_perf_delta_seconds s.perf inp.now cps
  if delta < TM_PERF_UPDATE_INTERVAL_S then some (tm_result_t.TM_OK, s)
  else
    let perf := { s.perf with
      last_update := inp.stamp
      process_count := s.process_count
      uptime_s := (s.perf.uptime_s + truncU32 delta) % 4294967296 }
    match update_cpu perf inp.cpu_sample with
    | none => none
    | some perf =>
    match update_memory perf inp.mem_used inp.mem_total with
    | none => none
    | some perf =>
    match update_disk perf inp.r_disk with
    | none => none
    | some perf =>
    match update_gpu perf inp.r_gpu with
    | none => none
    | some perf =>
    match tm_history_tick { s with perf := update_threads perf inp.r_threads } cps inp.history with
    | none => none
    | some (tm_result_t.TM_OK, s') => some (tm_result_t.TM_OK, s')
    | some (r, s') => some (r, s')

/-! ## Startup applications (`tm_startup.c`) -/

/-- The demo table `k_app_names`. -/
def k_app_names : List String :=
  ["Microsoft OneDrive", "Spotify", "Discord", "Steam Client",
   "Adobe Creative Cloud", "NVIDIA Display", "Realtek Audio", "Microsoft Teams"]

/-- The demo table `k_publishers`. -/
def k_publishers : List String :=
  ["Microsoft Corporation", "Spotify AB", "Discord Inc.", "Valve Corporation",
   "Adobe Inc.", "NVIDIA Corporation", "Realtek Semiconductor", "Microsoft Corporation"]

/-- The demo table `k_impacts`. -/
def k_impacts : List ℚ := [2.1, 1.5, 3.2, 4.5, 2.8, 0.5, 0.3, 3.8]

/-- The demo table `k_enabled`. -/
def k_enabled : List Bool := [true, true, false, true, true, true, true, false]

/-- The text that `tm_startup_list_load` and `tm_startup_toggle` copy into
`status`: `app->is_enabled ? "Enabled" : "Disabled"`. -/
def status_text (is_enabled : Bool) : String := if is_enabled then "Enabled" else "Disabled"

/-- Embeds `tm_startup_list_free`. -/
def tm_startup_list_free (s : TmAppState) : TmAppState :=
  { s with startup_list := [] }

/-- The loop of `tm_startup_list_load` over the table indices; `alloc_ok i` tells
whether the `malloc` of iteration `i` returns a node.  The table texts are
shorter than the buffers they are copied into. -/
def startup_load_loop (alloc_ok : Nat → Bool) : List Nat → TmAppState → tm_result_t × TmAppState
  | [], s => (tm_result_t.TM_OK, s)
  | i :: rest, s =>
    if !alloc_ok i then (tm_result_t.TM_ERR_ALLOC, s)
    else
      let app : TmStartupApp :=
        { name := k_app_names.getD i "", publisher := k_publishers.getD i "",
          status := status_text (k_enabled.getD i false),
          impact_s := k_impacts.getD i 0, is_enabled := k_enabled.getD i false }
      startup_load_loop alloc_ok rest { s with startup_list := app :: s.startup_list }

/-- Embeds `tm_startup_list_load`. -/
def tm_startup_list_load (s : TmAppState) (alloc_ok : Nat → Bool) :
    tm_result_t × TmAppState :=
  startup_load_loop alloc_ok (List.range k_app_names.length) (tm_startup_list_free s)

/-- The writes of `tm_startup_toggle` through the pointer that `tm_startup_get`
returns: the walk `while (cur && i < index)` is repeated, and the node it stops
at has `is_enabled` negated and `status` set to match. -/
def startup_toggle_walk : List TmStartupApp → Int → Int → List TmStartupApp
  | [], _, _ => []
  | a :: rest, i, index =>
    if i < index then a :: startup_toggle_walk rest (i + 1) index
    else { a with is_enabled := !a.is_enabled, status := status_text (!a.is_enabled) } :: rest

/-- Embeds `tm_startup_toggle`. -/
def tm_startup_toggle (s : TmAppState) (index : Int) : tm_result_t × TmAppState :=
  match tm_startup_get s index with
  | none => (tm_result_t.TM_ERR_INVALID_ARG, s)
  | some _ =>
    (tm_result_t.TM_OK, { s with startup_list := startup_toggle_walk s.startup_list 0 index })

/-- Start-up as `app_init` runs it up to the startup list: `ui_init`, then
`tm_startup_list_load` with every allocation succeeding. -/
def startup_state : TmAppState :=
  (tm_startup_list_load (ui_init zero_state) (fun _ => true)).2

/-! ## Scrollbar update with checked divisions (`ui_scrollbar.c`)

The same functions as above, with every division whose divisor is computed at
run time made fallible: `none` when the divisor is zero.  The division
`th / 2.0f` of the click handler has a constant divisor. -/

/-- A float division; `none` when the divisor is zero. -/
def checked_div (a b : ℚ) : Option ℚ := if b = 0 then none else some (a / b)

/-- Embeds `ui_scrollbar_thumb_h` with its division checked. -/
def ui_scrollbar_thumb_h_checked (sb : TmScrollBar) : Option ℚ :=
  match checked_div ((wrap32 (sb.visible_height * sb.visible_height) : Int) : ℚ)
      (sb.content_height : ℚ) with
  | none => none
  | some th => some (if th < 30 then 30 else th)

/-- Embeds `ui_scrollbar_thumb_rect` with its division checked. -/
def ui_scrollbar_thumb_rect_checked (sb : TmScrollBar) (th : ℚ) : Option Rectangle :=
  let range := sb.bounds.height - th
  if sb.max_scroll > 0 then
    match checked_div ((sb.scroll_pos : ℚ) * range) (sb.max_scroll : ℚ) with
    | none => none
    | some q => some { x := sb.bounds.x, y := sb.bounds.y + q, width := sb.bounds.width,
                       height := th }
  else some { x := sb.bounds.x, y := sb.bounds.y, width := sb.bounds.width, height := th }

/-- Embeds `ui_scrollbar_handle_click` with its division checked. -/
def ui_scrollbar_handle_click_checked (sb : TmScrollBar) (mouse : Vector2) (th : ℚ)
    (pressed : Bool) : Option TmScrollBar :=
  if !pressed then some sb
  else if CheckCollisionPointRec mouse sb.thumb then
    some { sb with is_dragging := true, drag_offset := truncQ (mouse.y - sb.thumb.y) }
  else if CheckCollisionPointRec mouse sb.bounds then
    let new_y := mouse.y - th / 2
    let lo := sb.bounds.y
    let hi := sb.bounds.y + sb.bounds.height - th
    let new_y := if new_y < lo then lo else new_y
    let new_y := if new_y > hi then hi else new_y
    let range := sb.bounds.height - th
    if range > 0 then
      match checked_div ((new_y - sb.bounds.y) * (sb.max_scroll : ℚ)) range with
      | none => none
      | some q => some { sb with scroll_pos := truncQ q }
    else some { sb with scroll_pos := 0 }
  else some sb

/-- Embeds `ui_scrollbar_handle_drag` with its division checked. -/
def ui_scrollbar_handle_drag_checked (sb : TmScrollBar) (mouse : Vector2) (th : ℚ)
    (released : Bool) : Option TmScrollBar :=
  if released then some { sb with is_dragging := false }
  else if !sb.is_dragging then some sb
  else
    let new_y := mouse.y - (sb.drag_offset : ℚ)
    let lo := sb.bounds.y
    let hi := sb.bounds.y + sb.bounds.height - th
    let new_y := if new_y < lo then lo else new_y
    let new_y := if new_y > hi then hi else new_y
    let range := sb.bounds.height - th
    if range > 0 then
      match checked_div ((new_y - sb.bounds.y) * (sb.max_scroll : ℚ)) range with
      | none => none
      | some q => some { sb with scroll_pos := truncQ q }
    else some { sb with scroll_pos := 0 }

/-- Embeds `ui_scrollbar_update` with its divisions checked. -/
def ui_scrollbar_update_checked (sb : TmScrollBar) (mouse : Vector2) (wheel : ℚ)
    (scroll_area : Rectangle) (pressed released : Bool) : Option TmScrollBar :=
  if !ui_scrollbar_needed sb then some sb
  else
    match ui_scrollbar_thumb_h_checked sb with
    | none => none
    | some th =>
    match ui_scrollbar_thumb_rect_checked sb th with
    | none => none
    | some thumb =>
    match ui_scrollbar_handle_click_checked { sb with thumb := thumb } mouse th pressed with
    | none => none
    | some sb =>
    match ui_scrollbar_handle_drag_checked sb mouse th released with
    | none => none
    | some sb => some (ui_scrollbar_handle_wheel sb wheel scroll_area mouse)

/-! ## Scrollbar interaction in `src/Version_1/main.c` and `src/main.c`

`HandleScrollBarInteraction` of `Version_1` and `UI_HandleScrollBarInteraction`
of `src/main.c` are the same text except for the branch that handles a press
on the track outside the thumb.  `ScrollBar` is declared identically in both
files.  The divisions have no guard in either file; the embedding returns
`none` when a divisor is zero.  The arguments `pressed`, `released` and `wheel`
stand for `IsMouseButtonPressed`, `IsMouseButtonReleased` and
`GetMouseWheelMove`, `screenWidth` for the global of that name. -/

/-- The track-click branch of `HandleScrollBarInteraction` (`Version_1`): the
track-relative thumb top is clamped against `bounds.y` and
`bounds.y + bounds.height - thumbHeight`. -/
def HandleScrollBarInteraction_track (scrollBar : ScrollBar) (mousePos : Vector2)
    (thumbHeight : ℚ) : Option ScrollBar :=
  let clickY := mousePos.y - scrollBar.bounds.y
  let newThumbY := clickY - thumbHeight / 2
  let newThumbY := if newThumbY < scrollBar.bounds.y then scrollBar.bounds.y else newThumbY
  let newThumbY :=
    if newThumbY > scrollBar.bounds.y + scrollBar.bounds.height - thumbHeight
    then scrollBar.bounds.y + scrollBar.bounds.height - thumbHeight else newThumbY
  match checked_div ((newThumbY - scrollBar.bounds.y) * (scrollBar.maxScroll : ℚ))
      (scrollBar.bounds.height - thumbHeight) with
  | none => none
  | some q => some { scrollBar with scrollPosition := truncQ q }

/-- The track-click branch of `UI_HandleScrollBarInteraction` (`src/main.c`): the
track-relative thumb top is clamped against 0 and `bounds.height - thumbHeight`. -/
def UI_HandleScrollBarInteraction_track (scrollBar : ScrollBar) (mousePos : Vector2)
    (thumbHeight : ℚ) : Option ScrollBar :=
  let clickY := mousePos.y - scrollBar.bounds.y
  let newThumbY := clickY - thumbHeight / 2
  let newThumbY := if newThumbY < 0 then 0 else newThumbY
  let newThumbY :=
    if newThumbY > scrollBar.bounds.height - thumbHeight
    then scrollBar.bounds.height - thumbHeight else newThumbY
  match checked_div (newThumbY * (scrollBar.maxScroll : ℚ))
      (scrollBar.bounds.height - thumbHeight) with
  | none => none
  | some q => some { scrollBar with scrollPosition := truncQ q }

/-- The text common to both functions, with the track-click branch as the
parameter `track`. -/
def scrollbar_interaction (track : ScrollBar → Vector2 → ℚ → Option ScrollBar)
    (scrollBar : ScrollBar) (visibleAreaY visibleAreaHeight screenWidth : Int)
    (mousePos : Vector2) (pressed released : Bool) (wheel : ℚ) : Option ScrollBar :=
  if scrollBar.contentHeight ≤ scrollBar.visibleHeight then some scrollBar
  else
    match checked_div ((wrap32 (scrollBar.visibleHeight * scrollBar.visibleHeight) : Int) : ℚ)
        (scrollBar.contentHeight : ℚ) with
    | none => none
    | some thumbHeight =>
    let thumbHeight := if thumbHeight < 30 then 30 else thumbHeight
    match checked_div ((scrollBar.scrollPosition : ℚ) * (scrollBar.bounds.height - thumbHeight))
        (scrollBar.maxScroll : ℚ) with
    | none => none
    | some q =>
    let thumbY := scrollBar.bounds.y + q
    let sb : ScrollBar :=
      { scrollBar with
        thumb := ⟨scrollBar.bounds.x, thumbY, scrollBar.bounds.width, thumbHeight⟩ }
    let afterPress : Option ScrollBar :=
      if pressed then
        if CheckCollisionPointRec mousePos sb.thumb then
          some { sb with isDragging := true, dragOffset := truncQ (mousePos.y - sb.thumb.y) }
        else if CheckCollisionPointRec mousePos sb.bounds then track sb mousePos thumbHeight
        else some sb
      else some sb
    match afterPress with
    | none => none
    | some sb =>
    let sb := if released then { sb with isDragging := false } else sb
    let afterDrag : Option ScrollBar :=
      if sb.isDragging then
        let newThumbY := mousePos.y - (sb.dragOffset : ℚ)
        let newThumbY := if newThumbY < sb.bounds.y then sb.bounds.y else newThumbY
        let newThumbY :=
          if newThumbY > sb.bounds.y + sb.bounds.height - thumbHeight
          then sb.bounds.y + sb.bounds.height - thumbHeight else newThumbY
        match checked_div ((newThumbY - sb.bounds.y) * (sb.maxScroll : ℚ))
            (sb.bounds.height - thumbHeight) with
        | none => none
        | some v => some { sb with scrollPosition := truncQ v }
      else some sb
    match afterDrag with
    | none => none
    | some sb =>
    if CheckCollisionPointRec mousePos
        ⟨10, (visibleAreaY : ℚ), ((screenWidth - 30 : Int) : ℚ), (visibleAreaHeight : ℚ)⟩ then
      if wheel ≠ 0 then
        let p := sb.scrollPosition - truncQ (wheel * 30)
        let p := if p < 0 then 0 else p
        let p := if p > sb.maxScroll then sb.maxScroll else p
        some { sb with scrollPosition := p }
      else some sb
    else some sb

/-- Embeds `HandleScrollBarInteraction` of `src/Version_1/main.c`. -/
def HandleScrollBarInteraction (scrollBar : ScrollBar)
    (visibleAreaY visibleAreaHeight screenWidth : Int) (mousePos : Vector2)
    (pressed released : Bool) (wheel : ℚ) : Option ScrollBar :=
  scrollbar_interaction HandleScrollBarInteraction_track scrollBar visibleAreaY
    visibleAreaHeight screenWidth mousePos pressed released wheel

/-- Embeds `UI_HandleScrollBarInteraction` of `src/main.c`. -/
def UI_HandleScrollBarInteraction (scrollBar : ScrollBar)
    (visibleAreaY visibleAreaHeight screenWidth : Int) (mousePos : Vector2)
    (pressed released : Bool) (wheel : ℚ) : Option ScrollBar :=
  scrollbar_interaction UI_HandleScrollBarInteraction_track scrollBar visibleAreaY
    visibleAreaHeight screenWidth mousePos pressed released wheel

/-- The process scrollbar of an 800-pixel-high window listing 100 processes, in
the `ScrollBar` type of `Version_1` and `src/main.c`, at the top of the list. -/
def legacy_scrollbar : ScrollBar :=
  { bounds := ⟨1185, 120, 12, 600⟩, thumb := ⟨0, 0, 0, 0⟩, isDragging := false,
    dragOffset := 0, contentHeight := 3000, visibleHeight := 600, scrollPosition := 0,
    maxScroll := 2400 }

/-! ## Commands and keyboard shortcuts (`ui_core.c`, `tm_process.c`)

`ui_toast_show` only writes the toast message, which `TmAppState` above leaves
out. -/

/-- The walk of `tm_process_get_selected`. -/
def selected_walk : List TmProcess → Int → Int → Option TmProcess
  | [], _, _ => none
  | p :: rest, idx, sel => if idx = sel then some p else selected_walk rest (idx + 1) sel

/-- Embeds `tm_process_get_selected`; `none` is the NULL result. -/
def tm_process_get_selected (s : TmAppState) : Option TmProcess :=
  if s.selected_process_idx < 0 then none
  else selected_walk s.process_list 0 s.selected_process_idx

/-- Embeds `cmd_refresh`; `none` when `tm_perf_update` writes outside a ring. -/
def cmd_refresh (s : TmAppState) (fp : Option (List (TmProcess × Bool)))
    (observers : List (TmAppState → TmAppState)) (cps : ℚ) (perf : PerfInput) :
    Option (tm_result_t × TmAppState) :=
  match tm_process_list_refresh s fp observers with
  | (tm_result_t.TM_OK, s) => tm_perf_update s cps perf
  | (r, s) => some (r, s)

/-- Embeds `cmd_end_task`; `kill_process` is the platform call behind
`tm_process_kill`, `fp` what the refresh after a successful kill reads. -/
def cmd_end_task (s : TmAppState) (kill_process : Nat → tm_result_t)
    (fp : Option (List (TmProcess × Bool))) (observers : List (TmAppState → TmAppState)) :
    tm_result_t × TmAppState :=
  match tm_process_get_selected s with
  | none => (tm_result_t.TM_ERR_INVALID_ARG, s)
  | some sel =>
    if kill_process sel.pid = tm_result_t.TM_OK then
      (tm_result_t.TM_OK, (tm_process_list_refresh s fp observers).2)
    else (kill_process sel.pid, s)

/-- Embeds `cmd_enable_startup`. -/
def cmd_enable_startup (s : TmAppState) : tm_result_t × TmAppState :=
  if s.selected_startup_idx < 0 then (tm_result_t.TM_ERR_INVALID_ARG, s)
  else
    match tm_startup_toggle s s.selected_startup_idx with
    | (tm_result_t.TM_OK, s) =>
      match tm_startup_get s s.selected_startup_idx with
      | some _ =>
        (tm_result_t.TM_OK,
          { s with
            enable_startup_btn := { s.enable_startup_btn with is_enabled := false }
            disable_startup_btn := { s.disable_startup_btn with is_enabled := true } })
      | none => (tm_result_t.TM_OK, s)
    | (r, s) => (r, s)

/-- Embeds `cmd_disable_startup`. -/
def cmd_disable_startup (s : TmAppState) : tm_result_t × TmAppState :=
  if s.selected_startup_idx < 0 then (tm_result_t.TM_ERR_INVALID_ARG, s)
  else
    match tm_startup_toggle s s.selected_startup_idx with
    | (tm_result_t.TM_OK, s) =>
      match tm_startup_get s s.selected_startup_idx with
      | some _ =>
        (tm_result_t.TM_OK,
          { s with
            enable_startup_btn := { s.enable_startup_btn with is_enabled := true }
            disable_startup_btn := { s.disable_startup_btn with is_enabled := false } })
      | none => (tm_result_t.TM_OK, s)
    | (r, s) => (r, s)

/-- Everything `handle_keyboard` obtains from outside in one frame: the four
`IsKeyPressed` results and what the commands they start read from the
platform. -/
structure KeyboardInput where
  key_f5 : Bool
  key_delete : Bool
  key_e : Bool
  key_d : Bool
  refresh_fp : Option (List (TmProcess × Bool))
  perf : PerfInput
  kill_process : Nat → tm_result_t
  end_task_fp : Option (List (TmProcess × Bool))

/-- Embeds `handle_keyboard`; the results of the commands are discarded as in
the source. -/
def handle_keyboard (s : TmAppState) (k : KeyboardInput)
    (observers : List (TmAppState → TmAppState)) (cps : ℚ) : Option TmAppState :=
  let afterF5 : Option TmAppState :=
    if k.key_f5 then
      match cmd_refresh s k.refresh_fp observers cps k.perf with
      | none => none
      | some r => some r.2
    else some s
  match afterF5 with
  | none => none
  | some s =>
    let s :=
      if k.key_delete = true ∧ s.selected_process_idx ≥ 0
      then (cmd_end_task s k.kill_process k.end_task_fp observers).2 else s
    if s.selected_startup_idx ≥ 0 then
      let s := if k.key_e then (cmd_enable_startup s).2 else s
      some (if k.key_d then (cmd_disable_startup s).2 else s)
    else some s

/-- The cast `(TmTabId)i` of `handle_tab_clicks`. -/
def tab_id_of_index (i : Nat) : TmTabId :=
  match i with
  | 0 => TmTabId.TM_TAB_PROCESSES
  | 1 => TmTabId.TM_TAB_PERFORMANCE
  | 2 => TmTabId.TM_TAB_APP_HISTORY
  | _ => TmTabId.TM_TAB_STARTUP

/-- The loop of `handle_tab_clicks` over the tab indices still to test: the first
tab under the pointer becomes the active one and the loop ends. -/
def tab_click_loop (s : TmAppState) (mouse : Vector2) : List Nat → TmAppState
  | [] => s
  | i :: rest =>
    if !CheckCollisionPointRec mouse (s.tabs i).bounds then tab_click_loop s mouse rest
    else
      { s with
        tabs := fun j =>
          if j < 4 then { s.tabs j with is_active := decide (j = i) } else s.tabs j
        active_tab := tab_id_of_index i
        selected_process_idx := -1
        selected_startup_idx := -1
        end_task_btn := { s.end_task_btn with is_enabled := false }
        enable_startup_btn := { s.enable_startup_btn with is_enabled := false }
        disable_startup_btn := { s.disable_startup_btn with is_enabled := false } }

/-- Embeds `handle_tab_clicks`. -/
def handle_tab_clicks (s : TmAppState) (mouse : Vector2) (pressed : Bool) : TmAppState :=
  if !pressed then s else tab_click_loop s mouse [0, 1, 2, 3]

/-- The state after start-up with one application-history entry, its clock
stamps at 0. -/
def demo_perf_state : TmAppState :=
  { zero_state with
    history_list := [init_history_entry "firefox" 11 12 13 0 (fun j => j)] }

/-- One call's outside readings: the clock has advanced 1 500 000 ticks, the
sampler reports 37 %, 6 GB of 16 GB are in use. -/
def demo_perf_input : PerfInput :=
  { now := 1500000, stamp := 1500010, cpu_sample := 37, mem_used := 6000000,
    mem_total := 16000000, r_disk := 12345, r_gpu := 77, r_threads := 250,
    history := fun _ => ⟨1500020, 5, 6, 1500030⟩ }

/-- A window 810 pixels high (list viewport 610) that lists 30 processes and is
scrolled down by 25 pixels. -/
def demo_rows_state : TmAppState :=
  { zero_state with
    process_list := List.replicate 30 demo_process
    process_count := 30
    screen_h := 810
    process_scroll := { zero_scrollbar with scroll_pos := 25 } }

/-- The click-to-row mapping as the specification words it:
`clickedIndex = (pointerY - viewportTop + scrollOffset) / rowHeight`, the sum
taken down to a whole pixel and the quotient by C integer division. -/
def clicked_index (pointerY viewportTop : ℚ) (scroll_pos row_height : Int) : Int :=
  Int.tdiv ⌊pointerY - viewportTop + (scroll_pos : ℚ)⌋ row_height

/-- The state `demo_rows_state` on the Processes tab (tab 0 active). -/
def demo_click_state : TmAppState :=
  { demo_rows_state with tabs := fun i => ⟨⟨0, 0, 0, 0⟩, decide (i = 0), false⟩ }

/-- The entry that `tm_startup_toggle` leaves in place of `a`. -/
def toggled_entry (a : TmStartupApp) : TmStartupApp :=
  { a with is_enabled := !a.is_enabled, status := status_text (!a.is_enabled) }

/-- The relation between flag and text that `tm_startup_list_load` and
`tm_startup_toggle` establish in every entry they write. -/
def StatusConsistent (app : TmStartupApp) : Prop := app.status = status_text app.is_enabled

/-- Startup lists the program builds: the result of `tm_startup_list_load`
(complete or cut short by a failed allocation), followed by any number of
`tm_startup_toggle` calls. -/
inductive StartupReachable : TmAppState → Prop
  | load (s : TmAppState) (alloc_ok : Nat → Bool) :
      StartupReachable (tm_startup_list_load s alloc_ok).2
  | toggle {s : TmAppState} (index : Int) :
      StartupReachable s → StartupReachable (tm_startup_toggle s index).2

/-- The pixel-to-scroll mapping as the specification words it: a thumb top `y`,
clamped to the track `[bounds.y, bounds.y + range]` with
`range = bounds.height - th`, is mapped linearly to
`(thumbTop - bounds.y) * max_scroll / range`, truncated to an `int`; the result
is 0 when `range` is not positive. -/
def pixel_to_scroll (bounds : Rectangle) (max_scroll : Int) (th y : ℚ) : Int :=
  if 0 < bounds.height - th then
    truncQ ((max bounds.y (min y (bounds.y + (bounds.height - th))) - bounds.y)
      * (max_scroll : ℚ) / (bounds.height - th))
  else 0

/-- The process scrollbar of an 800-pixel-high window listing 100 processes
(3000 pixels of content over a 600-pixel viewport), scrolled down by one
pixel. -/
def demo_scrollbar : TmScrollBar :=
  { bounds := ⟨1185, 120, 12, 600⟩, thumb := ⟨0, 0, 0, 0⟩, is_dragging := false,
    drag_offset := 0, content_height := 3000, visible_height := 600, scroll_pos := 1,
    max_scroll := 2400 }

/-- What one recording into a ring of `cap` slots must achieve: the value is in
the slot the write index pointed at, the other slots are as before, and the
write index has advanced by one modulo `cap`. -/
def RingRecorded {α : Type} (cap : Int) (buf : Nat → α) (idx : Int) (v : α)
    (buf' : Nat → α) (idx' : Int) : Prop :=
  buf' idx.toNat = v ∧ (∀ j : Nat, j ≠ idx.toNat → buf' j = buf j) ∧ idx' = (idx + 1) % cap

/-- States of the system performance data reachable from `tm_perf_data_init`
by the ring updates, in any order and number, by `update_threads`, and by the
assignments that `tm_perf_update` makes itself before it calls the updaters
(`last_update`, `process_count`, `uptime_s`, with whatever values). -/
inductive PerfReachable : TmPerfData → Prop
  | init (now : Int) : PerfReachable (tm_perf_data_init now)
  | stamp {d : TmPerfData} (now count : Int) (uptime : Nat) :
      PerfReachable d →
      PerfReachable { d with last_update := now, process_count := count, uptime_s := uptime }
  | threads {d : TmPerfData} (r : Nat) : PerfReachable d → PerfReachable (update_threads d r)
  | cpu {d d' : TmPerfData} (sample : ℚ) :
      PerfReachable d → update_cpu d sample = some d' → PerfReachable d'
  | memory {d d' : TmPerfData} (used total : Nat) :
      PerfReachable d → update_memory d used total = some d' → PerfReachable d'
  | disk {d d' : TmPerfData} (r : Nat) :
      PerfReachable d → update_disk d r = some d' → PerfReachable d'
  | gpu {d d' : TmPerfData} (r : Nat) :
      PerfReachable d → update_gpu d r = some d' → PerfReachable d'

/-- States of one application-history entry reachable from
`init_history_entry` by any number of `update_history_entry`. -/
inductive HistoryReachable : TmAppHistory → Prop
  | init (name : String) (r_cpu r_mem r_net : Nat) (now : Int) (jit : Nat → Nat) :
      HistoryReachable (init_history_entry name r_cpu r_mem r_net now jit)
  | update {app app' : TmAppHistory} (r1 r2 : Nat) (now : Int) :
      HistoryReachable app → update_history_entry app r1 r2 now = some app' →
      HistoryReachable app'

/-- Every slot index of a list of slot pairs lies inside an array of `cap`
slots. -/
def SlotsInside (cap : Int) (slots : List (Int × Int)) : Prop :=
  ∀ p ∈ slots, (0 ≤ p.1 ∧ p.1 < cap) ∧ (0 ≤ p.2 ∧ p.2 < cap)

/-- The last `cap` elements of a list of recorded values, oldest first. -/
def lastN {α : Type} (cap : Nat) (l : List α) : List α := l.drop (l.length - cap)

/-- The pairs of neighbouring elements of a sequence: the end points of the
line segments a graph draws through it. -/
def segments {α : Type} (l : List α) : List (α × α) := l.zip l.tail

/-- The `cap` slots of a ring read from slot `idx` on, wrapping: the order in
which the graph readers visit them. -/
def chrono {α : Type} (cap : Nat) (buf : Nat → α) (idx : Int) : List α :=
  (List.range cap).map fun (i : Nat) => buf (Int.tmod (idx + (i : Int)) (cap : Int)).toNat

/-- A frame in which only the key E is pressed. -/
def key_e_only : KeyboardInput :=
  { key_f5 := false, key_delete := false, key_e := true, key_d := false,
    refresh_fp := none, perf := demo_perf_input,
    kill_process := fun _ => tm_result_t.TM_OK, end_task_fp := none }

/-- A run that selects an enabled startup application: start-up, a press on the
Startup tab, then a press on the second row of the startup list ("Realtek
Audio", which `k_enabled` lists as enabled). -/
def startup_select_run : TmAppState :=
  let s := handle_tab_clicks startup_state ⟨350, 60⟩ true
  handle_startup_selection s ⟨100, 280⟩ true

/-- A window 1200 by 810 that lists 30 processes, laid out by `ui_layout_update`
(content 900, viewport 610, `max_scroll` 290) and scrolled down by 25 pixels,
where a drag of the thumb can leave it. -/
def clip_state : TmAppState :=
  let s := ui_layout_update
    { zero_state with
      process_list := List.replicate 30 demo_process
      process_count := 30
      screen_h := 810 }
  { s with process_scroll := { s.process_scroll with scroll_pos := 25 } }

/-- States reachable from start-up through the process-list operations
(`tm_process_list_free`, `prepend_process`, `tm_process_list_refresh` with any
outcome of the platform calls and allocations, the observer of `app_init`
registered), row selection and tab switching.  The entries read by a refresh
have `is_selected` false, as both `parse_process_line` adapters set it. -/
inductive ProcReachable : TmAppState → Prop
  | init : ProcReachable (ui_init zero_state)
  | free {s : TmAppState} : ProcReachable s → ProcReachable (tm_process_list_free s)
  | prepend {s : TmAppState} (entry : TmProcess) (alloc_ok : Bool) :
      entry.is_selected = false → ProcReachable s →
      ProcReachable (prepend_process s entry alloc_ok).2
  | refresh {s : TmAppState} (fp : Option (List (TmProcess × Bool))) :
      (∀ lines, fp = some lines → ∀ e ∈ lines, e.1.is_selected = false) → ProcReachable s →
      ProcReachable (tm_process_list_refresh s fp [on_process_changed]).2
  | select {s : TmAppState} (mouse : Vector2) (pressed : Bool) :
      ProcReachable s → ProcReachable (handle_process_selection s mouse pressed)
  | tab {s : TmAppState} (mouse : Vector2) (pressed : Bool) :
      ProcReachable s → ProcReachable (handle_tab_clicks s mouse pressed)

/-- Start-up followed by a refresh that lists 25 processes, every allocation
succeeding. -/
def listed_state : TmAppState :=
  (tm_process_list_refresh (ui_init zero_state)
    (some ((List.replicate 25 demo_process).map fun e => (e, true))) [on_process_changed]).2

/-- A run that selects a process: `listed_state`, then a press on the sixth row
of the list (y = 280, rows of 30 pixels from y = 120). -/
def select_run : TmAppState :=
  handle_process_selection listed_state ⟨400, 280⟩ true

/-- The run `select_run` followed by a refresh in which `open_process_list`
fails. -/
def io_failure_run : TmAppState :=
  (tm_process_list_refresh select_run none [on_process_changed]).2

/-- The run `select_run` followed by a refresh in which the third allocation
fails. -/
def alloc_failure_run : TmAppState :=
  (tm_process_list_refresh select_run
    (some [(demo_process, true), (demo_process, true), (demo_process, false)])
    [on_process_changed]).2

/-- The run `select_run` followed by a press on the Processes tab. -/
def tab_click_run : TmAppState :=
  handle_tab_clicks select_run ⟨50, 60⟩ true

/-! ## Ring lemmas -/

theorem chrono_length {α : Type} (cap : Nat) (buf : Nat → α) (idx : Int) :
    (chrono cap buf idx).length = cap := by
  simp [chrono]

theorem tmod_add_nat (idx : Int) (i cap : Nat) (h0 : 0 ≤ idx) :
    (Int.tmod (idx + (i : Int)) (cap : Int)).toNat = (idx.toNat + i) % cap := by
  rw [Int.tmod_eq_emod (by omega) (by omega)]
  obtain ⟨k, rfl⟩ := Int.eq_ofNat_of_zero_le h0
  simp only [Int.toNat_ofNat]
  norm_cast

theorem chrono_nat {α : Type} (cap : Nat) (buf : Nat → α) (idx : Int) (h0 : 0 ≤ idx) :
    chrono cap buf idx = (List.range cap).map fun i => buf ((idx.toNat + i) % cap) := by
  unfold chrono
  apply List.map_congr_left
  intro i _
  rw [tmod_add_nat idx i cap h0]

theorem tmod_succ_range (idx : Int) (cap : Nat) (h0 : 0 ≤ idx) (h1 : idx < cap) :
    0 ≤ Int.tmod (idx + 1) (cap : Int) ∧ Int.tmod (idx + 1) (cap : Int) < cap ∧
      (Int.tmod (idx + 1) (cap : Int)).toNat = (idx.toNat + 1) % cap := by
  have h := tmod_add_nat idx 1 cap h0
  rw [Int.tmod_eq_emod (by omega) (by omega)] at h ⊢
  have hc : (0 : Int) < cap := by omega
  refine ⟨Int.emod_nonneg _ (by omega), Int.emod_lt_of_pos _ hc, ?_⟩
  simpa using h

/-- Recording into a ring drops the oldest sample of the chronological order
and appends the new one. -/
theorem chrono_record {α : Type} (cap : Nat) (buf : Nat → α) (idx : Int) (v : α)
    (h0 : 0 ≤ idx) (h1 : idx < cap) :
    chrono cap (Function.update buf idx.toNat v) (Int.tmod (idx + 1) (cap : Int))
      = (chrono cap buf idx).tail ++ [v] := by
  obtain ⟨hn0, _, hn⟩ := tmod_succ_range idx cap h0 h1
  rw [chrono_nat cap _ _ hn0, chrono_nat cap _ _ h0, hn]
  have hk : idx.toNat < cap := by omega
  generalize idx.toNat = k at hk
  have hcap : 0 < cap := by omega
  apply List.ext_getElem
  · simp; omega
  · intro n h₁ h₂
    simp only [List.length_map, List.length_range] at h₁
    rw [List.getElem_map, List.getElem_range]
    by_cases hlast : n = cap - 1
    · subst hlast
      rw [List.getElem_append_right (by simp)]
      have : ((k + 1) % cap + (cap - 1)) % cap = k := by
        rw [Nat.mod_add_mod]
        have : k + 1 + (cap - 1) = k + cap := by omega
        rw [this, Nat.add_mod_right, Nat.mod_eq_of_lt hk]
      rw [this, Function.update_same]
      simp
    · have hn1 : n < cap - 1 := by omega
      rw [List.getElem_append_left (by simp; omega)]
      rw [List.getElem_tail, List.getElem_map, List.getElem_range]
      have e : ((k + 1) % cap + n) % cap = (k + (n + 1)) % cap := by
        rw [Nat.mod_add_mod]; congr 1; omega
      rw [e]
      apply Function.update_noteq
      intro hEq
      have h2 : (k + (n + 1)) % cap = (k + 0) % cap := by
        rw [hEq, Nat.add_zero, Nat.mod_eq_of_lt hk]
      have h3 := Nat.ModEq.add_left_cancel' k h2
      unfold Nat.ModEq at h3
      rw [Nat.mod_eq_of_lt (by omega), Nat.zero_mod] at h3
      omega

theorem ringRecorded_update {α : Type} (cap : Int) (buf : Nat → α) (idx : Int) (v : α)
    (h0 : 0 ≤ idx) (hc : 0 ≤ cap) :
    RingRecorded cap buf idx v (Function.update buf idx.toNat v) (Int.tmod (idx + 1) cap) := by
  refine ⟨Function.update_same _ _ _, fun j hj => Function.update_noteq hj _ _, ?_⟩
  exact Int.tmod_eq_emod (by omega) hc

theorem update_cpu_eq (d : TmPerfData) (sample : ℚ) (h0 : 0 ≤ d.cpu_idx)
    (h1 : d.cpu_idx < TM_HIST_LEN) :
    update_cpu d sample = some
      { d with cpu_percent := min sample 100,
               cpu_history := Function.update d.cpu_history d.cpu_idx.toNat (min sample 100),
               cpu_idx := Int.tmod (d.cpu_idx + 1) TM_HIST_LEN } := by
  have hm : (if sample > 100 then (100 : ℚ) else sample) = min sample 100 := by
    split_ifs with h
    · exact (min_eq_right (le_of_lt h)).symm
    · exact (min_eq_left (not_lt.mp h)).symm
  simp only [update_cpu, arrWrite, h0, h1, and_self, if_true, hm]

theorem update_memory_eq (d : TmPerfData) (used total : Nat) (h0 : 0 ≤ d.mem_idx)
    (h1 : d.mem_idx < TM_HIST_LEN) :
    update_memory d used total = some
      { d with mem_used_kb := min used total, mem_total_kb := total,
               mem_available_kb := total - min used total,
               mem_history := Function.update d.mem_history d.mem_idx.toNat (min used total),
               mem_idx := Int.tmod (d.mem_idx + 1) TM_HIST_LEN } := by
  have hm : (if used > total then total else used) = min used total := by
    split_ifs with h
    · exact (min_eq_right (le_of_lt h)).symm
    · exact (min_eq_left (not_lt.mp h)).symm
  simp only [update_memory, arrWrite, h0, h1, and_self, if_true, hm]

theorem update_disk_eq (d : TmPerfData) (r : Nat) (h0 : 0 ≤ d.disk_idx)
    (h1 : d.disk_idx < TM_HIST_LEN) :
    update_disk d r = some
      { d with disk_used_kb := 200000000 + r % 150000000,
               disk_history :=
                 Function.update d.disk_history d.disk_idx.toNat (200000000 + r % 150000000),
               disk_idx := Int.tmod (d.disk_idx + 1) TM_HIST_LEN } := by
  simp only [update_disk, arrWrite, h0, h1, and_self, if_true]

theorem update_gpu_eq (d : TmPerfData) (r : Nat) (h0 : 0 ≤ d.gpu_idx)
    (h1 : d.gpu_idx < TM_HIST_LEN) :
    update_gpu d r = some
      { d with gpu_percent := min (8 + ((r % 50 : Nat) : ℚ)) 100,
               gpu_history := Function.update d.gpu_history d.gpu_idx.toNat
                 (min (8 + ((r % 50 : Nat) : ℚ)) 100),
               gpu_idx := Int.tmod (d.gpu_idx + 1) TM_HIST_LEN } := by
  have hm : (if (8 + ((r % 50 : Nat) : ℚ)) > 100 then (100 : ℚ) else 8 + ((r % 50 : Nat) : ℚ))
      = min (8 + ((r % 50 : Nat) : ℚ)) 100 := by
    split_ifs with h
    · exact (min_eq_right (le_of_lt h)).symm
    · exact (min_eq_left (not_lt.mp h)).symm
  simp only [update_gpu, arrWrite, h0, h1, and_self, if_true, hm]

theorem update_history_entry_eq (app : TmAppHistory) (r1 r2 : Nat) (now : Int)
    (h0 : 0 ≤ app.history_idx) (h1 : app.history_idx < TM_HIST_SHORT) :
    update_history_entry app r1 r2 now = some
      { app with
        cpu_time := app.cpu_time * (0.9 + ((r1 % 20 : Nat) : ℚ) / 100),
        memory_kb := truncU64 ((app.memory_kb : ℚ) * (0.9 + ((r1 % 20 : Nat) : ℚ) / 100)),
        network_kb := truncU64 ((app.network_kb : ℚ) * (0.8 + ((r2 % 40 : Nat) : ℚ) / 100)),
        cpu_time_history := Function.update app.cpu_time_history app.history_idx.toNat
          (app.cpu_time * (0.9 + ((r1 % 20 : Nat) : ℚ) / 100)),
        memory_history := Function.update app.memory_history app.history_idx.toNat
          (truncU64 ((app.memory_kb : ℚ) * (0.9 + ((r1 % 20 : Nat) : ℚ) / 100))),
        network_history := Function.update app.network_history app.history_idx.toNat
          (truncU64 ((app.network_kb : ℚ) * (0.8 + ((r2 % 40 : Nat) : ℚ) / 100))),
        history_idx := Int.tmod (app.history_idx + 1) TM_HIST_SHORT,
        last_update := now } := by
  simp only [update_history_entry, arrWrite, h0, h1, and_self, if_true]

theorem seed_history_idx (app : TmAppHistory) (jit : Nat → Nat) :
    (seed_history app jit).history_idx = app.history_idx := by
  unfold seed_history
  generalize List.range TM_HIST_SHORT.toNat = l
  induction l generalizing app with
  | nil => rfl
  | cons j l ih => rw [List.foldl_cons, ih]

theorem perf_idx_invariant {d : TmPerfData} (h : PerfReachable d) :
    (0 ≤ d.cpu_idx ∧ d.cpu_idx < TM_HIST_LEN) ∧ (0 ≤ d.mem_idx ∧ d.mem_idx < TM_HIST_LEN) ∧
    (0 ≤ d.disk_idx ∧ d.disk_idx < TM_HIST_LEN) ∧ (0 ≤ d.gpu_idx ∧ d.gpu_idx < TM_HIST_LEN) := by
  induction h with
  | init now => simp [tm_perf_data_init, TM_HIST_LEN]
  | stamp now count uptime _ ih => exact ih
  | threads r _ ih => exact ih
  | cpu sample _ hstep ih =>
    obtain ⟨⟨h0, h1⟩, hm, hd, hg⟩ := ih
    rw [update_cpu_eq _ sample h0 h1] at hstep
    cases hstep
    obtain ⟨a, b, _⟩ := tmod_succ_range _ 100 h0 h1
    exact ⟨⟨a, b⟩, hm, hd, hg⟩
  | memory used total _ hstep ih =>
    obtain ⟨hc, ⟨h0, h1⟩, hd, hg⟩ := ih
    rw [update_memory_eq _ used total h0 h1] at hstep
    cases hstep
    obtain ⟨a, b, _⟩ := tmod_succ_range _ 100 h0 h1
    exact ⟨hc, ⟨a, b⟩, hd, hg⟩
  | disk r _ hstep ih =>
    obtain ⟨hc, hm, ⟨h0, h1⟩, hg⟩ := ih
    rw [update_disk_eq _ r h0 h1] at hstep
    cases hstep
    obtain ⟨a, b, _⟩ := tmod_succ_range _ 100 h0 h1
    exact ⟨hc, hm, ⟨a, b⟩, hg⟩
  | gpu r _ hstep ih =>
    obtain ⟨hc, hm, hd, ⟨h0, h1⟩⟩ := ih
    rw [update_gpu_eq _ r h0 h1] at hstep
    cases hstep
    obtain ⟨a, b, _⟩ := tmod_succ_range _ 100 h0 h1
    exact ⟨hc, hm, hd, ⟨a, b⟩⟩

theorem history_idx_invariant {app : TmAppHistory} (h : HistoryReachable app) :
    0 ≤ app.history_idx ∧ app.history_idx < TM_HIST_SHORT := by
  induction h with
  | init name r_cpu r_mem r_net now jit =>
    simp [init_history_entry, seed_history_idx, TM_HIST_SHORT]
  | update r1 r2 now _ hstep ih =>
    obtain ⟨h0, h1⟩ := ih
    rw [update_history_entry_eq _ r1 r2 now h0 h1] at hstep
    cases hstep
    obtain ⟨a, b, _⟩ := tmod_succ_range _ 30 h0 h1
    exact ⟨a, b⟩

theorem slots_inside (cap : Nat) (start : Int) (h0 : 0 ≤ start) (hc : 0 < cap) :
    SlotsInside cap (draw_line_graph_slots cap start) := by
  intro p hp
  simp only [draw_line_graph_slots, List.mem_map, List.mem_range] at hp
  obtain ⟨i, _, rfl⟩ := hp
  have hc' : (0 : Int) < cap := by omega
  have e1 : Int.tmod (start + (i : Int)) cap = (start + i) % cap :=
    Int.tmod_eq_emod (by omega) (by omega)
  have e2 : Int.tmod (start + (i : Int) + 1) cap = (start + i + 1) % cap :=
    Int.tmod_eq_emod (by omega) (by omega)
  simp only [e1, e2]
  exact ⟨⟨Int.emod_nonneg _ (by omega), Int.emod_lt_of_pos _ hc'⟩,
    ⟨Int.emod_nonneg _ (by omega), Int.emod_lt_of_pos _ hc'⟩⟩

theorem history_slots_eq (app : TmAppHistory) :
    draw_history_mini_graph_slots app = draw_line_graph_slots TM_HIST_SHORT app.history_idx :=
  rfl

/-- The segments drawn by `draw_line_graph` join each sample of the
chronological order to the next one. -/
theorem draw_line_graph_eq_chrono (history : Nat → ℚ) (cap : Nat) (start : Int) :
    draw_line_graph history cap start
      = (chrono cap history start).zip (chrono cap history start).tail := by
  apply List.ext_getElem
  · simp [draw_line_graph, draw_line_graph_slots, chrono]
  · intro n h₁ h₂
    simp only [draw_line_graph, draw_line_graph_slots, chrono, List.getElem_map,
      List.getElem_range, List.getElem_zip, List.getElem_tail, List.map_map]
    simp only [Function.comp_apply, Nat.cast_add, Nat.cast_one, add_assoc]

theorem draw_history_mini_graph_eq_chrono (app : TmAppHistory) :
    draw_history_mini_graph app
      = (chrono 30 app.cpu_time_history app.history_idx).zip
          (chrono 30 app.cpu_time_history app.history_idx).tail := by
  rw [← draw_line_graph_eq_chrono]
  simp only [draw_history_mini_graph, draw_line_graph, draw_line_graph_slots, List.map_map]
  rfl

/-- A run of ring updates shifts the chronological order by one sample per
update. -/
theorem runTrace_chrono {σ ι α : Type} (step : σ → ι → Option σ) (cap : Nat)
    (buf : σ → Nat → α) (idx : σ → Int) (val : σ → α)
    (hstep : ∀ s i, 0 ≤ idx s → idx s < cap → ∃ s', step s i = some s' ∧
      buf s' = Function.update (buf s) (idx s).toNat (val s') ∧
      idx s' = Int.tmod (idx s + 1) (cap : Int)) :
    ∀ (inputs : List ι) (s : σ), 0 ≤ idx s → idx s < cap →
      ∃ tr, runTrace step s inputs = some tr ∧ tr.length = inputs.length ∧
        chrono cap (buf (tr.getLastD s)) (idx (tr.getLastD s))
          = (chrono cap (buf s) (idx s) ++ tr.map val).drop tr.length := by
  intro inputs
  induction inputs with
  | nil => intro s _ _; exact ⟨[], rfl, rfl, by simp⟩
  | cons i rest ih =>
    intro s h0 h1
    obtain ⟨s', hs', hbuf, hidx⟩ := hstep s i h0 h1
    obtain ⟨a, b, _⟩ := tmod_succ_range (idx s) cap h0 h1
    obtain ⟨tr, htr, hlen, hch⟩ := ih s' (by rw [hidx]; exact a) (by rw [hidx]; exact b)
    refine ⟨s' :: tr, by simp [runTrace, hs', htr], by simp [hlen], ?_⟩
    have hl : (s' :: tr).getLastD s = tr.getLastD s' := by
      cases tr <;> simp [List.getLastD]
    rw [hl, hch, hbuf, hidx, chrono_record cap (buf s) (idx s) (val s') h0 h1]
    have hne : (chrono cap (buf s) (idx s)).length = cap := chrono_length _ _ _
    cases hc : chrono cap (buf s) (idx s) with
    | nil => rw [hc] at hne; simp at hne; omega
    | cons x t => simp

theorem drop_append_last {α : Type} (l vs : List α) (h : l.length < vs.length) :
    (l ++ vs).drop vs.length = vs.drop (vs.length - l.length) := by
  have e : vs.length = l.length + (vs.length - l.length) := by omega
  conv_lhs => rw [e]
  exact List.drop_append _

theorem chrono_zero {α : Type} (cap : Nat) (buf : Nat → α) :
    chrono cap buf 0 = (List.range cap).map buf := by
  rw [chrono_nat cap buf 0 (le_refl _)]
  apply List.map_congr_left
  intro i hi
  rw [List.mem_range] at hi
  simp [Nat.mod_eq_of_lt hi]

theorem runTrace_wrap {σ ι α : Type} (step : σ → ι → Option σ) (cap : Nat)
    (buf : σ → Nat → α) (idx : σ → Int) (val : σ → α)
    (hstep : ∀ s i, 0 ≤ idx s → idx s < cap → ∃ s', step s i = some s' ∧
      buf s' = Function.update (buf s) (idx s).toNat (val s') ∧
      idx s' = Int.tmod (idx s + 1) (cap : Int))
    (inputs : List ι) (s : σ) (h0 : 0 ≤ idx s) (h1 : idx s < cap)
    (hn : cap < inputs.length) :
    ∃ tr, runTrace step s inputs = some tr ∧ tr.length = inputs.length ∧
      chrono cap (buf (tr.getLastD s)) (idx (tr.getLastD s))
        = (tr.map val).drop (tr.length - cap) := by
  obtain ⟨tr, htr, hlen, hch⟩ := runTrace_chrono step cap buf idx val hstep inputs s h0 h1
  refine ⟨tr, htr, hlen, ?_⟩
  rw [hch]
  have h := drop_append_last (chrono cap (buf s) (idx s)) (tr.map val)
    (by rw [chrono_length, List.length_map]; omega)
  simpa [chrono_length] using h

theorem runTrace_fresh {σ ι α : Type} (step : σ → ι → Option σ) (cap : Nat)
    (buf : σ → Nat → α) (idx : σ → Int) (val : σ → α)
    (hstep : ∀ s i, 0 ≤ idx s → idx s < cap → ∃ s', step s i = some s' ∧
      buf s' = Function.update (buf s) (idx s).toNat (val s') ∧
      idx s' = Int.tmod (idx s + 1) (cap : Int))
    (inputs : List ι) (s : σ) (h0 : idx s = 0) (hc : 0 < cap)
    (hn : inputs.length ≤ cap) :
    ∃ tr, runTrace step s inputs = some tr ∧ tr.length = inputs.length ∧
      chrono cap (buf (tr.getLastD s)) (idx (tr.getLastD s))
        = ((List.range cap).map (buf s)).drop tr.length ++ tr.map val := by
  obtain ⟨tr, htr, hlen, hch⟩ := runTrace_chrono step cap buf idx val hstep inputs s
    (by omega) (by omega)
  refine ⟨tr, htr, hlen, ?_⟩
  rw [hch, h0, chrono_zero]
  exact List.drop_append_of_le_length (by simp; omega)

theorem runTrace_vals {σ ι α : Type} (step : σ → ι → Option σ) (val : σ → α) (f : ι → α)
    (hval : ∀ s i s', step s i = some s' → val s' = f i) :
    ∀ (inputs : List ι) (s : σ) (tr : List σ), runTrace step s inputs = some tr →
      tr.map val = inputs.map f := by
  intro inputs
  induction inputs with
  | nil => intro s tr h; simp only [runTrace, Option.some.injEq] at h; subst h; rfl
  | cons i rest ih =>
    intro s tr h
    simp only [runTrace] at h
    cases hs : step s i with
    | none => rw [hs] at h; simp at h
    | some s' =>
      rw [hs] at h
      cases hr : runTrace step s' rest with
      | none => simp [hr] at h
      | some tr' =>
        simp only [hr, Option.some.injEq] at h
        subst h
        simp only [List.map_cons, hval s i s' hs, ih s' tr' hr]

theorem cpu_ring_step (d : TmPerfData) (sample : ℚ) (h0 : 0 ≤ d.cpu_idx)
    (h1 : d.cpu_idx < (100 : Nat)) :
    ∃ d', update_cpu d sample = some d' ∧
      d'.cpu_history = Function.update d.cpu_history d.cpu_idx.toNat d'.cpu_percent ∧
      d'.cpu_idx = Int.tmod (d.cpu_idx + 1) ((100 : Nat) : Int) :=
  ⟨_, update_cpu_eq d sample h0 h1, rfl, rfl⟩

theorem mem_ring_step (d : TmPerfData) (i : Nat × Nat) (h0 : 0 ≤ d.mem_idx)
    (h1 : d.mem_idx < (100 : Nat)) :
    ∃ d', update_memory d i.1 i.2 = some d' ∧
      d'.mem_history = Function.update d.mem_history d.mem_idx.toNat d'.mem_used_kb ∧
      d'.mem_idx = Int.tmod (d.mem_idx + 1) ((100 : Nat) : Int) :=
  ⟨_, update_memory_eq d i.1 i.2 h0 h1, rfl, rfl⟩

theorem disk_ring_step (d : TmPerfData) (r : Nat) (h0 : 0 ≤ d.disk_idx)
    (h1 : d.disk_idx < (100 : Nat)) :
    ∃ d', update_disk d r = some d' ∧
      d'.disk_history = Function.update d.disk_history d.disk_idx.toNat d'.disk_used_kb ∧
      d'.disk_idx = Int.tmod (d.disk_idx + 1) ((100 : Nat) : Int) :=
  ⟨_, update_disk_eq d r h0 h1, rfl, rfl⟩

theorem gpu_ring_step (d : TmPerfData) (r : Nat) (h0 : 0 ≤ d.gpu_idx)
    (h1 : d.gpu_idx < (100 : Nat)) :
    ∃ d', update_gpu d r = some d' ∧
      d'.gpu_history = Function.update d.gpu_history d.gpu_idx.toNat d'.gpu_percent ∧
      d'.gpu_idx = Int.tmod (d.gpu_idx + 1) ((100 : Nat) : Int) :=
  ⟨_, update_gpu_eq d r h0 h1, rfl, rfl⟩

theorem history_ring_step (app : TmAppHistory) (i : Nat × Nat × Int)
    (h0 : 0 ≤ app.history_idx) (h1 : app.history_idx < (30 : Nat)) :
    ∃ app', update_history_entry app i.1 i.2.1 i.2.2 = some app' ∧
      (app'.cpu_time_history
          = Function.update app.cpu_time_history app.history_idx.toNat app'.cpu_time ∧
        app'.memory_history
          = Function.update app.memory_history app.history_idx.toNat app'.memory_kb ∧
        app'.network_history
          = Function.update app.network_history app.history_idx.toNat app'.network_kb) ∧
      app'.history_idx = Int.tmod (app.history_idx + 1) ((30 : Nat) : Int) :=
  ⟨_, update_history_entry_eq app i.1 i.2.1 i.2.2 h0 h1, ⟨rfl, rfl, rfl⟩, rfl⟩

/-! ## Scrollbar lemmas -/

theorem truncQ_intCast (n : Int) : truncQ (n : ℚ) = n := by
  unfold truncQ; split_ifs <;> simp

/-- The two successive bound tests of the click and drag handlers are a clamp
when the lower bound does not exceed the upper one. -/
theorem seq_clamp (y lo hi : ℚ) (h : lo ≤ hi) :
    (if (if y < lo then lo else y) > hi then hi else (if y < lo then lo else y))
      = max lo (min y hi) := by
  by_cases h1 : y < lo
  · rw [if_pos h1, if_neg (not_lt.mpr h)]
    rw [min_eq_left (le_trans (le_of_lt h1) h), max_eq_left (le_of_lt h1)]
  · rw [if_neg h1]
    by_cases h2 : y > hi
    · rw [if_pos h2, min_eq_right (le_of_lt h2), max_eq_right h]
    · rw [if_neg h2, min_eq_left (not_lt.mp h2), max_eq_right (not_lt.mp h1)]

/-- The scroll position computed by the click and drag handlers is the
pixel-to-scroll mapping of the requested thumb top. -/
theorem handler_map_eq (bounds : Rectangle) (m : Int) (th y : ℚ) :
    (if bounds.height - th > 0 then
        truncQ (((if (if y < bounds.y then bounds.y else y) > bounds.y + bounds.height - th
            then bounds.y + bounds.height - th
            else (if y < bounds.y then bounds.y else y)) - bounds.y) * (m : ℚ)
          / (bounds.height - th))
      else 0) = pixel_to_scroll bounds m th y := by
  unfold pixel_to_scroll
  by_cases hr : 0 < bounds.height - th
  · have hc := seq_clamp y bounds.y (bounds.y + bounds.height - th) (by linarith)
    have e : bounds.y + bounds.height - th = bounds.y + (bounds.height - th) := by ring
    simp only [gt_iff_lt, hr, if_true] at hc ⊢
    rw [hc, e]
  · simp only [gt_iff_lt, hr, if_false]

/-- Closed form of the wheel handler for a non-zero delta inside the content
area. -/
theorem handle_wheel_inside (sb : TmScrollBar) (wheel : ℚ) (scroll_area : Rectangle)
    (mouse : Vector2) (hmax : 0 ≤ sb.max_scroll) (hw : wheel ≠ 0)
    (hin : CheckCollisionPointRec mouse scroll_area = true) :
    ui_scrollbar_handle_wheel sb wheel scroll_area mouse =
      { sb with
        scroll_pos := max 0 (min (sb.scroll_pos - truncQ (wheel * 30)) sb.max_scroll) } := by
  have e : (TM_ROW_HEIGHT_PX : ℚ) = 30 := by norm_num [TM_ROW_HEIGHT_PX]
  simp only [ui_scrollbar_handle_wheel, hw, hin, if_false, Bool.not_true,
    Bool.false_eq_true, e]
  congr 1
  generalize sb.scroll_pos - truncQ (wheel * 30) = x
  by_cases h1 : x < 0
  · rw [if_pos h1, if_neg (not_lt.mpr hmax)]
    rw [min_eq_left (le_trans (le_of_lt h1) hmax), max_eq_left (le_of_lt h1)]
  · rw [if_neg h1]
    by_cases h2 : x > sb.max_scroll
    · rw [if_pos h2, min_eq_right (le_of_lt h2), max_eq_right hmax]
    · rw [if_neg h2, min_eq_left (not_lt.mp h2), max_eq_right (not_lt.mp h1)]

/-- A frame without press or release on a scrollbar that is not being dragged:
only the wheel acts. -/
theorem update_wheel_frame (sb : TmScrollBar) (area : Rectangle) (mouse : Vector2) (wheel : ℚ)
    (hneed : sb.content_height > sb.visible_height) (hd : sb.is_dragging = false) :
    ui_scrollbar_update sb mouse wheel area false false =
      ui_scrollbar_handle_wheel
        { sb with thumb := ui_scrollbar_thumb_rect sb (ui_scrollbar_thumb_h sb) }
        wheel area mouse := by
  simp only [ui_scrollbar_update, ui_scrollbar_needed, hneed, decide_True, Bool.not_true,
    Bool.false_eq_true, if_false, ui_scrollbar_handle_click, Bool.not_false, if_true,
    ui_scrollbar_handle_drag, hd]

/-- An inert scrollbar is left alone by `ui_scrollbar_update`. -/
theorem update_inert (sb : TmScrollBar) (area : Rectangle) (mouse : Vector2) (wheel : ℚ)
    (pressed released : Bool) (h : sb.content_height ≤ sb.visible_height) :
    ui_scrollbar_update sb mouse wheel area pressed released = sb := by
  simp [ui_scrollbar_update, ui_scrollbar_needed, not_lt.mpr h]

/-! ## Drag-state lemmas -/

/-- Closed form of the click handler for a press on the track off the thumb. -/
theorem click_on_track (sb : TmScrollBar) (mouse : Vector2) (th : ℚ)
    (hout : CheckCollisionPointRec mouse sb.thumb = false)
    (hin : CheckCollisionPointRec mouse sb.bounds = true) :
    ui_scrollbar_handle_click sb mouse th true =
      { sb with
        scroll_pos := pixel_to_scroll sb.bounds sb.max_scroll th (mouse.y - th / 2) } := by
  have hm := handler_map_eq sb.bounds sb.max_scroll th (mouse.y - th / 2)
  simp only [ui_scrollbar_handle_click, hout, hin, Bool.not_true, Bool.false_eq_true,
    if_false, if_true, gt_iff_lt] at hm ⊢
  rw [hm]

theorem skip_rows_eq (l : List TmProcess) (a k : Int) :
    skip_rows l a k = (l.drop (k - a).toNat, a + (min l.length (k - a).toNat : Nat)) := by
  induction l generalizing a with
  | nil => simp [skip_rows]
  | cons p rest ih =>
    unfold skip_rows
    split_ifs with h
    · rw [ih]
      have e : (k - a).toNat = (k - (a + 1)).toNat + 1 := by omega
      rw [e]
      simp only [List.drop_succ_cons, List.length_cons, Nat.add_min_add_right, Nat.cast_add,
        Nat.cast_one, Prod.mk.injEq, true_and]
      ring
    · have e : (k - a).toNat = 0 := by omega
      simp [e]

theorem mem_draw_rows_loop (start_y list_h row_off max_vis : Int) (l : List TmProcess)
    (a v : Int) (row : DrawnRow) :
    row ∈ draw_rows_loop start_y list_h row_off max_vis l a v ↔
      ∃ i : Nat, v + (i : Int) < max_vis ∧ l[i]? = some row.proc ∧
        row.y_pos = start_y + (v + (i : Int)) * 30 - row_off ∧
        row.row_index = a + (i : Int) ∧ start_y ≤ row.y_pos ∧ row.y_pos < start_y + list_h := by
  induction l generalizing a v with
  | nil => simp [draw_rows_loop]
  | cons p rest ih =>
    unfold draw_rows_loop
    by_cases hv : v < max_vis
    · simp only [hv, if_true, TM_ROW_HEIGHT_PX]
      have hrest : row ∈ draw_rows_loop start_y list_h row_off max_vis rest (a + 1) (v + 1) ↔
          ∃ i : Nat, v + ((i + 1 : Nat) : Int) < max_vis ∧ (p :: rest)[i + 1]? = some row.proc ∧
            row.y_pos = start_y + (v + ((i + 1 : Nat) : Int)) * 30 - row_off ∧
            row.row_index = a + ((i + 1 : Nat) : Int) ∧ start_y ≤ row.y_pos ∧
            row.y_pos < start_y + list_h := by
        rw [ih]
        constructor
        · rintro ⟨i, h1, h2, h3, h4, h5, h6⟩
          refine ⟨i, ?_, ?_, ?_, ?_, h5, h6⟩
          · push_cast; omega
          · simpa using h2
          · rw [h3]; push_cast; ring
          · rw [h4]; push_cast; ring
        · rintro ⟨i, h1, h2, h3, h4, h5, h6⟩
          refine ⟨i, ?_, ?_, ?_, ?_, h5, h6⟩
          · push_cast at h1; omega
          · simpa using h2
          · rw [h3]; push_cast; ring
          · rw [h4]; push_cast; ring
      have hhead : (row = ⟨p, start_y + v * 30 - row_off, a⟩ ∧
            (start_y + v * 30 - row_off ≥ start_y ∧ start_y + v * 30 - row_off < start_y + list_h)) ↔
          (v + ((0 : Nat) : Int) < max_vis ∧ (p :: rest)[0]? = some row.proc ∧
            row.y_pos = start_y + (v + ((0 : Nat) : Int)) * 30 - row_off ∧
            row.row_index = a + ((0 : Nat) : Int) ∧ start_y ≤ row.y_pos ∧
            row.y_pos < start_y + list_h) := by
        constructor
        · rintro ⟨rfl, h1, h2⟩
          refine ⟨by simpa using hv, by simp, by simp, by simp, h1, h2⟩
        · rintro ⟨_, h2, h3, h4, h5, h6⟩
          simp only [List.getElem?_cons_zero, Option.some.injEq] at h2
          simp only [Nat.cast_zero, add_zero] at h3 h4
          refine ⟨?_, ?_, ?_⟩
          · cases row
            simp only at h2 h3 h4
            subst h2 h3 h4
            rfl
          · rw [← h3]; exact h5
          · rw [← h3]; exact h6
      constructor
      · intro hmem
        split_ifs at hmem with hy
        · rcases List.mem_cons.mp hmem with h | h
          · exact ⟨0, hhead.mp ⟨h, hy⟩⟩
          · obtain ⟨i, hi⟩ := hrest.mp h
            exact ⟨i + 1, hi⟩
        · obtain ⟨i, hi⟩ := hrest.mp hmem
          exact ⟨i + 1, hi⟩
      · rintro ⟨i, hi⟩
        cases i with
        | zero =>
          obtain ⟨hr, hy⟩ := hhead.mpr hi
          rw [if_pos hy, hr]
          exact List.mem_cons_self _ _
        | succ j =>
          have hm := hrest.mpr ⟨j, hi⟩
          split_ifs
          · exact List.mem_cons_of_mem _ hm
          · exact hm
    · simp only [hv, if_false, List.not_mem_nil, false_iff]
      rintro ⟨i, h1, _⟩
      omega

/-- The rows drawn by `draw_process_rows`, for a scroll position that is not
negative. -/
theorem mem_draw_process_rows (s : TmAppState) (start_y list_h : Int) (row : DrawnRow)
    (h0 : 0 ≤ s.process_scroll.scroll_pos) :
    row ∈ draw_process_rows s start_y list_h ↔
      ∃ i : Nat, (i : Int) < rows_max_vis list_h ∧
        s.process_list[(rows_skip s.process_scroll.scroll_pos).toNat + i]? = some row.proc ∧
        row.y_pos = start_y + (i : Int) * 30 - rows_off s.process_scroll.scroll_pos ∧
        row.row_index = rows_skip s.process_scroll.scroll_pos + (i : Int) ∧
        start_y ≤ row.y_pos ∧ row.y_pos < start_y + list_h := by
  have hk : 0 ≤ rows_skip s.process_scroll.scroll_pos := by
    unfold rows_skip TM_ROW_HEIGHT_PX
    rw [Int.tdiv_eq_ediv h0 (by norm_num)]
    omega
  unfold draw_process_rows
  simp only [skip_rows_eq, sub_zero, zero_add, mem_draw_rows_loop, List.getElem?_drop]
  generalize rows_skip s.process_scroll.scroll_pos = k at hk
  constructor
  · rintro ⟨i, h1, h2, h3, h4, h5, h6⟩
    refine ⟨i, h1, h2, h3, ?_, h5, h6⟩
    have hlt : k.toNat + i < s.process_list.length := by
      by_contra hge
      rw [List.getElem?_eq_none (not_lt.mp hge)] at h2
      exact Option.noConfusion h2
    rw [h4, min_eq_right (by omega)]
    omega
  · rintro ⟨i, h1, h2, h3, h4, h5, h6⟩
    refine ⟨i, h1, h2, h3, ?_, h5, h6⟩
    have hlt : k.toNat + i < s.process_list.length := by
      by_contra hge
      rw [List.getElem?_eq_none (not_lt.mp hge)] at h2
      exact Option.noConfusion h2
    rw [h4, min_eq_right (by omega)]
    omega

/-! ## Selection lemmas -/

theorem truncQ_add_int (q : ℚ) (n : Int) (hq : 0 ≤ q) : truncQ q + n = ⌊q + (n : ℚ)⌋ := by
  unfold truncQ
  rw [if_pos hq, Int.floor_add_int]

theorem startup_walk_eq (l : List TmStartupApp) (i index : Int) (h : i ≤ index) :
    startup_walk l i index = l[(index - i).toNat]? := by
  induction l generalizing i with
  | nil => simp [startup_walk]
  | cons a rest ih =>
    unfold startup_walk
    split_ifs with hlt
    · rw [ih (i + 1) (by omega)]
      have e : (index - i).toNat = (index - (i + 1)).toNat + 1 := by omega
      rw [e, List.getElem?_cons_succ]
    · have e : (index - i).toNat = 0 := by omega
      rw [e, List.getElem?_cons_zero]

theorem tm_startup_get_eq (s : TmAppState) (index : Int) :
    tm_startup_get s index = if index < 0 then none else s.startup_list[index.toNat]? := by
  unfold tm_startup_get
  split_ifs with h
  · rfl
  · rw [startup_walk_eq _ _ _ (not_lt.mp h), sub_zero]

/-- For a sum that is not negative, C integer division of its integer part is
the integer part of the quotient. -/
theorem clicked_index_floor (pointerY viewportTop : ℚ) (scroll_pos row_height : Int)
    (hsum : 0 ≤ pointerY - viewportTop + (scroll_pos : ℚ)) (hrow : 0 < row_height) :
    clicked_index pointerY viewportTop scroll_pos row_height
      = ⌊(pointerY - viewportTop + (scroll_pos : ℚ)) / (row_height : ℚ)⌋ := by
  unfold clicked_index
  generalize pointerY - viewportTop + (scroll_pos : ℚ) = x at hsum
  have hn : 0 ≤ ⌊x⌋ := Int.floor_nonneg.mpr hsum
  rw [Int.tdiv_eq_ediv hn (le_of_lt hrow)]
  symm
  have hr : (0 : ℚ) < (row_height : ℚ) := by exact_mod_cast hrow
  rw [Int.floor_eq_iff]
  have hdecomp := Int.emod_add_ediv ⌊x⌋ row_height
  have hmod0 := Int.emod_nonneg ⌊x⌋ (ne_of_gt hrow)
  have hmod1 := Int.emod_lt_of_pos ⌊x⌋ hrow
  have hle : row_height * (⌊x⌋ / row_height) ≤ ⌊x⌋ := by omega
  have hlt : ⌊x⌋ + 1 ≤ row_height * (⌊x⌋ / row_height) + row_height := by omega
  have hle' : (row_height : ℚ) * ((⌊x⌋ / row_height : Int) : ℚ) ≤ (⌊x⌋ : ℚ) := by
    exact_mod_cast hle
  have hlt' : (⌊x⌋ : ℚ) + 1 ≤ (row_height : ℚ) * ((⌊x⌋ / row_height : Int) : ℚ)
      + (row_height : ℚ) := by
    exact_mod_cast hlt
  have hx0 := Int.floor_le x
  have hx1 := Int.lt_floor_add_one x
  constructor
  · rw [le_div_iff₀ hr]; linarith
  · rw [div_lt_iff₀ hr]; linarith

/-! ## Chart-maximum lemmas -/

theorem history_tick_loop_some (cps : ℚ) (inp : Nat → HistoryInput) (l : List TmAppHistory)
    (k : Nat) (h : ∀ app ∈ l, 0 ≤ app.history_idx ∧ app.history_idx < TM_HIST_SHORT) :
    ∃ l', history_tick_loop cps inp l k = some l' := by
  induction l generalizing k with
  | nil => exact ⟨[], rfl⟩
  | cons app rest ih =>
    obtain ⟨rest', hrest⟩ := ih (k + 1) (fun a ha => h a (List.mem_cons_of_mem _ ha))
    obtain ⟨h0, h1⟩ := h app (List.mem_cons_self _ _)
    unfold history_tick_loop
    simp only [hrest, update_history_entry_eq app _ _ _ h0 h1]
    split_ifs
    · exact ⟨_, rfl⟩
    · exact ⟨_, rfl⟩

/-- The result of `tm_perf_update` once the interval has elapsed, in a state
whose write indices are inside their rings. -/
theorem tm_perf_update_elapsed (s : TmAppState) (cps : ℚ) (inp : PerfInput)
    (hd : 1 ≤ tm_perf_delta_seconds s.perf inp.now cps)
    (hc : 0 ≤ s.perf.cpu_idx ∧ s.perf.cpu_idx < TM_HIST_LEN)
    (hm : 0 ≤ s.perf.mem_idx ∧ s.perf.mem_idx < TM_HIST_LEN)
    (hk : 0 ≤ s.perf.disk_idx ∧ s.perf.disk_idx < TM_HIST_LEN)
    (hg : 0 ≤ s.perf.gpu_idx ∧ s.perf.gpu_idx < TM_HIST_LEN)
    (hh : ∀ app ∈ s.history_list, 0 ≤ app.history_idx ∧ app.history_idx < TM_HIST_SHORT) :
    ∃ l', tm_perf_update s cps inp = some (tm_result_t.TM_OK,
      { s with
        history_list := l'
        perf := { s.perf with
          last_update := inp.stamp
          process_count := s.process_count
          uptime_s := (s.perf.uptime_s
            + truncU32 (tm_perf_delta_seconds s.perf inp.now cps)) % 4294967296
          cpu_percent := min inp.cpu_sample 100
          cpu_history := Function.update s.perf.cpu_history s.perf.cpu_idx.toNat
            (min inp.cpu_sample 100)
          cpu_idx := Int.tmod (s.perf.cpu_idx + 1) TM_HIST_LEN
          mem_used_kb := min inp.mem_used inp.mem_total
          mem_total_kb := inp.mem_total
          mem_available_kb := inp.mem_total - min inp.mem_used inp.mem_total
          mem_history := Function.update s.perf.mem_history s.perf.mem_idx.toNat
            (min inp.mem_used inp.mem_total)
          mem_idx := Int.tmod (s.perf.mem_idx + 1) TM_HIST_LEN
          disk_used_kb := 200000000 + inp.r_disk % 150000000
          disk_history := Function.update s.perf.disk_history s.perf.disk_idx.toNat
            (200000000 + inp.r_disk % 150000000)
          disk_idx := Int.tmod (s.perf.disk_idx + 1) TM_HIST_LEN
          gpu_percent := min (8 + ((inp.r_gpu % 50 : Nat) : ℚ)) 100
          gpu_history := Function.update s.perf.gpu_history s.perf.gpu_idx.toNat
            (min (8 + ((inp.r_gpu % 50 : Nat) : ℚ)) 100)
          gpu_idx := Int.tmod (s.perf.gpu_idx + 1) TM_HIST_LEN
          thread_count := s.process_count * 3 + ((inp.r_threads % 100 : Nat) : Int) } }) := by
  obtain ⟨l', hl'⟩ := history_tick_loop_some cps inp.history s.history_list 0 hh
  refine ⟨l', ?_⟩
  have hnot : ¬ tm_perf_delta_seconds s.perf inp.now cps < TM_PERF_UPDATE_INTERVAL_S := by
    unfold TM_PERF_UPDATE_INTERVAL_S
    exact not_lt.mpr hd
  simp only [tm_perf_update, hnot, if_false, update_cpu_eq, update_memory_eq, update_disk_eq,
    update_gpu_eq, hc.1, hc.2, hm.1, hm.2, hk.1, hk.2, hg.1, hg.2, tm_history_tick, hl',
    update_threads]

theorem update_cpu_recorded (d : TmPerfData) (sample : ℚ) (h0 : 0 ≤ sample)
    (hi : 0 ≤ d.cpu_idx ∧ d.cpu_idx < TM_HIST_LEN) :
    ∃ d', update_cpu d sample = some d' ∧ d'.cpu_history d.cpu_idx.toNat = min sample 100 ∧
      0 ≤ d'.cpu_history d.cpu_idx.toNat ∧ d'.cpu_history d.cpu_idx.toNat ≤ 100 := by
  refine ⟨_, update_cpu_eq d sample hi.1 hi.2, Function.update_same _ _ _, ?_, ?_⟩
  · show 0 ≤ Function.update d.cpu_history d.cpu_idx.toNat (min sample 100) d.cpu_idx.toNat
    rw [Function.update_same]
    exact le_min h0 (by norm_num)
  · show Function.update d.cpu_history d.cpu_idx.toNat (min sample 100) d.cpu_idx.toNat ≤ 100
    rw [Function.update_same]
    exact min_le_right _ _

theorem sample_cpu_nonneg (r : Nat) : (0 : ℚ) ≤ 5 + ((r % 60 : Nat) : ℚ) := by
  have h : (0 : ℚ) ≤ ((r % 60 : Nat) : ℚ) := Nat.cast_nonneg _
  linarith

/-! ## Checked-division lemmas -/

theorem checked_div_of_ne (a b : ℚ) (h : b ≠ 0) : checked_div a b = some (a / b) := by
  simp [checked_div, h]

theorem thumb_h_checked_eq (sb : TmScrollBar) (h : sb.content_height ≠ 0) :
    ui_scrollbar_thumb_h_checked sb = some (ui_scrollbar_thumb_h sb) := by
  have h' : (sb.content_height : ℚ) ≠ 0 := by exact_mod_cast h
  simp only [ui_scrollbar_thumb_h_checked, checked_div_of_ne _ _ h', ui_scrollbar_thumb_h]

theorem thumb_rect_checked_eq (sb : TmScrollBar) (th : ℚ) :
    ui_scrollbar_thumb_rect_checked sb th = some (ui_scrollbar_thumb_rect sb th) := by
  unfold ui_scrollbar_thumb_rect_checked ui_scrollbar_thumb_rect
  by_cases hm : sb.max_scroll > 0
  · have hm' : (sb.max_scroll : ℚ) ≠ 0 := by
      have : (0 : ℚ) < (sb.max_scroll : ℚ) := by exact_mod_cast hm
      exact ne_of_gt this
    simp only [hm, if_true, checked_div_of_ne _ _ hm']
  · simp only [hm, if_false]

theorem handle_click_checked_eq (sb : TmScrollBar) (mouse : Vector2) (th : ℚ)
    (pressed : Bool) :
    ui_scrollbar_handle_click_checked sb mouse th pressed
      = some (ui_scrollbar_handle_click sb mouse th pressed) := by
  unfold ui_scrollbar_handle_click_checked ui_scrollbar_handle_click
  by_cases hr : sb.bounds.height - th > 0
  · have hr' : sb.bounds.height - th ≠ 0 := ne_of_gt hr
    simp only [hr, if_true, checked_div_of_ne _ _ hr']
    split_ifs <;> rfl
  · simp only [hr, if_false]
    split_ifs <;> rfl

theorem handle_drag_checked_eq (sb : TmScrollBar) (mouse : Vector2) (th : ℚ)
    (released : Bool) :
    ui_scrollbar_handle_drag_checked sb mouse th released
      = some (ui_scrollbar_handle_drag sb mouse th released) := by
  unfold ui_scrollbar_handle_drag_checked ui_scrollbar_handle_drag
  by_cases hr : sb.bounds.height - th > 0
  · have hr' : sb.bounds.height - th ≠ 0 := ne_of_gt hr
    simp only [hr, if_true, checked_div_of_ne _ _ hr']
    split_ifs <;> rfl
  · simp only [hr, if_false]
    split_ifs <;> rfl

theorem update_checked_eq (sb : TmScrollBar) (mouse : Vector2) (wheel : ℚ)
    (area : Rectangle) (pressed released : Bool)
    (h : ui_scrollbar_needed sb = true → sb.content_height ≠ 0) :
    ui_scrollbar_update_checked sb mouse wheel area pressed released
      = some (ui_scrollbar_update sb mouse wheel area pressed released) := by
  unfold ui_scrollbar_update_checked ui_scrollbar_update
  by_cases hn : ui_scrollbar_needed sb = true
  · simp only [hn, Bool.not_true, Bool.false_eq_true, if_false, thumb_h_checked_eq sb (h hn),
      thumb_rect_checked_eq, handle_click_checked_eq, handle_drag_checked_eq]
  · simp only [hn, Bool.not_eq_true] at hn ⊢
    simp [hn]

/-! ## Startup-list lemmas -/

theorem startup_toggle_walk_length (l : List TmStartupApp) (i index : Int) :
    (startup_toggle_walk l i index).length = l.length := by
  induction l generalizing i with
  | nil => rfl
  | cons a rest ih =>
    unfold startup_toggle_walk
    split_ifs
    · simp [ih]
    · simp

theorem startup_toggle_walk_get (l : List TmStartupApp) (i index : Int) (h : i ≤ index)
    (k : Nat) :
    (startup_toggle_walk l i index)[k]? =
      if k = (index - i).toNat then l[k]?.map toggled_entry else l[k]? := by
  induction l generalizing i k with
  | nil => simp [startup_toggle_walk]
  | cons a rest ih =>
    unfold startup_toggle_walk
    by_cases hlt : i < index
    · rw [if_pos hlt]
      cases k with
      | zero =>
        have hne : ¬ (0 = (index - i).toNat) := by omega
        simp [hne]
      | succ k =>
        rw [List.getElem?_cons_succ, List.getElem?_cons_succ, ih (i + 1) (by omega) k]
        have e : (k + 1 = (index - i).toNat) ↔ (k = (index - (i + 1)).toNat) := by omega
        simp only [e]
    · rw [if_neg hlt]
      have e0 : (index - i).toNat = 0 := by omega
      cases k with
      | zero => simp [e0, toggled_entry]
      | succ k => simp [e0]

theorem toggled_entry_twice (a : TmStartupApp) (h : StatusConsistent a) :
    toggled_entry (toggled_entry a) = a := by
  unfold StatusConsistent at h
  cases a with
  | mk name publisher status impact_s is_enabled =>
    simp only [toggled_entry, Bool.not_not] at h ⊢
    rw [← h]

theorem toggled_entry_consistent (a : TmStartupApp) : StatusConsistent (toggled_entry a) := rfl

theorem tm_startup_toggle_valid (s : TmAppState) (index : Int) (h0 : 0 ≤ index)
    (h1 : index < (s.startup_list.length : Int)) :
    tm_startup_toggle s index = (tm_result_t.TM_OK,
      { s with startup_list := startup_toggle_walk s.startup_list 0 index }) := by
  have hlt : index.toNat < s.startup_list.length := by omega
  have hget : tm_startup_get s index = some (s.startup_list.get ⟨_, hlt⟩) := by
    rw [tm_startup_get_eq, if_neg (by omega), List.getElem?_eq_getElem hlt]
    rfl
  simp only [tm_startup_toggle, hget]

theorem tm_startup_toggle_invalid (s : TmAppState) (index : Int)
    (h : index < 0 ∨ (s.startup_list.length : Int) ≤ index) :
    tm_startup_toggle s index = (tm_result_t.TM_ERR_INVALID_ARG, s) := by
  have hget : tm_startup_get s index = none := by
    rw [tm_startup_get_eq]
    split_ifs with hneg
    · rfl
    · exact List.getElem?_eq_none (by omega)
  simp only [tm_startup_toggle, hget]

theorem startup_load_loop_consistent (alloc_ok : Nat → Bool) (idxs : List Nat)
    (s : TmAppState) (h : ∀ app ∈ s.startup_list, StatusConsistent app) :
    ∀ app ∈ (startup_load_loop alloc_ok idxs s).2.startup_list, StatusConsistent app := by
  induction idxs generalizing s with
  | nil => exact h
  | cons i rest ih =>
    unfold startup_load_loop
    split_ifs
    · exact h
    · apply ih
      intro app happ
      rcases List.mem_cons.mp happ with rfl | hmem
      · rfl
      · exact h app hmem

theorem startup_toggle_consistent (s : TmAppState) (index : Int)
    (h : ∀ app ∈ s.startup_list, StatusConsistent app) :
    ∀ app ∈ (tm_startup_toggle s index).2.startup_list, StatusConsistent app := by
  by_cases hv : 0 ≤ index ∧ index < (s.startup_list.length : Int)
  · rw [tm_startup_toggle_valid s index hv.1 hv.2]
    intro app happ
    obtain ⟨k, hk, hget⟩ := List.getElem_of_mem happ
    have hget' : (startup_toggle_walk s.startup_list 0 index)[k]? = some app := by
      rw [List.getElem?_eq_getElem hk, hget]
    rw [startup_toggle_walk_get _ _ _ hv.1 k] at hget'
    split_ifs at hget' with hki
    · cases hold : s.startup_list[k]? with
      | none => rw [hold] at hget'; cases hget'
      | some a =>
        rw [hold] at hget'
        cases hget'
        exact toggled_entry_consistent a
    · exact h app (List.getElem?_mem hget')
  · rw [tm_startup_toggle_invalid s index (by omega)]
    exact h

theorem startup_reachable_consistent {s : TmAppState} (h : StartupReachable s) :
    ∀ app ∈ s.startup_list, StatusConsistent app := by
  induction h with
  | load s alloc_ok =>
    exact startup_load_loop_consistent alloc_ok _ _ (fun _ hmem => by cases hmem)
  | toggle index _ ih => exact startup_toggle_consistent _ index ih

/-! ## Legacy scrollbar lemmas -/

/-- Closed forms of the two track-click branches when the track is taller than
the thumb: both map the track-relative thumb top `t = clickY - thumbHeight / 2`
through the same linear mapping, `Version_1` after moving it up by `bounds.y`. -/
theorem legacy_track_closed (sb : ScrollBar) (mouse : Vector2) (th : ℚ)
    (hr : 0 < sb.bounds.height - th) :
    HandleScrollBarInteraction_track sb mouse th = some
      { sb with
        scrollPosition := truncQ
          (max 0 (min (mouse.y - sb.bounds.y - th / 2 - sb.bounds.y) (sb.bounds.height - th))
            * (sb.maxScroll : ℚ) / (sb.bounds.height - th)) } ∧
    UI_HandleScrollBarInteraction_track sb mouse th = some
      { sb with
        scrollPosition := truncQ
          (max 0 (min (mouse.y - sb.bounds.y - th / 2) (sb.bounds.height - th))
            * (sb.maxScroll : ℚ) / (sb.bounds.height - th)) } := by
  have hne : sb.bounds.height - th ≠ 0 := ne_of_gt hr
  constructor
  · have hc := seq_clamp (mouse.y - sb.bounds.y - th / 2) sb.bounds.y
      (sb.bounds.y + sb.bounds.height - th) (by linarith)
    simp only [HandleScrollBarInteraction_track, checked_div_of_ne _ _ hne, hc]
    have e : max sb.bounds.y (min (mouse.y - sb.bounds.y - th / 2)
        (sb.bounds.y + sb.bounds.height - th)) - sb.bounds.y
        = max 0 (min (mouse.y - sb.bounds.y - th / 2 - sb.bounds.y) (sb.bounds.height - th)) := by
      rw [← max_sub_sub_right, ← min_sub_sub_right]
      congr 2
      · ring
      · ring
    rw [e]
  · have hc := seq_clamp (mouse.y - sb.bounds.y - th / 2) 0 (sb.bounds.height - th)
      (le_of_lt hr)
    simp only [UI_HandleScrollBarInteraction_track, checked_div_of_ne _ _ hne, hc]

theorem legacy_click_v1 :
    HandleScrollBarInteraction legacy_scrollbar 120 600 1200 ⟨1190, 500⟩ true false 0 = some
      { legacy_scrollbar with thumb := ⟨1185, 120, 12, 120⟩, scrollPosition := 1000 } := by
  have hw : wrap32 (600 * 600) = 360000 := by decide
  have ht : truncQ 1000 = 1000 := by
    have := truncQ_intCast 1000
    simpa using this
  simp only [HandleScrollBarInteraction, scrollbar_interaction, legacy_scrollbar, hw,
    HandleScrollBarInteraction_track, checked_div, CheckCollisionPointRec]
  norm_num
  exact ht

theorem legacy_click_main :
    UI_HandleScrollBarInteraction legacy_scrollbar 120 600 1200 ⟨1190, 500⟩ true false 0 = some
      { legacy_scrollbar with thumb := ⟨1185, 120, 12, 120⟩, scrollPosition := 1600 } := by
  have hw : wrap32 (600 * 600) = 360000 := by decide
  have ht : truncQ 1600 = 1600 := by
    have := truncQ_intCast 1600
    simpa using this
  simp only [UI_HandleScrollBarInteraction, scrollbar_interaction, legacy_scrollbar, hw,
    UI_HandleScrollBarInteraction_track, checked_div, CheckCollisionPointRec]
  norm_num
  exact ht

/-! ## Command lemmas -/

theorem startup_state_list :
    startup_state.startup_list =
      [⟨"Microsoft Teams", "Microsoft Corporation", "Disabled", 3.8, false⟩,
       ⟨"Realtek Audio", "Realtek Semiconductor", "Enabled", 0.3, true⟩,
       ⟨"NVIDIA Display", "NVIDIA Corporation", "Enabled", 0.5, true⟩,
       ⟨"Adobe Creative Cloud", "Adobe Inc.", "Enabled", 2.8, true⟩,
       ⟨"Steam Client", "Valve Corporation", "Enabled", 4.5, true⟩,
       ⟨"Discord", "Discord Inc.", "Disabled", 3.2, false⟩,
       ⟨"Spotify", "Spotify AB", "Enabled", 1.5, true⟩,
       ⟨"Microsoft OneDrive", "Microsoft Corporation", "Enabled", 2.1, true⟩] := by
  rfl

theorem startup_state_frame :
    startup_state = { ui_init zero_state with startup_list := startup_state.startup_list } := by
  rfl

theorem ui_init_tabs (i : Nat) :
    (ui_init zero_state).tabs i =
      if i = 0 then ⟨⟨10, 50, 100, 35⟩, true, false⟩
      else if i = 1 then ⟨⟨115, 50, 100, 35⟩, false, false⟩
      else if i = 2 then ⟨⟨220, 50, 100, 35⟩, false, false⟩
      else if i = 3 then ⟨⟨325, 50, 80, 35⟩, false, false⟩
      else ⟨⟨0, 0, 0, 0⟩, false, false⟩ := by
  simp only [ui_init, ui_layout_update, update_scrollbar_content, layout_scrollbars,
    layout_buttons, layout_tabs, tab_w, List.foldl, init_buttons, init_tabs, zero_state]
  by_cases h0 : i = 0
  · subst h0; simp [Function.update]
  by_cases h1 : i = 1
  · subst h1; simp [Function.update]
  by_cases h2 : i = 2
  · subst h2; simp [Function.update]
  by_cases h3 : i = 3
  · subst h3; simp [Function.update]
  simp [Function.update, h0, h1, h2, h3]

theorem startup_state_tabs (i : Nat) : startup_state.tabs i = (ui_init zero_state).tabs i := by
  rw [startup_state_frame]

/-- The press on the Startup tab in `startup_select_run`. -/
theorem startup_tab_click :
    handle_tab_clicks startup_state ⟨350, 60⟩ true =
      { startup_state with
        tabs := fun j =>
          if j < 4 then { startup_state.tabs j with is_active := decide (j = 3) }
          else startup_state.tabs j
        active_tab := TmTabId.TM_TAB_STARTUP
        selected_process_idx := -1
        selected_startup_idx := -1
        end_task_btn := { startup_state.end_task_btn with is_enabled := false }
        enable_startup_btn := { startup_state.enable_startup_btn with is_enabled := false }
        disable_startup_btn := { startup_state.disable_startup_btn with is_enabled := false } } := by
  have h0 : CheckCollisionPointRec ⟨350, 60⟩ (startup_state.tabs 0).bounds = false := by
    rw [startup_state_tabs, ui_init_tabs]; simp [CheckCollisionPointRec]; norm_num
  have h1 : CheckCollisionPointRec ⟨350, 60⟩ (startup_state.tabs 1).bounds = false := by
    rw [startup_state_tabs, ui_init_tabs]; simp [CheckCollisionPointRec]; norm_num
  have h2 : CheckCollisionPointRec ⟨350, 60⟩ (startup_state.tabs 2).bounds = false := by
    rw [startup_state_tabs, ui_init_tabs]; simp [CheckCollisionPointRec]; norm_num
  have h3 : CheckCollisionPointRec ⟨350, 60⟩ (startup_state.tabs 3).bounds = true := by
    rw [startup_state_tabs, ui_init_tabs]; simp [CheckCollisionPointRec]; norm_num
  simp only [handle_tab_clicks, tab_click_loop, h0, h1, h2, h3, Bool.not_true, Bool.not_false,
    Bool.false_eq_true, if_false, if_true, tab_id_of_index]

theorem startup_select_run_eq :
    startup_select_run =
      { handle_tab_clicks startup_state ⟨350, 60⟩ true with
        selected_startup_idx := 1
        enable_startup_btn :=
          { (handle_tab_clicks startup_state ⟨350, 60⟩ true).enable_startup_btn with
            is_enabled := false }
        disable_startup_btn :=
          { (handle_tab_clicks startup_state ⟨350, 60⟩ true).disable_startup_btn with
            is_enabled := true } } := by
  have hact : ((handle_tab_clicks startup_state ⟨350, 60⟩ true).tabs 3).is_active = true := by
    rw [startup_tab_click]; rfl
  have hsw : (handle_tab_clicks startup_state ⟨350, 60⟩ true).screen_w = 1200 := by
    rw [startup_tab_click]; rfl
  have hsh : (handle_tab_clicks startup_state ⟨350, 60⟩ true).screen_h = 800 := by
    rw [startup_tab_click]; rfl
  have hsp : (handle_tab_clicks startup_state ⟨350, 60⟩ true).startup_scroll.scroll_pos = 0 := by
    rw [startup_tab_click]; rfl
  have hin : CheckCollisionPointRec ⟨100, 280⟩
      ⟨30, 220, (((handle_tab_clicks startup_state ⟨350, 60⟩ true).screen_w - 60 : Int) : ℚ),
        (((handle_tab_clicks startup_state ⟨350, 60⟩ true).screen_h - 300 : Int) : ℚ)⟩ = true := by
    rw [hsw, hsh]; simp [CheckCollisionPointRec]; norm_num
  have htr : truncQ ((280 : ℚ) - 220) = 60 := by
    have e : ((280 : ℚ) - 220) = ((60 : Int) : ℚ) := by norm_num
    rw [e, truncQ_intCast]
  have hidx : Int.tdiv (60 + 0) TM_STARTUP_ROW_PX = 1 := by decide
  have hget : tm_startup_get (handle_tab_clicks startup_state ⟨350, 60⟩ true) 1
      = some ⟨"Realtek Audio", "Realtek Semiconductor", "Enabled", 0.3, true⟩ := by
    rw [startup_tab_click]; rfl
  simp only [startup_select_run, handle_startup_selection, hact, hin, htr, hsp, hidx, hget,
    Bool.not_true, Bool.false_eq_true, if_false, Bool.not_false]

theorem cmd_enable_startup_valid (s : TmAppState) (h0 : 0 ≤ s.selected_startup_idx)
    (h1 : s.selected_startup_idx < (s.startup_list.length : Int)) :
    cmd_enable_startup s = (tm_result_t.TM_OK,
      { s with
        startup_list := startup_toggle_walk s.startup_list 0 s.selected_startup_idx
        enable_startup_btn := { s.enable_startup_btn with is_enabled := false }
        disable_startup_btn := { s.disable_startup_btn with is_enabled := true } }) := by
  have hlt : s.selected_startup_idx.toNat < (startup_toggle_walk s.startup_list 0
      s.selected_startup_idx).length := by
    rw [startup_toggle_walk_length]; omega
  have hget : tm_startup_get
      { s with startup_list := startup_toggle_walk s.startup_list 0 s.selected_startup_idx }
      s.selected_startup_idx = some ((startup_toggle_walk s.startup_list 0
        s.selected_startup_idx).get ⟨_, hlt⟩) := by
    rw [tm_startup_get_eq, if_neg (by omega)]
    show (startup_toggle_walk s.startup_list 0 s.selected_startup_idx)[
      s.selected_startup_idx.toNat]? = _
    rw [List.getElem?_eq_getElem hlt]
    rfl
  simp only [cmd_enable_startup, not_lt.mpr h0, if_false, tm_startup_toggle_valid s _ h0 h1, hget]

theorem cmd_disable_startup_valid (s : TmAppState) (h0 : 0 ≤ s.selected_startup_idx)
    (h1 : s.selected_startup_idx < (s.startup_list.length : Int)) :
    cmd_disable_startup s = (tm_result_t.TM_OK,
      { s with
        startup_list := startup_toggle_walk s.startup_list 0 s.selected_startup_idx
        enable_startup_btn := { s.enable_startup_btn with is_enabled := true }
        disable_startup_btn := { s.disable_startup_btn with is_enabled := false } }) := by
  have hlt : s.selected_startup_idx.toNat < (startup_toggle_walk s.startup_list 0
      s.selected_startup_idx).length := by
    rw [startup_toggle_walk_length]; omega
  have hget : tm_startup_get
      { s with startup_list := startup_toggle_walk s.startup_list 0 s.selected_startup_idx }
      s.selected_startup_idx = some ((startup_toggle_walk s.startup_list 0
        s.selected_startup_idx).get ⟨_, hlt⟩) := by
    rw [tm_startup_get_eq, if_neg (by omega)]
    show (startup_toggle_walk s.startup_list 0 s.selected_startup_idx)[
      s.selected_startup_idx.toNat]? = _
    rw [List.getElem?_eq_getElem hlt]
    rfl
  simp only [cmd_disable_startup, not_lt.mpr h0, if_false, tm_startup_toggle_valid s _ h0 h1,
    hget]

theorem handle_keyboard_key_e (s : TmAppState) (observers : List (TmAppState → TmAppState))
    (cps : ℚ) (h : 0 ≤ s.selected_startup_idx) :
    handle_keyboard s key_e_only observers cps = some (cmd_enable_startup s).2 := by
  simp [handle_keyboard, key_e_only, h]

/-! ## Click-and-render lemmas -/

theorem mark_selected_get (l : List TmProcess) (i idx : Int) (k : Nat) :
    (mark_selected l i idx)[k]? =
      l[k]?.map (fun p => { p with is_selected := decide (i + (k : Int) = idx) }) := by
  induction l generalizing i k with
  | nil => simp [mark_selected]
  | cons p rest ih =>
    unfold mark_selected
    cases k with
    | zero => simp
    | succ k =>
      rw [List.getElem?_cons_succ, List.getElem?_cons_succ, ih (i + 1) k]
      have e : (i + 1 + (k : Int) = idx) ↔ (i + ((k + 1 : Nat) : Int) = idx) := by
        push_cast; constructor <;> intro h <;> omega
      simp only [e]

theorem mark_selected_length (l : List TmProcess) (i idx : Int) :
    (mark_selected l i idx).length = l.length := by
  induction l generalizing i with
  | nil => rfl
  | cons p rest ih => simp [mark_selected, ih]

/-- The row index that `handle_process_selection` computes for a pointer inside
the 30 screen rows starting at `y = 120 + i * 30 - row_off`. -/
theorem click_index_of_row (sp : Int) (my : ℚ) (i : Nat) (h0 : 0 ≤ sp)
    (hy : (120 : ℚ) ≤ my)
    (hy0 : (((120 + (i : Int) * 30 - rows_off sp : Int)) : ℚ) ≤ my)
    (hy1 : my < (((120 + (i : Int) * 30 - rows_off sp : Int)) : ℚ) + 30) :
    Int.tdiv (truncQ (my - 120) + sp) TM_ROW_HEIGHT_PX = rows_skip sp + (i : Int) := by
  have hoff : rows_off sp = sp % 30 := by
    unfold rows_off TM_ROW_HEIGHT_PX
    exact Int.tmod_eq_emod h0 (by norm_num)
  have hskip : rows_skip sp = sp / 30 := by
    unfold rows_skip TM_ROW_HEIGHT_PX
    exact Int.tdiv_eq_ediv h0 (by norm_num)
  have htr : truncQ (my - 120) = ⌊my⌋ - 120 := by
    unfold truncQ
    rw [if_pos (sub_nonneg.mpr hy)]
    simp
  have hf0 : 120 + (i : Int) * 30 - rows_off sp ≤ ⌊my⌋ := Int.le_floor.mpr hy0
  have hf1 : ⌊my⌋ < 120 + (i : Int) * 30 - rows_off sp + 30 := by
    rw [Int.floor_lt]
    push_cast at hy1 ⊢
    linarith
  have hnn : 0 ≤ ⌊my⌋ - 120 + sp := by
    have : (120 : Int) ≤ ⌊my⌋ := Int.le_floor.mpr (by simpa using hy)
    omega
  rw [htr, hskip]
  unfold TM_ROW_HEIGHT_PX
  rw [Int.tdiv_eq_ediv hnn (by norm_num)]
  rw [hoff] at hf0 hf1
  omega

/-! ## Thumb-geometry lemmas -/

theorem layout_tabs_idem (s : TmAppState) :
    (layout_tabs (layout_tabs s)).tabs = (layout_tabs s).tabs := by
  simp only [layout_tabs, tab_w, List.foldl]
  funext i
  by_cases h3 : i = 3
  · subst h3; simp [Function.update]
  by_cases h2 : i = 2
  · subst h2; simp [Function.update]
  by_cases h1 : i = 1
  · subst h1; simp [Function.update]
  by_cases h0 : i = 0
  · subst h0; simp [Function.update]
  simp [Function.update, h0, h1, h2, h3]

theorem ui_layout_update_idem (s : TmAppState) :
    ui_layout_update (ui_layout_update s) = ui_layout_update s := by
  have ht := layout_tabs_idem s
  simp only [layout_tabs] at ht
  simp only [ui_layout_update, update_scrollbar_content, layout_scrollbars, layout_buttons,
    layout_tabs]
  rw [ht]

/-- A frame without press, seen from the process scrollbar on the Processes
tab. -/
theorem frame_process_scroll (s : TmAppState) (mouse : Vector2) (wheel : ℚ) (released : Bool)
    (htab : s.active_tab = TmTabId.TM_TAB_PROCESSES) :
    (ui_input_update_no_press s mouse wheel released).process_scroll =
      { ui_scrollbar_update s.process_scroll mouse wheel
          ⟨10, 120, ((s.screen_w - 30 : Int) : ℚ), ((s.screen_h - 200 : Int) : ℚ)⟩
          false released with
        content_height := s.process_count * 30
        max_scroll :=
          if s.process_count * 30 - (ui_scrollbar_update s.process_scroll mouse wheel
              ⟨10, 120, ((s.screen_w - 30 : Int) : ℚ), ((s.screen_h - 200 : Int) : ℚ)⟩
              false released).visible_height > 0
          then s.process_count * 30 - (ui_scrollbar_update s.process_scroll mouse wheel
              ⟨10, 120, ((s.screen_w - 30 : Int) : ℚ), ((s.screen_h - 200 : Int) : ℚ)⟩
              false released).visible_height
          else 0 } ∧
    (ui_input_update_no_press s mouse wheel released).screen_h = s.screen_h ∧
    (ui_input_update_no_press s mouse wheel released).screen_w = s.screen_w ∧
    (ui_input_update_no_press s mouse wheel released).active_tab = s.active_tab ∧
    (ui_input_update_no_press s mouse wheel released).process_count = s.process_count ∧
    (ui_input_update_no_press s mouse wheel released).process_list = s.process_list := by
  simp only [ui_input_update_no_press, handle_scrollbars, update_tab_hover, htab,
    update_scrollbar_content, TM_ROW_HEIGHT_PX]
  norm_num

theorem list_count_eq_length {α : Type} (l : List α) : list_count l = (l.length : Int) := by
  have h : ∀ (l : List α) (c : Int),
      l.foldl (fun cnt _ => cnt + 1) c = c + (l.length : Int) := by
    intro l
    induction l with
    | nil => intro c; simp
    | cons a t ih => intro c; rw [List.foldl_cons, ih]; simp; ring
  unfold list_count
  rw [h]; simp

theorem refresh_loop_all_ok (entries : List TmProcess) (s : TmAppState) :
    refresh_loop s (entries.map fun e => (e, true)) =
      (tm_result_t.TM_OK,
        { s with process_list := entries.reverse ++ s.process_list,
                 process_count := s.process_count + (entries.length : Int) }) := by
  induction entries generalizing s with
  | nil => simp [refresh_loop]
  | cons e es ih =>
    simp only [List.map_cons, refresh_loop, prepend_process, Bool.not_true, Bool.false_eq_true,
      if_false, ih]
    simp only [List.reverse_cons, List.append_assoc, List.singleton_append, List.length_cons,
      Nat.cast_add, Nat.cast_one]
    congr 2
    ring

/-- A successful refresh, seen from the process scrollbar: the layout update
run by the observer recomputes bounds, heights and `max_scroll`, and carries
`scroll_pos` over as it is. -/
theorem refresh_process_scroll (entries : List TmProcess) (s : TmAppState) :
    (tm_process_list_refresh s (some (entries.map fun e => (e, true)))
        [on_process_changed]).2.process_scroll =
      { s.process_scroll with
        bounds := ⟨((s.screen_w - 12 - 3 : Int) : ℚ), 120, 12, ((s.screen_h - 200 : Int) : ℚ)⟩
        visible_height := s.screen_h - 200
        content_height := (entries.length : Int) * 30
        max_scroll := if (entries.length : Int) * 30 - (s.screen_h - 200) > 0
          then (entries.length : Int) * 30 - (s.screen_h - 200) else 0 } ∧
    (tm_process_list_refresh s (some (entries.map fun e => (e, true)))
        [on_process_changed]).2.screen_h = s.screen_h ∧
    (tm_process_list_refresh s (some (entries.map fun e => (e, true)))
        [on_process_changed]).2.screen_w = s.screen_w ∧
    (tm_process_list_refresh s (some (entries.map fun e => (e, true)))
        [on_process_changed]).2.active_tab = s.active_tab ∧
    (tm_process_list_refresh s (some (entries.map fun e => (e, true)))
        [on_process_changed]).2.process_count = (entries.length : Int) ∧
    (tm_process_list_refresh s (some (entries.map fun e => (e, true)))
        [on_process_changed]).2.process_list = entries.reverse := by
  simp only [tm_process_list_refresh, refresh_loop_all_ok, tm_process_list_free,
    notify_observers, List.foldl_cons, List.foldl_nil, on_process_changed, ui_layout_update,
    update_scrollbar_content, layout_scrollbars, layout_buttons, layout_tabs,
    TM_ROW_HEIGHT_PX, TM_SCROLLBAR_WIDTH_PX, zero_add]
  norm_num

/-- The process scrollbar and process list at the end of `shrink_run`, and after
any further frame without a press. -/
theorem shrink_run_facts :
    (shrink_run.process_scroll.content_height = 90 ∧
      shrink_run.process_scroll.visible_height = 600 ∧
      shrink_run.process_scroll.max_scroll = 0 ∧
      shrink_run.process_scroll.scroll_pos = 150 ∧
      shrink_run.process_list = List.replicate 3 demo_process ∧
      shrink_run.screen_h = 800) ∧
    (∀ (mouse : Vector2) (wheel : ℚ) (released : Bool),
      (ui_input_update_no_press shrink_run mouse wheel released).process_scroll.content_height
        = 90 ∧
      (ui_input_update_no_press shrink_run mouse wheel released).process_scroll.visible_height
        = 600 ∧
      (ui_input_update_no_press shrink_run mouse wheel released).process_scroll.max_scroll = 0 ∧
      (ui_input_update_no_press shrink_run mouse wheel released).process_scroll.scroll_pos
        = 150 ∧
      (ui_input_update_no_press shrink_run mouse wheel released).process_list
        = List.replicate 3 demo_process ∧
      (ui_input_update_no_press shrink_run mouse wheel released).screen_h = 800) := by
  -- start-up
  have h1 : (ui_init zero_state).process_scroll =
      { zero_scrollbar with bounds := ⟨1185, 120, 12, 600⟩, visible_height := 600 } := by
    simp only [ui_init, ui_layout_update, update_scrollbar_content, layout_scrollbars,
      layout_buttons, layout_tabs, init_buttons, init_tabs, zero_state, zero_scrollbar,
      TM_ROW_HEIGHT_PX, TM_SCROLLBAR_WIDTH_PX]
    norm_num
  have h1h : (ui_init zero_state).screen_h = 800 := rfl
  have h1w : (ui_init zero_state).screen_w = 1200 := rfl
  have h1t : (ui_init zero_state).active_tab = TmTabId.TM_TAB_PROCESSES := rfl
  -- first refresh: 25 processes
  obtain ⟨h2, h2h, h2w, h2t, _, _⟩ :=
    refresh_process_scroll (List.replicate 25 demo_process) (ui_init zero_state)
  generalize hs2 : (tm_process_list_refresh (ui_init zero_state)
    (some ((List.replicate 25 demo_process).map fun e => (e, true))) [on_process_changed]).2
    = s2 at h2 h2h h2w h2t
  rw [h1, h1h, h1w] at h2
  rw [h1h] at h2h
  rw [h1w] at h2w
  rw [h1t] at h2t
  have h2' : s2.process_scroll =
      { bounds := ⟨1185, 120, 12, 600⟩, thumb := ⟨0, 0, 0, 0⟩, is_dragging := false,
        drag_offset := 0, content_height := 750, visible_height := 600, scroll_pos := 0,
        max_scroll := 150 } := by
    rw [h2]; simp only [zero_scrollbar, List.length_replicate]; norm_num
  -- the wheel frame
  obtain ⟨h3, h3h, h3w, h3t, _, _⟩ := frame_process_scroll s2 ⟨400, 300⟩ (-5) false h2t
  have hupd : ui_scrollbar_update s2.process_scroll ⟨400, 300⟩ (-5)
      ⟨10, 120, ((s2.screen_w - 30 : Int) : ℚ), ((s2.screen_h - 200 : Int) : ℚ)⟩ false false
      = { s2.process_scroll with
          thumb := ui_scrollbar_thumb_rect s2.process_scroll
            (ui_scrollbar_thumb_h s2.process_scroll)
          scroll_pos := 150 } := by
    rw [update_wheel_frame _ _ _ _ (by rw [h2']; decide) (by rw [h2'])]
    rw [handle_wheel_inside _ _ _ _ (by rw [h2']; decide) (by norm_num)
      (by rw [h2h, h2w]; norm_num [CheckCollisionPointRec])]
    have e : ((-5 : ℚ) * 30) = ((-150 : Int) : ℚ) := by norm_num
    simp only [e, truncQ_intCast, h2']
    rfl
  generalize hs3 : ui_input_update_no_press s2 ⟨400, 300⟩ (-5) false = s3 at h3 h3h h3w h3t
  rw [hupd] at h3
  have h3s : s3.process_scroll.scroll_pos = 150 := by rw [h3]
  -- second refresh: 3 processes
  obtain ⟨h4, h4h, _, h4t, h4c, h4l⟩ := refresh_process_scroll (List.replicate 3 demo_process) s3
  have hrun : shrink_run = (tm_process_list_refresh s3
      (some ((List.replicate 3 demo_process).map fun e => (e, true)))
      [on_process_changed]).2 := by
    rw [← hs3, ← hs2]; rfl
  rw [← hrun, h3h, h2h] at h4
  rw [← hrun, h3t, h2t] at h4t
  have hc : shrink_run.process_scroll.content_height = 90 := by
    rw [h4]; simp
  have hv : shrink_run.process_scroll.visible_height = 600 := by
    rw [h4]; rfl
  have hm : shrink_run.process_scroll.max_scroll = 0 := by
    rw [h4]; simp
  have hp : shrink_run.process_scroll.scroll_pos = 150 := by
    rw [h4]; exact h3s
  have hl : shrink_run.process_list = List.replicate 3 demo_process := by
    rw [hrun, h4l, List.reverse_replicate]
  have hh : shrink_run.screen_h = 800 := by
    rw [hrun, h4h, h3h, h2h]
  refine ⟨⟨hc, hv, hm, hp, hl, hh⟩, ?_⟩
  intro mouse wheel released
  obtain ⟨h5, h5h, _, _, _, h5l⟩ := frame_process_scroll shrink_run mouse wheel released h4t
  have hin := update_inert shrink_run.process_scroll
    ⟨10, 120, ((shrink_run.screen_w - 30 : Int) : ℚ), ((shrink_run.screen_h - 200 : Int) : ℚ)⟩
    mouse wheel false released (by rw [hc, hv]; decide)
  rw [hin] at h5
  have hpc : shrink_run.process_count * 30 = 90 := by
    rw [hrun, h4c, List.length_replicate]; rfl
  rw [h5, h5l, h5h]
  simp only [hpc, hv, hp, hl, hh]
  exact ⟨trivial, trivial, by decide, trivial, trivial, trivial⟩

/-! ## Process-selection lemmas -/

theorem refresh_all_ok_eq (entries : List TmProcess) (s : TmAppState) :
    tm_process_list_refresh s (some (entries.map fun e => (e, true))) [on_process_changed] =
      (tm_result_t.TM_OK,
        ui_layout_update
          { s with
            process_list := entries.reverse
            process_count := (entries.length : Int)
            selected_process_idx := -1
            end_task_btn := { s.end_task_btn with is_enabled := false } }) := by
  simp only [tm_process_list_refresh, refresh_loop_all_ok, tm_process_list_free,
    notify_observers, List.foldl_cons, List.foldl_nil, on_process_changed, List.append_nil,
    zero_add]

theorem ui_layout_update_tabs (s : TmAppState) (i : Nat) :
    (ui_layout_update s).tabs i =
      if i = 0 then { s.tabs 0 with bounds := ⟨10, 50, 100, 35⟩ }
      else if i = 1 then { s.tabs 1 with bounds := ⟨115, 50, 100, 35⟩ }
      else if i = 2 then { s.tabs 2 with bounds := ⟨220, 50, 100, 35⟩ }
      else if i = 3 then { s.tabs 3 with bounds := ⟨325, 50, 80, 35⟩ }
      else s.tabs i := by
  simp only [ui_layout_update, update_scrollbar_content, layout_scrollbars,
    layout_buttons, layout_tabs, tab_w, List.foldl]
  by_cases h0 : i = 0
  · subst h0; simp [Function.update]
  by_cases h1 : i = 1
  · subst h1; simp [Function.update]
  by_cases h2 : i = 2
  · subst h2; simp [Function.update]
  by_cases h3 : i = 3
  · subst h3; simp [Function.update]
  simp [Function.update, h0, h1, h2, h3]

theorem tab_click_loop_frame (s : TmAppState) (mouse : Vector2) (l : List Nat) :
    (tab_click_loop s mouse l).process_list = s.process_list ∧
    (tab_click_loop s mouse l).process_count = s.process_count := by
  induction l with
  | nil => exact ⟨rfl, rfl⟩
  | cons i rest ih =>
    unfold tab_click_loop
    split_ifs
    · exact ih
    · exact ⟨rfl, rfl⟩

theorem refresh_loop_count (lines : List (TmProcess × Bool)) (s : TmAppState)
    (h : s.process_count = (s.process_list.length : Int)) :
    (refresh_loop s lines).2.process_count = ((refresh_loop s lines).2.process_list.length : Int) := by
  induction lines generalizing s with
  | nil => exact h
  | cons e rest ih =>
    obtain ⟨entry, ok⟩ := e
    cases ok with
    | false => simpa [refresh_loop, prepend_process] using h
    | true =>
      simp only [refresh_loop, prepend_process, Bool.not_true, Bool.false_eq_true, if_false]
      apply ih
      simp [h]

theorem refresh_count (s : TmAppState) (fp : Option (List (TmProcess × Bool))) :
    (tm_process_list_refresh s fp [on_process_changed]).2.process_count =
      ((tm_process_list_refresh s fp [on_process_changed]).2.process_list.length : Int) := by
  cases fp with
  | none => rfl
  | some lines =>
    have h := refresh_loop_count lines (tm_process_list_free s) rfl
    simp only [tm_process_list_refresh]
    generalize refresh_loop (tm_process_list_free s) lines = res at h
    obtain ⟨r, s'⟩ := res
    cases r <;> exact h

theorem handle_process_selection_cases (s : TmAppState) (mouse : Vector2) (pressed : Bool) :
    handle_process_selection s mouse pressed = s ∨
    ∃ idx : Int, 0 ≤ idx ∧ idx < s.process_count ∧
      handle_process_selection s mouse pressed =
        { s with
          selected_process_idx := idx
          end_task_btn := { s.end_task_btn with is_enabled := true }
          process_list := mark_selected s.process_list 0 idx } := by
  unfold handle_process_selection
  simp only []
  split_ifs with h1 h2 h3 h4
  · exact Or.inl rfl
  · exact Or.inl rfl
  · exact Or.inl rfl
  · exact Or.inl rfl
  · exact Or.inr ⟨_, by omega, by omega, rfl⟩

theorem proc_reachable_count {s : TmAppState} (h : ProcReachable s) :
    s.process_count = (s.process_list.length : Int) := by
  induction h with
  | init => rfl
  | free _ _ => rfl
  | prepend entry alloc_ok _ _ ih =>
    cases alloc_ok with
    | false => exact ih
    | true => simp [prepend_process, ih]
  | refresh fp _ _ _ => exact refresh_count _ fp
  | select mouse pressed _ ih =>
    rcases handle_process_selection_cases _ mouse pressed with h | ⟨idx, _, _, h⟩
    · rw [h]; exact ih
    · rw [h]
      show _ = ((mark_selected _ 0 _).length : Int)
      rw [mark_selected_length]
      exact ih
  | tab mouse pressed _ ih =>
    unfold handle_tab_clicks
    split_ifs
    · exact ih
    · rw [(tab_click_loop_frame _ _ _).1, (tab_click_loop_frame _ _ _).2]
      exact ih

theorem listed_state_eq :
    listed_state = ui_layout_update
      { ui_init zero_state with
        process_list := List.replicate 25 demo_process
        process_count := 25
        selected_process_idx := -1
        end_task_btn := { (ui_init zero_state).end_task_btn with is_enabled := false } } := by
  unfold listed_state
  rw [refresh_all_ok_eq]
  simp only [List.reverse_replicate, List.length_replicate]
  rfl

theorem listed_state_facts :
    (listed_state.tabs 0).is_active = true ∧
    (listed_state.tabs 0).bounds = ⟨10, 50, 100, 35⟩ ∧
    listed_state.screen_w = 1200 ∧ listed_state.screen_h = 800 ∧
    listed_state.process_scroll.scroll_pos = 0 ∧
    listed_state.process_count = 25 ∧
    listed_state.process_list = List.replicate 25 demo_process ∧
    listed_state.selected_process_idx = -1 ∧
    listed_state.active_tab = TmTabId.TM_TAB_PROCESSES := by
  have ht : listed_state.tabs 0 = ⟨⟨10, 50, 100, 35⟩, true, false⟩ := by
    rw [listed_state_eq, ui_layout_update_tabs, if_pos rfl]
    show ({ (ui_init zero_state).tabs 0 with bounds := ⟨10, 50, 100, 35⟩ } : TmTab) = _
    rw [ui_init_tabs, if_pos rfl]
  refine ⟨by rw [ht], by rw [ht], ?_, ?_, ?_, ?_, ?_, ?_, ?_⟩ <;> rw [listed_state_eq] <;> rfl

/-- The press of `select_run` selects index 5. -/
theorem select_run_eq :
    select_run =
      { listed_state with
        selected_process_idx := 5
        end_task_btn := { listed_state.end_task_btn with is_enabled := true }
        process_list := mark_selected listed_state.process_list 0 5 } := by
  obtain ⟨hact, _, hw, hh, hsp, hc, _, _, _⟩ := listed_state_facts
  have hin : CheckCollisionPointRec ⟨400, 280⟩
      ⟨10, 120, ((listed_state.screen_w - 30 : Int) : ℚ),
        ((listed_state.screen_h - 200 : Int) : ℚ)⟩ = true := by
    rw [hw, hh]; simp [CheckCollisionPointRec]; norm_num
  have htr : truncQ ((280 : ℚ) - 120) = 160 := by
    have e : ((280 : ℚ) - 120) = ((160 : Int) : ℚ) := by norm_num
    rw [e, truncQ_intCast]
  have hidx : Int.tdiv (160 + 0) TM_ROW_HEIGHT_PX = 5 := by decide
  have hv : ¬ ((5 : Int) < 0 ∨ (5 : Int) ≥ 25) := by decide
  simp only [select_run, handle_process_selection, hact, hin, htr, hsp, hidx, hc, hv,
    Bool.not_true, Bool.false_eq_true, if_false]

theorem select_run_reachable : ProcReachable select_run := by
  unfold select_run listed_state
  refine ProcReachable.select _ _ (ProcReachable.refresh _ ?_ ProcReachable.init)
  intro lines hl e he
  cases hl
  obtain ⟨p, hp, rfl⟩ := List.mem_map.mp he
  rw [List.eq_of_mem_replicate hp]
  rfl

theorem tab_click_run_eq :
    tab_click_run =
      { select_run with
        tabs := fun j =>
          if j < 4 then { select_run.tabs j with is_active := decide (j = 0) }
          else select_run.tabs j
        active_tab := TmTabId.TM_TAB_PROCESSES
        selected_process_idx := -1
        selected_startup_idx := -1
        end_task_btn := { select_run.end_task_btn with is_enabled := false }
        enable_startup_btn := { select_run.enable_startup_btn with is_enabled := false }
        disable_startup_btn := { select_run.disable_startup_btn with is_enabled := false } } := by
  have hb : (select_run.tabs 0).bounds = ⟨10, 50, 100, 35⟩ := by
    rw [select_run_eq]
    exact listed_state_facts.2.1
  have h0 : CheckCollisionPointRec ⟨50, 60⟩ (select_run.tabs 0).bounds = true := by
    rw [hb]; simp [CheckCollisionPointRec]; norm_num
  simp only [tab_click_run, handle_tab_clicks, tab_click_loop, h0, Bool.not_true,
    Bool.false_eq_true, if_false, tab_id_of_index]

/-! ## Ring properties -/

/-- C1: every ring update records its value in the slot at the write index,
leaves the other slots of the ring unchanged and advances the write index by
one modulo the capacity: the four 100-slot system rings written by
`update_cpu`, `update_memory`, `update_disk`, `update_gpu`, and the three
30-slot per-application rings written by `update_history_entry`.  The value
recorded is the metric's new current value. -/
theorem ring_record_stores_and_advances :
    (∀ (d : TmPerfData) (sample : ℚ), 0 ≤ d.cpu_idx → d.cpu_idx < TM_HIST_LEN →
      ∃ d', update_cpu d sample = some d' ∧ d'.cpu_percent = min sample 100 ∧
        RingRecorded 100 d.cpu_history d.cpu_idx d'.cpu_percent d'.cpu_history d'.cpu_idx) ∧
    (∀ (d : TmPerfData) (used total : Nat), 0 ≤ d.mem_idx → d.mem_idx < TM_HIST_LEN →
      ∃ d', update_memory d used total = some d' ∧ d'.mem_used_kb = min used total ∧
        RingRecorded 100 d.mem_history d.mem_idx d'.mem_used_kb d'.mem_history d'.mem_idx) ∧
    (∀ (d : TmPerfData) (r : Nat), 0 ≤ d.disk_idx → d.disk_idx < TM_HIST_LEN →
      ∃ d', update_disk d r = some d' ∧ d'.disk_used_kb = 200000000 + r % 150000000 ∧
        RingRecorded 100 d.disk_history d.disk_idx d'.disk_used_kb d'.disk_history
          d'.disk_idx) ∧
    (∀ (d : TmPerfData) (r : Nat), 0 ≤ d.gpu_idx → d.gpu_idx < TM_HIST_LEN →
      ∃ d', update_gpu d r = some d' ∧ d'.gpu_percent = min (8 + ((r % 50 : Nat) : ℚ)) 100 ∧
        RingRecorded 100 d.gpu_history d.gpu_idx d'.gpu_percent d'.gpu_history d'.gpu_idx) ∧
    (∀ (app : TmAppHistory) (r1 r2 : Nat) (now : Int),
      0 ≤ app.history_idx → app.history_idx < TM_HIST_SHORT →
      ∃ app', update_history_entry app r1 r2 now = some app' ∧
        RingRecorded 30 app.cpu_time_history app.history_idx app'.cpu_time
          app'.cpu_time_history app'.history_idx ∧
        RingRecorded 30 app.memory_history app.history_idx app'.memory_kb
          app'.memory_history app'.history_idx ∧
        RingRecorded 30 app.network_history app.history_idx app'.network_kb
          app'.network_history app'.history_idx) := by
  refine ⟨?_, ?_, ?_, ?_, ?_⟩
  · intro d sample h0 h1
    exact ⟨_, update_cpu_eq d sample h0 h1, rfl,
      ringRecorded_update 100 _ _ _ h0 (by norm_num)⟩
  · intro d used total h0 h1
    exact ⟨_, update_memory_eq d used total h0 h1, rfl,
      ringRecorded_update 100 _ _ _ h0 (by norm_num)⟩
  · intro d r h0 h1
    exact ⟨_, update_disk_eq d r h0 h1, rfl, ringRecorded_update 100 _ _ _ h0 (by norm_num)⟩
  · intro d r h0 h1
    exact ⟨_, update_gpu_eq d r h0 h1, rfl, ringRecorded_update 100 _ _ _ h0 (by norm_num)⟩
  · intro app r1 r2 now h0 h1
    exact ⟨_, update_history_entry_eq app r1 r2 now h0 h1,
      ringRecorded_update 30 _ _ _ h0 (by norm_num),
      ringRecorded_update 30 _ _ _ h0 (by norm_num),
      ringRecorded_update 30 _ _ _ h0 (by norm_num)⟩

/-- Witness of C1: the first CPU sample after initialisation, above the 100 %
cap. -/
theorem ring_record_stores_and_advances_witness :
    ∃ d', update_cpu (tm_perf_data_init 0) 250 = some d' ∧ d'.cpu_percent = min 250 100 ∧
      RingRecorded 100 (tm_perf_data_init 0).cpu_history (tm_perf_data_init 0).cpu_idx
        d'.cpu_percent d'.cpu_history d'.cpu_idx :=
  ring_record_stores_and_advances.1 (tm_perf_data_init 0) 250 (by decide) (by decide)

/-- C2: after more than `capacity` recordings into a ring that starts in any
valid state, the chronological read (slots `(writeIndex + i) mod capacity`,
`i = 0 .. capacity - 1`) is exactly the last `capacity` recorded values, oldest
first, and the graph readers `draw_line_graph` (CPU and GPU rings, capacity
100) and `draw_history_mini_graph` (per-application CPU ring, capacity 30)
draw their segments through exactly these values.  `tr` is the list of states
after each update, so `tr.map` of the metric is the list of recorded values. -/
theorem chronological_read_after_wraparound :
    (∀ (d : TmPerfData) (samples : List ℚ),
      0 ≤ d.cpu_idx → d.cpu_idx < 100 → 100 < samples.length →
      ∃ tr, runTrace update_cpu d samples = some tr ∧ tr.length = samples.length ∧
        tr.map (fun s => s.cpu_percent) = samples.map (fun v => min v 100) ∧
        chrono 100 (tr.getLastD d).cpu_history (tr.getLastD d).cpu_idx
          = lastN 100 (tr.map fun s => s.cpu_percent) ∧
        draw_line_graph (tr.getLastD d).cpu_history TM_HIST_LEN (tr.getLastD d).cpu_idx
          = segments (lastN 100 (tr.map fun s => s.cpu_percent))) ∧
    (∀ (d : TmPerfData) (inputs : List (Nat × Nat)),
      0 ≤ d.mem_idx → d.mem_idx < 100 → 100 < inputs.length →
      ∃ tr, runTrace (fun s (i : Nat × Nat) => update_memory s i.1 i.2) d inputs = some tr ∧
        tr.length = inputs.length ∧
        tr.map (fun s => s.mem_used_kb) = inputs.map (fun i => min i.1 i.2) ∧
        chrono 100 (tr.getLastD d).mem_history (tr.getLastD d).mem_idx
          = lastN 100 (tr.map fun s => s.mem_used_kb)) ∧
    (∀ (d : TmPerfData) (rands : List Nat),
      0 ≤ d.disk_idx → d.disk_idx < 100 → 100 < rands.length →
      ∃ tr, runTrace update_disk d rands = some tr ∧ tr.length = rands.length ∧
        tr.map (fun s => s.disk_used_kb) = rands.map (fun r => 200000000 + r % 150000000) ∧
        chrono 100 (tr.getLastD d).disk_history (tr.getLastD d).disk_idx
          = lastN 100 (tr.map fun s => s.disk_used_kb)) ∧
    (∀ (d : TmPerfData) (rands : List Nat),
      0 ≤ d.gpu_idx → d.gpu_idx < 100 → 100 < rands.length →
      ∃ tr, runTrace update_gpu d rands = some tr ∧ tr.length = rands.length ∧
        tr.map (fun s => s.gpu_percent)
          = rands.map (fun r => min (8 + ((r % 50 : Nat) : ℚ)) 100) ∧
        chrono 100 (tr.getLastD d).gpu_history (tr.getLastD d).gpu_idx
          = lastN 100 (tr.map fun s => s.gpu_percent) ∧
        draw_line_graph (tr.getLastD d).gpu_history TM_HIST_LEN (tr.getLastD d).gpu_idx
          = segments (lastN 100 (tr.map fun s => s.gpu_percent))) ∧
    (∀ (app : TmAppHistory) (inputs : List (Nat × Nat × Int)),
      0 ≤ app.history_idx → app.history_idx < 30 → 30 < inputs.length →
      ∃ tr, runTrace (fun a (i : Nat × Nat × Int) => update_history_entry a i.1 i.2.1 i.2.2)
          app inputs = some tr ∧ tr.length = inputs.length ∧
        chrono 30 (tr.getLastD app).cpu_time_history (tr.getLastD app).history_idx
          = lastN 30 (tr.map fun a => a.cpu_time) ∧
        chrono 30 (tr.getLastD app).memory_history (tr.getLastD app).history_idx
          = lastN 30 (tr.map fun a => a.memory_kb) ∧
        chrono 30 (tr.getLastD app).network_history (tr.getLastD app).history_idx
          = lastN 30 (tr.map fun a => a.network_kb) ∧
        draw_history_mini_graph (tr.getLastD app)
          = segments (lastN 30 (tr.map fun a => a.cpu_time))) := by
  refine ⟨?_, ?_, ?_, ?_, ?_⟩
  · intro d samples h0 h1 hn
    obtain ⟨tr, htr, hlen, hch⟩ := runTrace_wrap update_cpu 100 (fun s => s.cpu_history)
      (fun s => s.cpu_idx) (fun s => s.cpu_percent) cpu_ring_step samples d h0
      (by exact_mod_cast h1) (by exact_mod_cast hn)
    have hv := runTrace_vals update_cpu (fun s => s.cpu_percent) (fun v => min v 100)
      (fun s i s' hs => by
        simp only [update_cpu] at hs
        split at hs
        · exact absurd hs (by simp)
        · cases hs
          simp only
          split_ifs with h
          · exact (min_eq_right (le_of_lt h)).symm
          · exact (min_eq_left (not_lt.mp h)).symm) samples d tr htr
    have hch' : chrono 100 (tr.getLastD d).cpu_history (tr.getLastD d).cpu_idx
        = lastN 100 (tr.map fun s => s.cpu_percent) := by
      simpa [lastN] using hch
    refine ⟨tr, htr, hlen, hv, hch', ?_⟩
    rw [← hch']
    exact draw_line_graph_eq_chrono _ 100 _
  · intro d inputs h0 h1 hn
    obtain ⟨tr, htr, hlen, hch⟩ := runTrace_wrap
      (fun s (i : Nat × Nat) => update_memory s i.1 i.2) 100 (fun s => s.mem_history)
      (fun s => s.mem_idx) (fun s => s.mem_used_kb) mem_ring_step inputs d h0
      (by exact_mod_cast h1) (by exact_mod_cast hn)
    have hv := runTrace_vals (fun s (i : Nat × Nat) => update_memory s i.1 i.2)
      (fun s => s.mem_used_kb) (fun i => min i.1 i.2)
      (fun s i s' hs => by
        simp only [update_memory] at hs
        split at hs
        · exact absurd hs (by simp)
        · cases hs
          simp only
          split_ifs with h
          · exact (min_eq_right (le_of_lt h)).symm
          · exact (min_eq_left (not_lt.mp h)).symm) inputs d tr htr
    exact ⟨tr, htr, hlen, hv, by simpa [lastN] using hch⟩
  · intro d rands h0 h1 hn
    obtain ⟨tr, htr, hlen, hch⟩ := runTrace_wrap update_disk 100 (fun s => s.disk_history)
      (fun s => s.disk_idx) (fun s => s.disk_used_kb) disk_ring_step rands d h0
      (by exact_mod_cast h1) (by exact_mod_cast hn)
    have hv := runTrace_vals update_disk (fun s => s.disk_used_kb)
      (fun r => 200000000 + r % 150000000)
      (fun s i s' hs => by
        simp only [update_disk] at hs
        split at hs
        · exact absurd hs (by simp)
        · cases hs; rfl) rands d tr htr
    exact ⟨tr, htr, hlen, hv, by simpa [lastN] using hch⟩
  · intro d rands h0 h1 hn
    obtain ⟨tr, htr, hlen, hch⟩ := runTrace_wrap update_gpu 100 (fun s => s.gpu_history)
      (fun s => s.gpu_idx) (fun s => s.gpu_percent) gpu_ring_step rands d h0
      (by exact_mod_cast h1) (by exact_mod_cast hn)
    have hv := runTrace_vals update_gpu (fun s => s.gpu_percent)
      (fun r => min (8 + ((r % 50 : Nat) : ℚ)) 100)
      (fun s i s' hs => by
        simp only [update_gpu] at hs
        split at hs
        · exact absurd hs (by simp)
        · cases hs
          simp only
          split_ifs with h
          · exact (min_eq_right (le_of_lt h)).symm
          · exact (min_eq_left (not_lt.mp h)).symm) rands d tr htr
    have hch' : chrono 100 (tr.getLastD d).gpu_history (tr.getLastD d).gpu_idx
        = lastN 100 (tr.map fun s => s.gpu_percent) := by
      simpa [lastN] using hch
    refine ⟨tr, htr, hlen, hv, hch', ?_⟩
    rw [← hch']
    exact draw_line_graph_eq_chrono _ 100 _
  · intro app inputs h0 h1 hn
    have h1' : app.history_idx < ((30 : Nat) : Int) := by exact_mod_cast h1
    have hn' : (30 : Nat) < inputs.length := by exact_mod_cast hn
    obtain ⟨tr, htr, hlen, hc⟩ := runTrace_wrap
      (fun a (i : Nat × Nat × Int) => update_history_entry a i.1 i.2.1 i.2.2) 30
      (fun a => a.cpu_time_history) (fun a => a.history_idx) (fun a => a.cpu_time)
      (fun a i a0 a1 => by
        obtain ⟨a', e, ⟨b, _, _⟩, c⟩ := history_ring_step a i a0 a1
        exact ⟨a', e, b, c⟩) inputs app h0 h1' hn'
    obtain ⟨tr2, htr2, _, hm⟩ := runTrace_wrap
      (fun a (i : Nat × Nat × Int) => update_history_entry a i.1 i.2.1 i.2.2) 30
      (fun a => a.memory_history) (fun a => a.history_idx) (fun a => a.memory_kb)
      (fun a i a0 a1 => by
        obtain ⟨a', e, ⟨_, b, _⟩, c⟩ := history_ring_step a i a0 a1
        exact ⟨a', e, b, c⟩) inputs app h0 h1' hn'
    obtain ⟨tr3, htr3, _, hk⟩ := runTrace_wrap
      (fun a (i : Nat × Nat × Int) => update_history_entry a i.1 i.2.1 i.2.2) 30
      (fun a => a.network_history) (fun a => a.history_idx) (fun a => a.network_kb)
      (fun a i a0 a1 => by
        obtain ⟨a', e, ⟨_, _, b⟩, c⟩ := history_ring_step a i a0 a1
        exact ⟨a', e, b, c⟩) inputs app h0 h1' hn'
    rw [htr] at htr2 htr3
    cases htr2
    cases htr3
    have hc' : chrono 30 (tr.getLastD app).cpu_time_history (tr.getLastD app).history_idx
        = lastN 30 (tr.map fun a => a.cpu_time) := by
      simpa [lastN] using hc
    refine ⟨tr, htr, hlen, hc', by simpa [lastN] using hm, by simpa [lastN] using hk, ?_⟩
    rw [← hc']
    exact draw_history_mini_graph_eq_chrono _

/-- Witness of C2: 35 updates of a freshly initialised application entry. -/
theorem chronological_read_after_wraparound_witness :
    ∃ tr, runTrace (fun a (i : Nat × Nat × Int) => update_history_entry a i.1 i.2.1 i.2.2)
        (init_history_entry "chrome.exe" 3 4 5 0 (fun j => j))
        (List.replicate 35 (7, 11, 2)) = some tr ∧
      tr.length = (List.replicate 35 ((7, 11, 2) : Nat × Nat × Int)).length ∧
      chrono 30 (tr.getLastD (init_history_entry "chrome.exe" 3 4 5 0 (fun j => j))).cpu_time_history
          (tr.getLastD (init_history_entry "chrome.exe" 3 4 5 0 (fun j => j))).history_idx
        = lastN 30 (tr.map fun a => a.cpu_time) ∧
      chrono 30 (tr.getLastD (init_history_entry "chrome.exe" 3 4 5 0 (fun j => j))).memory_history
          (tr.getLastD (init_history_entry "chrome.exe" 3 4 5 0 (fun j => j))).history_idx
        = lastN 30 (tr.map fun a => a.memory_kb) ∧
      chrono 30 (tr.getLastD (init_history_entry "chrome.exe" 3 4 5 0 (fun j => j))).network_history
          (tr.getLastD (init_history_entry "chrome.exe" 3 4 5 0 (fun j => j))).history_idx
        = lastN 30 (tr.map fun a => a.network_kb) ∧
      draw_history_mini_graph (tr.getLastD (init_history_entry "chrome.exe" 3 4 5 0 (fun j => j)))
        = segments (lastN 30 (tr.map fun a => a.cpu_time)) :=
  chronological_read_after_wraparound.2.2.2.2
    (init_history_entry "chrome.exe" 3 4 5 0 (fun j => j)) (List.replicate 35 (7, 11, 2))
    (by simp [init_history_entry, seed_history_idx])
    (by simp [init_history_entry, seed_history_idx]) (by decide)

/-- C3: a ring whose write index is 0 (as `tm_perf_data_init` and
`init_history_entry` leave it) and that then receives `n ≤ capacity`
recordings is read chronologically as `capacity` values: first the initial
contents of slots `n .. capacity - 1`, untouched, then the `n` recorded values
in recording order; `draw_line_graph` and `draw_history_mini_graph` draw their
segments through exactly this sequence. -/
theorem chronological_read_before_wraparound :
    (∀ (d : TmPerfData) (samples : List ℚ), d.cpu_idx = 0 → samples.length ≤ 100 →
      ∃ tr, runTrace update_cpu d samples = some tr ∧ tr.length = samples.length ∧
        tr.map (fun s => s.cpu_percent) = samples.map (fun v => min v 100) ∧
        chrono 100 (tr.getLastD d).cpu_history (tr.getLastD d).cpu_idx
          = ((List.range 100).map d.cpu_history).drop tr.length
              ++ tr.map (fun s => s.cpu_percent) ∧
        (chrono 100 (tr.getLastD d).cpu_history (tr.getLastD d).cpu_idx).length = 100 ∧
        draw_line_graph (tr.getLastD d).cpu_history TM_HIST_LEN (tr.getLastD d).cpu_idx
          = segments (((List.range 100).map d.cpu_history).drop tr.length
              ++ tr.map (fun s => s.cpu_percent))) ∧
    (∀ (d : TmPerfData) (inputs : List (Nat × Nat)), d.mem_idx = 0 → inputs.length ≤ 100 →
      ∃ tr, runTrace (fun s (i : Nat × Nat) => update_memory s i.1 i.2) d inputs = some tr ∧
        tr.length = inputs.length ∧
        tr.map (fun s => s.mem_used_kb) = inputs.map (fun i => min i.1 i.2) ∧
        chrono 100 (tr.getLastD d).mem_history (tr.getLastD d).mem_idx
          = ((List.range 100).map d.mem_history).drop tr.length
              ++ tr.map (fun s => s.mem_used_kb)) ∧
    (∀ (d : TmPerfData) (rands : List Nat), d.disk_idx = 0 → rands.length ≤ 100 →
      ∃ tr, runTrace update_disk d rands = some tr ∧ tr.length = rands.length ∧
        tr.map (fun s => s.disk_used_kb) = rands.map (fun r => 200000000 + r % 150000000) ∧
        chrono 100 (tr.getLastD d).disk_history (tr.getLastD d).disk_idx
          = ((List.range 100).map d.disk_history).drop tr.length
              ++ tr.map (fun s => s.disk_used_kb)) ∧
    (∀ (d : TmPerfData) (rands : List Nat), d.gpu_idx = 0 → rands.length ≤ 100 →
      ∃ tr, runTrace update_gpu d rands = some tr ∧ tr.length = rands.length ∧
        tr.map (fun s => s.gpu_percent)
          = rands.map (fun r => min (8 + ((r % 50 : Nat) : ℚ)) 100) ∧
        chrono 100 (tr.getLastD d).gpu_history (tr.getLastD d).gpu_idx
          = ((List.range 100).map d.gpu_history).drop tr.length
              ++ tr.map (fun s => s.gpu_percent) ∧
        draw_line_graph (tr.getLastD d).gpu_history TM_HIST_LEN (tr.getLastD d).gpu_idx
          = segments (((List.range 100).map d.gpu_history).drop tr.length
              ++ tr.map (fun s => s.gpu_percent))) ∧
    (∀ (app : TmAppHistory) (inputs : List (Nat × Nat × Int)),
      app.history_idx = 0 → inputs.length ≤ 30 →
      ∃ tr, runTrace (fun a (i : Nat × Nat × Int) => update_history_entry a i.1 i.2.1 i.2.2)
          app inputs = some tr ∧ tr.length = inputs.length ∧
        chrono 30 (tr.getLastD app).cpu_time_history (tr.getLastD app).history_idx
          = ((List.range 30).map app.cpu_time_history).drop tr.length
              ++ tr.map (fun a => a.cpu_time) ∧
        chrono 30 (tr.getLastD app).memory_history (tr.getLastD app).history_idx
          = ((List.range 30).map app.memory_history).drop tr.length
              ++ tr.map (fun a => a.memory_kb) ∧
        chrono 30 (tr.getLastD app).network_history (tr.getLastD app).history_idx
          = ((List.range 30).map app.network_history).drop tr.length
              ++ tr.map (fun a => a.network_kb) ∧
        draw_history_mini_graph (tr.getLastD app)
          = segments (((List.range 30).map app.cpu_time_history).drop tr.length
              ++ tr.map (fun a => a.cpu_time))) := by
  refine ⟨?_, ?_, ?_, ?_, ?_⟩
  · intro d samples h0 hn
    obtain ⟨tr, htr, hlen, hch⟩ := runTrace_fresh update_cpu 100 (fun s => s.cpu_history)
      (fun s => s.cpu_idx) (fun s => s.cpu_percent) cpu_ring_step samples d h0
      (by norm_num) hn
    have hv := runTrace_vals update_cpu (fun s => s.cpu_percent) (fun v => min v 100)
      (fun s i s' hs => by
        simp only [update_cpu] at hs
        split at hs
        · exact absurd hs (by simp)
        · cases hs
          simp only
          split_ifs with h
          · exact (min_eq_right (le_of_lt h)).symm
          · exact (min_eq_left (not_lt.mp h)).symm) samples d tr htr
    refine ⟨tr, htr, hlen, hv, hch, chrono_length _ _ _, ?_⟩
    have hch' : chrono 100 (tr.getLastD d).cpu_history (tr.getLastD d).cpu_idx
        = ((List.range 100).map d.cpu_history).drop tr.length
            ++ tr.map (fun s => s.cpu_percent) := hch
    rw [← hch']
    exact draw_line_graph_eq_chrono _ 100 _
  · intro d inputs h0 hn
    obtain ⟨tr, htr, hlen, hch⟩ := runTrace_fresh
      (fun s (i : Nat × Nat) => update_memory s i.1 i.2) 100 (fun s => s.mem_history)
      (fun s => s.mem_idx) (fun s => s.mem_used_kb) mem_ring_step inputs d h0
      (by norm_num) hn
    have hv := runTrace_vals (fun s (i : Nat × Nat) => update_memory s i.1 i.2)
      (fun s => s.mem_used_kb) (fun i => min i.1 i.2)
      (fun s i s' hs => by
        simp only [update_memory] at hs
        split at hs
        · exact absurd hs (by simp)
        · cases hs
          simp only
          split_ifs with h
          · exact (min_eq_right (le_of_lt h)).symm
          · exact (min_eq_left (not_lt.mp h)).symm) inputs d tr htr
    exact ⟨tr, htr, hlen, hv, hch⟩
  · intro d rands h0 hn
    obtain ⟨tr, htr, hlen, hch⟩ := runTrace_fresh update_disk 100 (fun s => s.disk_history)
      (fun s => s.disk_idx) (fun s => s.disk_used_kb) disk_ring_step rands d h0
      (by norm_num) hn
    have hv := runTrace_vals update_disk (fun s => s.disk_used_kb)
      (fun r => 200000000 + r % 150000000)
      (fun s i s' hs => by
        simp only [update_disk] at hs
        split at hs
        · exact absurd hs (by simp)
        · cases hs; rfl) rands d tr htr
    exact ⟨tr, htr, hlen, hv, hch⟩
  · intro d rands h0 hn
    obtain ⟨tr, htr, hlen, hch⟩ := runTrace_fresh update_gpu 100 (fun s => s.gpu_history)
      (fun s => s.gpu_idx) (fun s => s.gpu_percent) gpu_ring_step rands d h0
      (by norm_num) hn
    have hv := runTrace_vals update_gpu (fun s => s.gpu_percent)
      (fun r => min (8 + ((r % 50 : Nat) : ℚ)) 100)
      (fun s i s' hs => by
        simp only [update_gpu] at hs
        split at hs
        · exact absurd hs (by simp)
        · cases hs
          simp only
          split_ifs with h
          · exact (min_eq_right (le_of_lt h)).symm
          · exact (min_eq_left (not_lt.mp h)).symm) rands d tr htr
    refine ⟨tr, htr, hlen, hv, hch, ?_⟩
    have hch' : chrono 100 (tr.getLastD d).gpu_history (tr.getLastD d).gpu_idx
        = ((List.range 100).map d.gpu_history).drop tr.length
            ++ tr.map (fun s => s.gpu_percent) := hch
    rw [← hch']
    exact draw_line_graph_eq_chrono _ 100 _
  · intro app inputs h0 hn
    obtain ⟨tr, htr, hlen, hc⟩ := runTrace_fresh
      (fun a (i : Nat × Nat × Int) => update_history_entry a i.1 i.2.1 i.2.2) 30
      (fun a => a.cpu_time_history) (fun a => a.history_idx) (fun a => a.cpu_time)
      (fun a i a0 a1 => by
        obtain ⟨a', e, ⟨b, _, _⟩, c⟩ := history_ring_step a i a0 a1
        exact ⟨a', e, b, c⟩) inputs app h0 (by norm_num) hn
    obtain ⟨tr2, htr2, _, hm⟩ := runTrace_fresh
      (fun a (i : Nat × Nat × Int) => update_history_entry a i.1 i.2.1 i.2.2) 30
      (fun a => a.memory_history) (fun a => a.history_idx) (fun a => a.memory_kb)
      (fun a i a0 a1 => by
        obtain ⟨a', e, ⟨_, b, _⟩, c⟩ := history_ring_step a i a0 a1
        exact ⟨a', e, b, c⟩) inputs app h0 (by norm_num) hn
    obtain ⟨tr3, htr3, _, hk⟩ := runTrace_fresh
      (fun a (i : Nat × Nat × Int) => update_history_entry a i.1 i.2.1 i.2.2) 30
      (fun a => a.network_history) (fun a => a.history_idx) (fun a => a.network_kb)
      (fun a i a0 a1 => by
        obtain ⟨a', e, ⟨_, _, b⟩, c⟩ := history_ring_step a i a0 a1
        exact ⟨a', e, b, c⟩) inputs app h0 (by norm_num) hn
    rw [htr] at htr2 htr3
    cases htr2
    cases htr3
    refine ⟨tr, htr, hlen, hc, hm, hk, ?_⟩
    have hc' : chrono 30 (tr.getLastD app).cpu_time_history (tr.getLastD app).history_idx
        = ((List.range 30).map app.cpu_time_history).drop tr.length
            ++ tr.map (fun a => a.cpu_time) := hc
    rw [← hc']
    exact draw_history_mini_graph_eq_chrono _

/-- Witness of C3: three CPU samples recorded right after `tm_perf_data_init`. -/
theorem chronological_read_before_wraparound_witness :
    ∃ tr, runTrace update_cpu (tm_perf_data_init 0) [12, 250, 40] = some tr ∧
      tr.length = ([12, 250, 40] : List ℚ).length ∧
      tr.map (fun s => s.cpu_percent) = ([12, 250, 40] : List ℚ).map (fun v => min v 100) ∧
      chrono 100 (tr.getLastD (tm_perf_data_init 0)).cpu_history
          (tr.getLastD (tm_perf_data_init 0)).cpu_idx
        = ((List.range 100).map (tm_perf_data_init 0).cpu_history).drop tr.length
            ++ tr.map (fun s => s.cpu_percent) ∧
      (chrono 100 (tr.getLastD (tm_perf_data_init 0)).cpu_history
          (tr.getLastD (tm_perf_data_init 0)).cpu_idx).length = 100 ∧
      draw_line_graph (tr.getLastD (tm_perf_data_init 0)).cpu_history TM_HIST_LEN
          (tr.getLastD (tm_perf_data_init 0)).cpu_idx
        = segments (((List.range 100).map (tm_perf_data_init 0).cpu_history).drop tr.length
            ++ tr.map (fun s => s.cpu_percent)) :=
  chronological_read_before_wraparound.1 (tm_perf_data_init 0) [12, 250, 40] rfl
    (by decide)

/-- C4: in every state reachable from `tm_perf_data_init` by the ring updates
the four write indices lie in `[0, 100)`, and in every state reachable from
`init_history_entry` by `update_history_entry` the write index lies in
`[0, 30)`; hence every ring update finds its slot inside the array (it does
not fail) and every slot index computed by the chronological readers
`draw_line_graph` and `draw_history_mini_graph` lies inside the array. -/
theorem write_index_in_bounds :
    (∀ d : TmPerfData, PerfReachable d →
      ((0 ≤ d.cpu_idx ∧ d.cpu_idx < 100) ∧ (0 ≤ d.mem_idx ∧ d.mem_idx < 100) ∧
        (0 ≤ d.disk_idx ∧ d.disk_idx < 100) ∧ (0 ≤ d.gpu_idx ∧ d.gpu_idx < 100)) ∧
      ((∀ sample, (update_cpu d sample).isSome) ∧ (∀ used total, (update_memory d used total).isSome) ∧
        (∀ r, (update_disk d r).isSome) ∧ (∀ r, (update_gpu d r).isSome)) ∧
      SlotsInside 100 (draw_line_graph_slots TM_HIST_LEN d.cpu_idx) ∧
      SlotsInside 100 (draw_line_graph_slots TM_HIST_LEN d.gpu_idx)) ∧
    (∀ app : TmAppHistory, HistoryReachable app →
      (0 ≤ app.history_idx ∧ app.history_idx < 30) ∧
      (∀ r1 r2 now, (update_history_entry app r1 r2 now).isSome) ∧
      SlotsInside 30 (draw_history_mini_graph_slots app)) := by
  constructor
  · intro d hd
    obtain ⟨hc, hm, hk, hg⟩ := perf_idx_invariant hd
    refine ⟨⟨hc, hm, hk, hg⟩, ⟨?_, ?_, ?_, ?_⟩, ?_, ?_⟩
    · intro sample; rw [update_cpu_eq d sample hc.1 hc.2]; rfl
    · intro used total; rw [update_memory_eq d used total hm.1 hm.2]; rfl
    · intro r; rw [update_disk_eq d r hk.1 hk.2]; rfl
    · intro r; rw [update_gpu_eq d r hg.1 hg.2]; rfl
    · exact slots_inside 100 d.cpu_idx hc.1 (by norm_num)
    · exact slots_inside 100 d.gpu_idx hg.1 (by norm_num)
  · intro app ha
    obtain ⟨h0, h1⟩ := history_idx_invariant ha
    refine ⟨⟨h0, h1⟩, ?_, ?_⟩
    · intro r1 r2 now; rw [update_history_entry_eq app r1 r2 now h0 h1]; rfl
    · rw [history_slots_eq]
      exact slots_inside 30 app.history_idx h0 (by norm_num)

/-- Witness of C4: the state right after `tm_perf_data_init`. -/
theorem write_index_in_bounds_witness :
    ((0 ≤ (tm_perf_data_init 0).cpu_idx ∧ (tm_perf_data_init 0).cpu_idx < 100) ∧
      (0 ≤ (tm_perf_data_init 0).mem_idx ∧ (tm_perf_data_init 0).mem_idx < 100) ∧
      (0 ≤ (tm_perf_data_init 0).disk_idx ∧ (tm_perf_data_init 0).disk_idx < 100) ∧
      (0 ≤ (tm_perf_data_init 0).gpu_idx ∧ (tm_perf_data_init 0).gpu_idx < 100)) :=
  (write_index_in_bounds.1 (tm_perf_data_init 0) (PerfReachable.init 0)).1

/-! ## Scrollbar properties -/

/-- C5, evaluated on the run `shrink_run`: after start-up, a refresh listing 25
processes, one wheel frame that scrolls the list to its end (`scroll_pos` 150 =
`max_scroll`) and a refresh listing 3 processes, the process scrollbar has
`max_scroll = 0` and still `scroll_pos = 150`, so `scroll_pos ≤ max_scroll`
fails; no later frame without a press repairs it, because the scrollbar is then
inert and `ui_scrollbar_update` returns at once. -/
theorem scroll_pos_exceeds_max_after_shrink :
    shrink_run.process_scroll.content_height = 90 ∧
    shrink_run.process_scroll.visible_height = 600 ∧
    shrink_run.process_scroll.max_scroll = 0 ∧
    shrink_run.process_scroll.scroll_pos = 150 ∧
    ¬ (shrink_run.process_scroll.scroll_pos ≤ shrink_run.process_scroll.max_scroll) ∧
    (∀ (mouse : Vector2) (wheel : ℚ) (released : Bool),
      (ui_input_update_no_press shrink_run mouse wheel released).process_scroll.max_scroll = 0 ∧
      (ui_input_update_no_press shrink_run mouse wheel released).process_scroll.scroll_pos
        = 150) := by
  obtain ⟨⟨hc, hv, hm, hp, _, _⟩, hf⟩ := shrink_run_facts
  refine ⟨hc, hv, hm, hp, by rw [hp, hm]; decide, ?_⟩
  intro mouse wheel released
  obtain ⟨_, _, h1, h2, _, _⟩ := hf mouse wheel released
  exact ⟨h1, h2⟩

/-- C6: after `update_scrollbar_content` each scrollbar has
`content_height = rows * row height` (`process_count * 30`, startup rows `* 45`,
history rows `* 65`) and `max_scroll = max(0, content_height - visible_height)`;
`UI_UpdateScrollBars` of `src/main.c` computes the same. -/
theorem scrollbar_content_formula (s : TmAppState) (g : MainGlobals) :
    ((update_scrollbar_content s).process_scroll.content_height = s.process_count * 30 ∧
      (update_scrollbar_content s).startup_scroll.content_height
        = (s.startup_list.length : Int) * 45 ∧
      (update_scrollbar_content s).history_scroll.content_height
        = (s.history_list.length : Int) * 65) ∧
    ((update_scrollbar_content s).process_scroll.max_scroll
        = max 0 ((update_scrollbar_content s).process_scroll.content_height
            - (update_scrollbar_content s).process_scroll.visible_height) ∧
      (update_scrollbar_content s).startup_scroll.max_scroll
        = max 0 ((update_scrollbar_content s).startup_scroll.content_height
            - (update_scrollbar_content s).startup_scroll.visible_height) ∧
      (update_scrollbar_content s).history_scroll.max_scroll
        = max 0 ((update_scrollbar_content s).history_scroll.content_height
            - (update_scrollbar_content s).history_scroll.visible_height)) ∧
    ((update_scrollbar_content s).process_scroll.visible_height
        = s.process_scroll.visible_height ∧
      (update_scrollbar_content s).startup_scroll.visible_height
        = s.startup_scroll.visible_height ∧
      (update_scrollbar_content s).history_scroll.visible_height
        = s.history_scroll.visible_height) ∧
    ((UI_UpdateScrollBars g).g_processScrollBar.contentHeight = g.g_processCount * 30 ∧
      (UI_UpdateScrollBars g).g_startupScrollBar.contentHeight
        = (g.g_startupList.length : Int) * 45 ∧
      (UI_UpdateScrollBars g).g_appHistoryScrollBar.contentHeight
        = (g.g_appHistoryList.length : Int) * 65) ∧
    ((UI_UpdateScrollBars g).g_processScrollBar.maxScroll
        = max 0 ((UI_UpdateScrollBars g).g_processScrollBar.contentHeight
            - (UI_UpdateScrollBars g).g_processScrollBar.visibleHeight) ∧
      (UI_UpdateScrollBars g).g_startupScrollBar.maxScroll
        = max 0 ((UI_UpdateScrollBars g).g_startupScrollBar.contentHeight
            - (UI_UpdateScrollBars g).g_startupScrollBar.visibleHeight) ∧
      (UI_UpdateScrollBars g).g_appHistoryScrollBar.maxScroll
        = max 0 ((UI_UpdateScrollBars g).g_appHistoryScrollBar.contentHeight
            - (UI_UpdateScrollBars g).g_appHistoryScrollBar.visibleHeight)) := by
  have hmax : ∀ x : Int, (if x > 0 then x else 0) = max 0 x := by
    intro x
    split_ifs with h
    · exact (max_eq_right (le_of_lt h)).symm
    · exact (max_eq_left (not_lt.mp h)).symm
  simp only [update_scrollbar_content, UI_UpdateScrollBars, list_count_eq_length, hmax,
    TM_ROW_HEIGHT_PX, TM_STARTUP_ROW_PX, TM_HISTORY_ROW_PX, and_self]

/-- C12: when the content is not taller than the viewport,
`update_scrollbar_content` leaves `max_scroll = 0` in each of the three
scrollbars, `ui_scrollbar_update` returns the scrollbar exactly as it was
(`scroll_pos`, `is_dragging`, `drag_offset`, `thumb` and all other fields) for
every pointer position, button event and wheel delta, and `ui_scrollbar_draw`
draws nothing. -/
theorem inert_scrollbar_unchanged :
    (∀ s : TmAppState,
      ((update_scrollbar_content s).process_scroll.content_height
          ≤ (update_scrollbar_content s).process_scroll.visible_height →
        (update_scrollbar_content s).process_scroll.max_scroll = 0) ∧
      ((update_scrollbar_content s).startup_scroll.content_height
          ≤ (update_scrollbar_content s).startup_scroll.visible_height →
        (update_scrollbar_content s).startup_scroll.max_scroll = 0) ∧
      ((update_scrollbar_content s).history_scroll.content_height
          ≤ (update_scrollbar_content s).history_scroll.visible_height →
        (update_scrollbar_content s).history_scroll.max_scroll = 0)) ∧
    (∀ (sb : TmScrollBar) (mouse : Vector2) (wheel : ℚ) (area : Rectangle)
        (pressed released : Bool), sb.content_height ≤ sb.visible_height →
      ui_scrollbar_update sb mouse wheel area pressed released = sb ∧
      ui_scrollbar_draw sb = []) := by
  constructor
  · intro s
    simp only [update_scrollbar_content]
    refine ⟨?_, ?_, ?_⟩ <;> intro h <;> rw [if_neg] <;> omega
  · intro sb mouse wheel area pressed released h
    exact ⟨update_inert sb area mouse wheel pressed released h, by simp [ui_scrollbar_draw, h]⟩

/-- Witness of C12: a scrollbar with 90 pixels of content in a 600-pixel
viewport ignores a press with wheel movement. -/
theorem inert_scrollbar_unchanged_witness :
    ui_scrollbar_update { demo_scrollbar with content_height := 90, max_scroll := 0 }
        ⟨1190, 300⟩ (-3) ⟨10, 120, 1170, 600⟩ true false
      = { demo_scrollbar with content_height := 90, max_scroll := 0 } ∧
    ui_scrollbar_draw { demo_scrollbar with content_height := 90, max_scroll := 0 } = [] :=
  inert_scrollbar_unchanged.2 { demo_scrollbar with content_height := 90, max_scroll := 0 }
    ⟨1190, 300⟩ (-3) ⟨10, 120, 1170, 600⟩ true false (by decide)

/-- C13, evaluated on the run `shrink_run`: after the refresh that shrinks the
list to 3 processes the process scrollbar is inert
(`content_height = 90 ≤ visible_height = 600`), yet `scroll_pos` is still 150;
every later frame without a press (scrollbar update, then content
recomputation) leaves it at 150, so the virtualization of `draw_process_rows`
skips `150 / 30 = 5` rows and draws none of the 3 listed processes. -/
theorem inert_scroll_pos_not_reset :
    shrink_run.process_scroll.content_height ≤ shrink_run.process_scroll.visible_height ∧
    shrink_run.process_scroll.scroll_pos = 150 ∧
    (∀ (mouse : Vector2) (wheel : ℚ) (released : Bool),
      (ui_input_update_no_press shrink_run mouse wheel released).process_scroll.content_height
        ≤ (ui_input_update_no_press shrink_run mouse wheel released).process_scroll.visible_height ∧
      (ui_input_update_no_press shrink_run mouse wheel released).process_scroll.scroll_pos
        = 150 ∧
      rows_skip (ui_input_update_no_press shrink_run mouse wheel released).process_scroll.scroll_pos
        = 5 ∧
      (ui_input_update_no_press shrink_run mouse wheel released).process_list.length = 3 ∧
      ui_tab_process_draw (ui_input_update_no_press shrink_run mouse wheel released) = []) := by
  obtain ⟨⟨hc, hv, _, hp, _, _⟩, hf⟩ := shrink_run_facts
  refine ⟨by rw [hc, hv]; decide, hp, ?_⟩
  intro mouse wheel released
  obtain ⟨h1, h2, _, h4, h5, h6⟩ := hf mouse wheel released
  refine ⟨by rw [h1, h2]; decide, h4, by rw [h4]; decide, by rw [h5]; rfl, ?_⟩
  simp only [ui_tab_process_draw, draw_process_rows, h4, h5, h6]
  have hs : rows_skip 150 = 5 := by decide
  simp [hs, List.replicate, skip_rows, draw_rows_loop]

/-- C16: for a press inside the list area of the active tab the selection
handlers compute `clickedIndex = (pointerY - viewportTop + scroll_pos) div
rowHeight` (viewport top 120 and row height 30 in `handle_process_selection`,
220 and 45 in `handle_startup_selection`).  When
`0 ≤ clickedIndex < rowCount` (`process_count`, respectively the length of the
startup list) the selection becomes `clickedIndex` (and the buttons and
selection flags follow); otherwise the state is returned unchanged.  For a
scroll position that is not negative `clickedIndex` is the integer part of the
quotient.  The scenario pointerY 245, viewport top 120, scroll 60, row height
45 gives index 4. -/
theorem selection_click_to_index (s : TmAppState) (mouse : Vector2) :
    ((s.tabs 0).is_active = true →
      CheckCollisionPointRec mouse
        ⟨10, 120, ((s.screen_w - 30 : Int) : ℚ), ((s.screen_h - 200 : Int) : ℚ)⟩ = true →
      (0 ≤ clicked_index mouse.y 120 s.process_scroll.scroll_pos 30 ∧
          clicked_index mouse.y 120 s.process_scroll.scroll_pos 30 < s.process_count →
        (handle_process_selection s mouse true).selected_process_idx
          = clicked_index mouse.y 120 s.process_scroll.scroll_pos 30 ∧
        (handle_process_selection s mouse true).end_task_btn.is_enabled = true ∧
        (handle_process_selection s mouse true).process_list
          = mark_selected s.process_list 0
              (clicked_index mouse.y 120 s.process_scroll.scroll_pos 30)) ∧
      (¬ (0 ≤ clicked_index mouse.y 120 s.process_scroll.scroll_pos 30 ∧
          clicked_index mouse.y 120 s.process_scroll.scroll_pos 30 < s.process_count) →
        handle_process_selection s mouse true = s) ∧
      (0 ≤ s.process_scroll.scroll_pos →
        clicked_index mouse.y 120 s.process_scroll.scroll_pos 30
          = ⌊(mouse.y - 120 + (s.process_scroll.scroll_pos : ℚ)) / 30⌋)) ∧
    ((s.tabs 3).is_active = true →
      CheckCollisionPointRec mouse
        ⟨30, 220, ((s.screen_w - 60 : Int) : ℚ), ((s.screen_h - 300 : Int) : ℚ)⟩ = true →
      (0 ≤ clicked_index mouse.y 220 s.startup_scroll.scroll_pos 45 ∧
          clicked_index mouse.y 220 s.startup_scroll.scroll_pos 45 < s.startup_list.length →
        (handle_startup_selection s mouse true).selected_startup_idx
          = clicked_index mouse.y 220 s.startup_scroll.scroll_pos 45 ∧
        ∃ app, s.startup_list[(clicked_index mouse.y 220 s.startup_scroll.scroll_pos 45).toNat]?
            = some app ∧
          (handle_startup_selection s mouse true).enable_startup_btn.is_enabled
            = !app.is_enabled ∧
          (handle_startup_selection s mouse true).disable_startup_btn.is_enabled
            = app.is_enabled) ∧
      (¬ (0 ≤ clicked_index mouse.y 220 s.startup_scroll.scroll_pos 45 ∧
          clicked_index mouse.y 220 s.startup_scroll.scroll_pos 45 < s.startup_list.length) →
        handle_startup_selection s mouse true = s) ∧
      (0 ≤ s.startup_scroll.scroll_pos →
        clicked_index mouse.y 220 s.startup_scroll.scroll_pos 45
          = ⌊(mouse.y - 220 + (s.startup_scroll.scroll_pos : ℚ)) / 45⌋)) ∧
    clicked_index 245 120 60 45 = 4 := by
  refine ⟨?_, ?_, ?_⟩
  · intro hact hin
    have hy : (120 : ℚ) ≤ mouse.y := by
      simp only [CheckCollisionPointRec, Bool.and_eq_true, decide_eq_true_eq] at hin
      exact hin.1.2
    have hci : Int.tdiv (truncQ (mouse.y - 120) + s.process_scroll.scroll_pos) TM_ROW_HEIGHT_PX
        = clicked_index mouse.y 120 s.process_scroll.scroll_pos 30 := by
      unfold clicked_index
      rw [truncQ_add_int _ _ (sub_nonneg.mpr hy)]
      rfl
    have hsel : handle_process_selection s mouse true =
        if clicked_index mouse.y 120 s.process_scroll.scroll_pos 30 < 0 ∨
            clicked_index mouse.y 120 s.process_scroll.scroll_pos 30 ≥ s.process_count then s
        else
          { s with
            selected_process_idx := clicked_index mouse.y 120 s.process_scroll.scroll_pos 30
            end_task_btn := { s.end_task_btn with is_enabled := true }
            process_list := mark_selected s.process_list 0
              (clicked_index mouse.y 120 s.process_scroll.scroll_pos 30) } := by
      simp only [handle_process_selection, hact, hin, Bool.not_true, Bool.false_eq_true,
        if_false, hci]
    refine ⟨?_, ?_, ?_⟩
    · rintro ⟨h0, h1⟩
      rw [hsel, if_neg (by omega)]
      exact ⟨rfl, rfl, rfl⟩
    · intro hbad
      rw [hsel, if_pos (by omega)]
    · intro hs
      have hs' : (0 : ℚ) ≤ (s.process_scroll.scroll_pos : ℚ) := by exact_mod_cast hs
      have := clicked_index_floor mouse.y 120 s.process_scroll.scroll_pos 30
        (by linarith) (by norm_num)
      simpa using this
  · intro hact hin
    have hy : (220 : ℚ) ≤ mouse.y := by
      simp only [CheckCollisionPointRec, Bool.and_eq_true, decide_eq_true_eq] at hin
      exact hin.1.2
    have hci : Int.tdiv (truncQ (mouse.y - 220) + s.startup_scroll.scroll_pos) TM_STARTUP_ROW_PX
        = clicked_index mouse.y 220 s.startup_scroll.scroll_pos 45 := by
      unfold clicked_index
      rw [truncQ_add_int _ _ (sub_nonneg.mpr hy)]
      rfl
    have hsel : handle_startup_selection s mouse true =
        match tm_startup_get s (clicked_index mouse.y 220 s.startup_scroll.scroll_pos 45) with
        | none => s
        | some app =>
          { s with
            selected_startup_idx := clicked_index mouse.y 220 s.startup_scroll.scroll_pos 45
            enable_startup_btn := { s.enable_startup_btn with is_enabled := !app.is_enabled }
            disable_startup_btn := { s.disable_startup_btn with is_enabled := app.is_enabled } } := by
      simp only [handle_startup_selection, hact, hin, Bool.not_true, Bool.false_eq_true,
        if_false, hci]
    refine ⟨?_, ?_, ?_⟩
    · rintro ⟨h0, h1⟩
      have hlt : (clicked_index mouse.y 220 s.startup_scroll.scroll_pos 45).toNat
          < s.startup_list.length := by omega
      have hget : tm_startup_get s (clicked_index mouse.y 220 s.startup_scroll.scroll_pos 45)
          = some (s.startup_list.get ⟨_, hlt⟩) := by
        rw [tm_startup_get_eq, if_neg (by omega), List.getElem?_eq_getElem hlt]
        rfl
      rw [hsel, hget]
      refine ⟨rfl, s.startup_list.get ⟨_, hlt⟩, ?_, rfl, rfl⟩
      rw [List.getElem?_eq_getElem hlt]
      rfl
    · intro hbad
      have hget : tm_startup_get s (clicked_index mouse.y 220 s.startup_scroll.scroll_pos 45)
          = none := by
        rw [tm_startup_get_eq]
        split_ifs with hneg
        · rfl
        · exact List.getElem?_eq_none (by omega)
      rw [hsel, hget]
    · intro hs
      have hs' : (0 : ℚ) ≤ (s.startup_scroll.scroll_pos : ℚ) := by exact_mod_cast hs
      have := clicked_index_floor mouse.y 220 s.startup_scroll.scroll_pos 45
        (by linarith) (by norm_num)
      simpa using this
  · unfold clicked_index
    have e : ((245 : ℚ) - 120 + ((60 : Int) : ℚ)) = ((185 : Int) : ℚ) := by norm_num
    rw [e, Int.floor_intCast]
    decide

/-- Witness of C16: on the Processes tab of `demo_click_state` (30 processes,
scrolled by 25 pixels) a press at y = 245 selects row
`(245 - 120 + 25) div 30 = 5`. -/
theorem selection_click_to_index_witness :
    (handle_process_selection demo_click_state ⟨100, 245⟩ true).selected_process_idx = 5 := by
  have hci : clicked_index 245 120 25 30 = 5 := by
    unfold clicked_index
    have e : ((245 : ℚ) - 120 + ((25 : Int) : ℚ)) = ((150 : Int) : ℚ) := by norm_num
    rw [e, Int.floor_intCast]
    decide
  have h := ((selection_click_to_index demo_click_state ⟨100, 245⟩).1 rfl
    (by
      simp only [CheckCollisionPointRec, demo_click_state, demo_rows_state, zero_state]
      norm_num)).1
  have hsp : demo_click_state.process_scroll.scroll_pos = 25 := rfl
  have hpc : demo_click_state.process_count = 30 := rfl
  simp only [hsp, hpc, hci] at h
  exact (h (by decide)).1

/-- C18: `tm_perf_update` is throttled to one recording per second.  When less
than 1.0 s has elapsed since `perf.last_update` it returns `TM_OK` and the
whole application state (every ring, write index, metric and per-application
history) is unchanged.  When at least 1.0 s has elapsed, in a state whose write
indices lie inside their rings, it returns `TM_OK`, records exactly one sample
into each of the four system rings (the capped CPU sample, the capped memory
figure, the disk figure, the GPU figure), and `last_update` is the clock
reading taken by the call.  `cps` is `CLOCKS_PER_SEC`. -/
theorem perf_update_throttle (s : TmAppState) (cps : ℚ) (inp : PerfInput) :
    (tm_perf_delta_seconds s.perf inp.now cps < 1 →
      tm_perf_update s cps inp = some (tm_result_t.TM_OK, s)) ∧
    (1 ≤ tm_perf_delta_seconds s.perf inp.now cps →
      0 ≤ s.perf.cpu_idx ∧ s.perf.cpu_idx < TM_HIST_LEN →
      0 ≤ s.perf.mem_idx ∧ s.perf.mem_idx < TM_HIST_LEN →
      0 ≤ s.perf.disk_idx ∧ s.perf.disk_idx < TM_HIST_LEN →
      0 ≤ s.perf.gpu_idx ∧ s.perf.gpu_idx < TM_HIST_LEN →
      (∀ app ∈ s.history_list, 0 ≤ app.history_idx ∧ app.history_idx < TM_HIST_SHORT) →
      ∃ s', tm_perf_update s cps inp = some (tm_result_t.TM_OK, s') ∧
        RingRecorded 100 s.perf.cpu_history s.perf.cpu_idx (min inp.cpu_sample 100)
          s'.perf.cpu_history s'.perf.cpu_idx ∧
        RingRecorded 100 s.perf.mem_history s.perf.mem_idx (min inp.mem_used inp.mem_total)
          s'.perf.mem_history s'.perf.mem_idx ∧
        RingRecorded 100 s.perf.disk_history s.perf.disk_idx
          (200000000 + inp.r_disk % 150000000) s'.perf.disk_history s'.perf.disk_idx ∧
        RingRecorded 100 s.perf.gpu_history s.perf.gpu_idx
          (min (8 + ((inp.r_gpu % 50 : Nat) : ℚ)) 100) s'.perf.gpu_history s'.perf.gpu_idx ∧
        s'.perf.last_update = inp.stamp) := by
  constructor
  · intro hd
    have hlt : tm_perf_delta_seconds s.perf inp.now cps < TM_PERF_UPDATE_INTERVAL_S := by
      unfold TM_PERF_UPDATE_INTERVAL_S
      exact hd
    simp only [tm_perf_update, hlt, if_true]
  · intro hd hc hm hk hg hh
    obtain ⟨l', hl'⟩ := tm_perf_update_elapsed s cps inp hd hc hm hk hg hh
    exact ⟨_, hl', ringRecorded_update 100 _ _ _ hc.1 (by norm_num),
      ringRecorded_update 100 _ _ _ hm.1 (by norm_num),
      ringRecorded_update 100 _ _ _ hk.1 (by norm_num),
      ringRecorded_update 100 _ _ _ hg.1 (by norm_num), rfl⟩

/-- Witness of C18: 1.5 s after start-up (1 000 000 clock ticks per second) the
call records one sample into each system ring of `demo_perf_state`. -/
theorem perf_update_throttle_witness :
    ∃ s', tm_perf_update demo_perf_state 1000000 demo_perf_input
        = some (tm_result_t.TM_OK, s') ∧
      RingRecorded 100 demo_perf_state.perf.cpu_history demo_perf_state.perf.cpu_idx
        (min demo_perf_input.cpu_sample 100) s'.perf.cpu_history s'.perf.cpu_idx ∧
      RingRecorded 100 demo_perf_state.perf.mem_history demo_perf_state.perf.mem_idx
        (min demo_perf_input.mem_used demo_perf_input.mem_total)
        s'.perf.mem_history s'.perf.mem_idx ∧
      RingRecorded 100 demo_perf_state.perf.disk_history demo_perf_state.perf.disk_idx
        (200000000 + demo_perf_input.r_disk % 150000000)
        s'.perf.disk_history s'.perf.disk_idx ∧
      RingRecorded 100 demo_perf_state.perf.gpu_history demo_perf_state.perf.gpu_idx
        (min (8 + ((demo_perf_input.r_gpu % 50 : Nat) : ℚ)) 100)
        s'.perf.gpu_history s'.perf.gpu_idx ∧
      s'.perf.last_update = demo_perf_input.stamp :=
  (perf_update_throttle demo_perf_state 1000000 demo_perf_input).2
    (by norm_num [tm_perf_delta_seconds, demo_perf_state, zero_state, tm_perf_data_init,
      demo_perf_input])
    (by decide) (by decide) (by decide) (by decide)
    (by
      intro app happ
      simp only [demo_perf_state, List.mem_singleton] at happ
      rw [happ]
      exact history_idx_invariant (HistoryReachable.init _ _ _ _ _ _))

/-! ## Recorded percentages -/

/-- C19: the value recorded into the CPU and GPU percentage rings lies in
[0, 100] for every value the samplers and `rand()` can return.  Both platform
samplers of the repository (`posix_sample_cpu`, `win32_sample_cpu`) return
`5 + rand() % 60`, and `update_gpu` draws `8 + rand() % 50`; `update_cpu` and
`update_gpu` cap the value at 100 and write it into the slot at the write
index.  More generally `update_cpu` records `min sample 100`, which is in
[0, 100] for every non-negative sample. -/
theorem recorded_percentages_in_range (d : TmPerfData) (r : Nat) :
    (0 ≤ d.cpu_idx ∧ d.cpu_idx < TM_HIST_LEN →
      (∃ d', update_cpu d (posix_sample_cpu r) = some d' ∧
        d'.cpu_history d.cpu_idx.toNat = min (posix_sample_cpu r) 100 ∧
        0 ≤ d'.cpu_history d.cpu_idx.toNat ∧ d'.cpu_history d.cpu_idx.toNat ≤ 100) ∧
      (∃ d', update_cpu d (win32_sample_cpu r) = some d' ∧
        d'.cpu_history d.cpu_idx.toNat = min (win32_sample_cpu r) 100 ∧
        0 ≤ d'.cpu_history d.cpu_idx.toNat ∧ d'.cpu_history d.cpu_idx.toNat ≤ 100) ∧
      (∀ sample : ℚ, 0 ≤ sample →
        ∃ d', update_cpu d sample = some d' ∧
          d'.cpu_history d.cpu_idx.toNat = min sample 100 ∧
          0 ≤ d'.cpu_history d.cpu_idx.toNat ∧ d'.cpu_history d.cpu_idx.toNat ≤ 100)) ∧
    (0 ≤ d.gpu_idx ∧ d.gpu_idx < TM_HIST_LEN →
      ∃ d', update_gpu d r = some d' ∧
        d'.gpu_history d.gpu_idx.toNat = d'.gpu_percent ∧
        0 ≤ d'.gpu_history d.gpu_idx.toNat ∧ d'.gpu_history d.gpu_idx.toNat ≤ 100) := by
  constructor
  · intro hi
    exact ⟨update_cpu_recorded d _ (sample_cpu_nonneg r) hi,
      update_cpu_recorded d _ (sample_cpu_nonneg r) hi,
      fun sample h0 => update_cpu_recorded d sample h0 hi⟩
  · intro hi
    refine ⟨_, update_gpu_eq d r hi.1 hi.2, Function.update_same _ _ _, ?_, ?_⟩
    · show 0 ≤ Function.update d.gpu_history d.gpu_idx.toNat
        (min (8 + ((r % 50 : Nat) : ℚ)) 100) d.gpu_idx.toNat
      rw [Function.update_same]
      have h : (0 : ℚ) ≤ ((r % 50 : Nat) : ℚ) := Nat.cast_nonneg _
      exact le_min (by linarith) (by norm_num)
    · show Function.update d.gpu_history d.gpu_idx.toNat
        (min (8 + ((r % 50 : Nat) : ℚ)) 100) d.gpu_idx.toNat ≤ 100
      rw [Function.update_same]
      exact min_le_right _ _

/-- Witness of C19: the first GPU recording after initialisation, with
`rand()` returning 12345. -/
theorem recorded_percentages_in_range_witness :
    ∃ d', update_gpu (tm_perf_data_init 0) 12345 = some d' ∧
      d'.gpu_history (tm_perf_data_init 0).gpu_idx.toNat = d'.gpu_percent ∧
      0 ≤ d'.gpu_history (tm_perf_data_init 0).gpu_idx.toNat ∧
      d'.gpu_history (tm_perf_data_init 0).gpu_idx.toNat ≤ 100 :=
  (recorded_percentages_in_range (tm_perf_data_init 0) 12345).2 (by decide)

/-! ## Layout idempotence -/

/-- C20: `ui_layout_update` is idempotent.  For every application state a
second call (the screen size and the lists are those the first call saw, since
the call changes neither) gives the state the first call gave; no call changes
the `scroll_pos` of the process, startup or history scrollbar; and `max_scroll`
and the thumb height `ui_scrollbar_thumb_h` of each scrollbar are the same
after the second call as after the first. -/
theorem layout_update_idempotent (s : TmAppState) :
    ui_layout_update (ui_layout_update s) = ui_layout_update s ∧
    ((ui_layout_update s).screen_w = s.screen_w ∧ (ui_layout_update s).screen_h = s.screen_h ∧
      (ui_layout_update s).process_count = s.process_count ∧
      (ui_layout_update s).startup_list = s.startup_list ∧
      (ui_layout_update s).history_list = s.history_list) ∧
    ((ui_layout_update s).process_scroll.scroll_pos = s.process_scroll.scroll_pos ∧
      (ui_layout_update s).startup_scroll.scroll_pos = s.startup_scroll.scroll_pos ∧
      (ui_layout_update s).history_scroll.scroll_pos = s.history_scroll.scroll_pos) ∧
    ((ui_layout_update (ui_layout_update s)).process_scroll.scroll_pos
        = s.process_scroll.scroll_pos ∧
      (ui_layout_update (ui_layout_update s)).startup_scroll.scroll_pos
        = s.startup_scroll.scroll_pos ∧
      (ui_layout_update (ui_layout_update s)).history_scroll.scroll_pos
        = s.history_scroll.scroll_pos) ∧
    ((ui_layout_update (ui_layout_update s)).process_scroll.max_scroll
        = (ui_layout_update s).process_scroll.max_scroll ∧
      (ui_layout_update (ui_layout_update s)).startup_scroll.max_scroll
        = (ui_layout_update s).startup_scroll.max_scroll ∧
      (ui_layout_update (ui_layout_update s)).history_scroll.max_scroll
        = (ui_layout_update s).history_scroll.max_scroll) ∧
    (ui_scrollbar_thumb_h (ui_layout_update (ui_layout_update s)).process_scroll
        = ui_scrollbar_thumb_h (ui_layout_update s).process_scroll ∧
      ui_scrollbar_thumb_h (ui_layout_update (ui_layout_update s)).startup_scroll
        = ui_scrollbar_thumb_h (ui_layout_update s).startup_scroll ∧
      ui_scrollbar_thumb_h (ui_layout_update (ui_layout_update s)).history_scroll
        = ui_scrollbar_thumb_h (ui_layout_update s).history_scroll) := by
  have h := ui_layout_update_idem s
  refine ⟨h, ⟨rfl, rfl, rfl, rfl, rfl⟩, ⟨rfl, rfl, rfl⟩, ?_, ?_, ?_⟩
  · rw [h]
    exact ⟨rfl, rfl, rfl⟩
  · rw [h]
    exact ⟨rfl, rfl, rfl⟩
  · rw [h]
    exact ⟨rfl, rfl, rfl⟩

/-! ## Division safety -/

/-- C21: for every scrollbar state with `visible_height ≥ 0`,
`ui_scrollbar_update` never divides by zero: the update whose run-time
divisions are checked returns the result of the plain update.  The thumb
height is computed only when `content_height > visible_height`, hence with
`content_height > 0`; the thumb top is `bounds.y`, without division, when
`max_scroll = 0`; and the click and drag conversions store `scroll_pos = 0`,
without division, whenever `bounds.height - th ≤ 0`.  Without the bound on
`visible_height` the thumb height can divide by zero (content height 0 over
visible height -1). -/
theorem update_never_divides_by_zero (sb : TmScrollBar) (mouse : Vector2) (wheel : ℚ)
    (area : Rectangle) (pressed released : Bool) (hv : 0 ≤ sb.visible_height) :
    ui_scrollbar_update_checked sb mouse wheel area pressed released
      = some (ui_scrollbar_update sb mouse wheel area pressed released) ∧
    (ui_scrollbar_needed sb = true → 0 < sb.content_height) ∧
    (∀ th : ℚ, sb.max_scroll = 0 →
      ui_scrollbar_thumb_rect_checked sb th = some (ui_scrollbar_thumb_rect sb th) ∧
      (ui_scrollbar_thumb_rect sb th).y = sb.bounds.y) ∧
    (∀ th : ℚ, sb.bounds.height - th ≤ 0 →
      CheckCollisionPointRec mouse sb.thumb = false →
      CheckCollisionPointRec mouse sb.bounds = true →
      ui_scrollbar_handle_click_checked sb mouse th true
        = some (ui_scrollbar_handle_click sb mouse th true) ∧
      (ui_scrollbar_handle_click sb mouse th true).scroll_pos = 0) ∧
    (∀ th : ℚ, sb.bounds.height - th ≤ 0 → sb.is_dragging = true →
      ui_scrollbar_handle_drag_checked sb mouse th false
        = some (ui_scrollbar_handle_drag sb mouse th false) ∧
      (ui_scrollbar_handle_drag sb mouse th false).scroll_pos = 0) ∧
    ui_scrollbar_update_checked { zero_scrollbar with visible_height := -1 } mouse wheel area
      pressed released = none := by
  have hpos : ui_scrollbar_needed sb = true → 0 < sb.content_height := by
    intro hn
    simp only [ui_scrollbar_needed, decide_eq_true_eq] at hn
    omega
  refine ⟨update_checked_eq sb mouse wheel area pressed released (fun hn => ne_of_gt (hpos hn)),
    hpos, ?_, ?_, ?_, ?_⟩
  · intro th hm
    refine ⟨thumb_rect_checked_eq sb th, ?_⟩
    simp [ui_scrollbar_thumb_rect, hm]
  · intro th hr hout hin
    refine ⟨handle_click_checked_eq sb mouse th true, ?_⟩
    rw [click_on_track sb mouse th hout hin]
    simp only [pixel_to_scroll, not_lt.mpr hr, if_false]
  · intro th hr hd
    refine ⟨handle_drag_checked_eq sb mouse th false, ?_⟩
    simp only [ui_scrollbar_handle_drag, hd, Bool.false_eq_true, if_false, Bool.not_true,
      gt_iff_lt, not_lt.mpr hr]
  · simp [ui_scrollbar_update_checked, ui_scrollbar_needed, zero_scrollbar,
      ui_scrollbar_thumb_h_checked, checked_div]

/-- Witness of C21: a press on the thumb of the demo scrollbar with wheel
movement runs without a division by zero. -/
theorem update_never_divides_by_zero_witness :
    ui_scrollbar_update_checked demo_scrollbar ⟨1190, 121⟩ (-3) ⟨10, 120, 1170, 600⟩ true false
      = some (ui_scrollbar_update demo_scrollbar ⟨1190, 121⟩ (-3) ⟨10, 120, 1170, 600⟩
          true false) :=
  (update_never_divides_by_zero demo_scrollbar ⟨1190, 121⟩ (-3) ⟨10, 120, 1170, 600⟩ true false
    (by decide)).1

/-! ## Startup toggle -/

/-- C22: `tm_startup_toggle s index` returns `TM_ERR_INVALID_ARG` exactly when
`index < 0` or `index ≥` the list length, and then leaves the state unchanged.
Otherwise it returns `TM_OK`, changes nothing but the startup list, negates
`is_enabled` of the entry at `index`, sets that entry's `status` to "Enabled"
or "Disabled" to match, keeps its other fields, and leaves every other entry
and the length unchanged.  Toggling the same index twice restores the state
when the entry's `status` matched its flag beforehand, which holds for every
entry of every list that `tm_startup_list_load` and `tm_startup_toggle`
produce. -/
theorem startup_toggle_contract (s : TmAppState) (index : Int) :
    ((index < 0 ∨ (s.startup_list.length : Int) ≤ index) →
      tm_startup_toggle s index = (tm_result_t.TM_ERR_INVALID_ARG, s)) ∧
    ((tm_startup_toggle s index).1 = tm_result_t.TM_ERR_INVALID_ARG ↔
      (index < 0 ∨ (s.startup_list.length : Int) ≤ index)) ∧
    ((0 ≤ index ∧ index < (s.startup_list.length : Int)) →
      (tm_startup_toggle s index).1 = tm_result_t.TM_OK ∧
      (tm_startup_toggle s index).2
        = { s with startup_list := (tm_startup_toggle s index).2.startup_list } ∧
      (tm_startup_toggle s index).2.startup_list.length = s.startup_list.length ∧
      (∃ app app', s.startup_list[index.toNat]? = some app ∧
        (tm_startup_toggle s index).2.startup_list[index.toNat]? = some app' ∧
        app'.is_enabled = (!app.is_enabled) ∧
        app'.status = (if app'.is_enabled then "Enabled" else "Disabled") ∧
        app'.name = app.name ∧ app'.publisher = app.publisher ∧
        app'.impact_s = app.impact_s) ∧
      (∀ k : Nat, k ≠ index.toNat →
        (tm_startup_toggle s index).2.startup_list[k]? = s.startup_list[k]?) ∧
      ((∀ app, s.startup_list[index.toNat]? = some app → StatusConsistent app) →
        tm_startup_toggle (tm_startup_toggle s index).2 index = (tm_result_t.TM_OK, s))) ∧
    (StartupReachable s → ∀ app ∈ s.startup_list, StatusConsistent app) := by
  refine ⟨tm_startup_toggle_invalid s index, ?_, ?_, startup_reachable_consistent⟩
  · constructor
    · intro hr
      by_contra hv
      rw [tm_startup_toggle_valid s index (by omega) (by omega)] at hr
      cases hr
    · intro hbad
      rw [tm_startup_toggle_invalid s index hbad]
  · rintro ⟨h0, h1⟩
    have hlt : index.toNat < s.startup_list.length := by omega
    have hval := tm_startup_toggle_valid s index h0 h1
    have hget : ∀ k : Nat, (startup_toggle_walk s.startup_list 0 index)[k]? =
        if k = index.toNat then s.startup_list[k]?.map toggled_entry else s.startup_list[k]? := by
      intro k
      rw [startup_toggle_walk_get _ _ _ h0 k, sub_zero]
    rw [hval]
    refine ⟨rfl, rfl, startup_toggle_walk_length _ _ _, ?_, ?_, ?_⟩
    · refine ⟨s.startup_list.get ⟨_, hlt⟩, toggled_entry (s.startup_list.get ⟨_, hlt⟩),
        ?_, ?_, rfl, rfl, rfl, rfl, rfl⟩
      · rw [List.getElem?_eq_getElem hlt]; rfl
      · show (startup_toggle_walk s.startup_list 0 index)[index.toNat]? = _
        rw [hget, if_pos rfl, List.getElem?_eq_getElem hlt]
        rfl
    · intro k hk
      show (startup_toggle_walk s.startup_list 0 index)[k]? = _
      rw [hget, if_neg hk]
    · intro hcons
      have hl1 : (index : Int)
          < (({ s with startup_list := startup_toggle_walk s.startup_list 0 index } :
              TmAppState).startup_list.length : Int) := by
        show index < ((startup_toggle_walk s.startup_list 0 index).length : Int)
        rw [startup_toggle_walk_length]
        exact h1
      rw [tm_startup_toggle_valid _ index h0 hl1]
      have hback : startup_toggle_walk (startup_toggle_walk s.startup_list 0 index) 0 index
          = s.startup_list := by
        apply List.ext_getElem?
        intro k
        rw [startup_toggle_walk_get _ _ _ h0 k, sub_zero, hget]
        by_cases hk : k = index.toNat
        · rw [if_pos hk, if_pos hk]
          subst hk
          rw [List.getElem?_eq_getElem hlt]
          simp only [Option.map_some']
          rw [toggled_entry_twice _ (hcons _ (List.getElem?_eq_getElem hlt))]
        · rw [if_neg hk, if_neg hk]
      show (tm_result_t.TM_OK,
        ({ s with startup_list :=
            startup_toggle_walk (startup_toggle_walk s.startup_list 0 index) 0 index } :
          TmAppState)) = (tm_result_t.TM_OK, s)
      rw [hback]

/-- Witness of C22: index 8 is outside the eight-entry list that
`tm_startup_list_load` builds. -/
theorem startup_toggle_contract_witness :
    tm_startup_toggle startup_state 8 = (tm_result_t.TM_ERR_INVALID_ARG, startup_state) :=
  (startup_toggle_contract startup_state 8).1 (Or.inr (by decide))

/-! ## Program variants -/

/-- C23: `HandleScrollBarInteraction` of `Version_1` and
`UI_HandleScrollBarInteraction` of `src/main.c` set different scroll positions
for some press inside the track and outside the thumb.  Both take the
track-relative thumb top `t = mousePos.y - bounds.y - thumbHeight / 2`;
`Version_1` clamps it against `bounds.y` and `bounds.y + range` and subtracts
`bounds.y`, which maps `t - bounds.y`, while `src/main.c` clamps it against 0
and `range` and maps `t`.  On the scrollbar of an 800-pixel window listing 100
processes (track 120 to 720, thumb 120 to 240) a press at y = 500 gives
position 1000 in `Version_1` and 1600 in `src/main.c`. -/
theorem legacy_track_click_differs :
    (∀ (sb : ScrollBar) (mouse : Vector2) (th : ℚ), 0 < sb.bounds.height - th →
      HandleScrollBarInteraction_track sb mouse th = some
        { sb with
          scrollPosition := truncQ
            (max 0 (min (mouse.y - sb.bounds.y - th / 2 - sb.bounds.y) (sb.bounds.height - th))
              * (sb.maxScroll : ℚ) / (sb.bounds.height - th)) } ∧
      UI_HandleScrollBarInteraction_track sb mouse th = some
        { sb with
          scrollPosition := truncQ
            (max 0 (min (mouse.y - sb.bounds.y - th / 2) (sb.bounds.height - th))
              * (sb.maxScroll : ℚ) / (sb.bounds.height - th)) }) ∧
    (∃ (sb : ScrollBar) (mouse : Vector2) (a b : ScrollBar),
      sb.contentHeight > sb.visibleHeight ∧
      HandleScrollBarInteraction sb 120 600 1200 mouse true false 0 = some a ∧
      UI_HandleScrollBarInteraction sb 120 600 1200 mouse true false 0 = some b ∧
      a.thumb = b.thumb ∧
      CheckCollisionPointRec mouse a.thumb = false ∧
      CheckCollisionPointRec mouse sb.bounds = true ∧
      a.scrollPosition = 1000 ∧ b.scrollPosition = 1600 ∧
      a.scrollPosition ≠ b.scrollPosition) := by
  refine ⟨legacy_track_closed, legacy_scrollbar, ⟨1190, 500⟩, _, _, by decide, legacy_click_v1,
    legacy_click_main, rfl, ?_, ?_, rfl, rfl, by decide⟩
  · simp only [CheckCollisionPointRec]; norm_num
  · simp only [CheckCollisionPointRec, legacy_scrollbar]; norm_num

/-- Witness of C23: the two track-click branches on the scrollbar of the
counterexample, thumb height 120, press at y = 500. -/
theorem legacy_track_click_differs_witness :
    HandleScrollBarInteraction_track legacy_scrollbar ⟨1190, 500⟩ 120 = some
      { legacy_scrollbar with
        scrollPosition := truncQ
          (max 0 (min ((500 : ℚ) - legacy_scrollbar.bounds.y - 120 / 2
              - legacy_scrollbar.bounds.y) (legacy_scrollbar.bounds.height - 120))
            * (legacy_scrollbar.maxScroll : ℚ) / (legacy_scrollbar.bounds.height - 120)) } :=
  (legacy_track_click_differs.1 legacy_scrollbar ⟨1190, 500⟩ 120
    (by norm_num [legacy_scrollbar])).1

/-! ## Startup commands -/

/-- C24, as the code has it: with a valid startup selection `cmd_enable_startup`
and `cmd_disable_startup` both return `TM_OK` after negating `is_enabled` of
the selected application, whatever it was before, so "enable" disables an
application that is enabled.  The key E reaches `cmd_enable_startup` whenever
an application is selected.  In the run `startup_select_run` the selected
application "Realtek Audio" is enabled; a frame in which E is pressed returns
`TM_OK` from `cmd_enable_startup` and leaves it with `is_enabled` false and
status "Disabled". -/
theorem enable_command_toggles :
    (∀ s : TmAppState, 0 ≤ s.selected_startup_idx →
      s.selected_startup_idx < (s.startup_list.length : Int) →
      (cmd_enable_startup s).1 = tm_result_t.TM_OK ∧
      (cmd_disable_startup s).1 = tm_result_t.TM_OK ∧
      ∃ app, s.startup_list[s.selected_startup_idx.toNat]? = some app ∧
        (cmd_enable_startup s).2.startup_list[s.selected_startup_idx.toNat]?
          = some (toggled_entry app) ∧
        (cmd_disable_startup s).2.startup_list[s.selected_startup_idx.toNat]?
          = some (toggled_entry app) ∧
        (toggled_entry app).is_enabled = (!app.is_enabled)) ∧
    (∀ (s : TmAppState) (observers : List (TmAppState → TmAppState)) (cps : ℚ),
      0 ≤ s.selected_startup_idx →
      handle_keyboard s key_e_only observers cps = some (cmd_enable_startup s).2) ∧
    startup_select_run.selected_startup_idx = 1 ∧
    startup_select_run.startup_list[1]?
      = some ⟨"Realtek Audio", "Realtek Semiconductor", "Enabled", 0.3, true⟩ ∧
    (cmd_enable_startup startup_select_run).1 = tm_result_t.TM_OK ∧
    (∃ s', handle_keyboard startup_select_run key_e_only [on_process_changed] 1000000 = some s' ∧
      s'.startup_list[1]?
        = some ⟨"Realtek Audio", "Realtek Semiconductor", "Disabled", 0.3, false⟩) := by
  have hidx : startup_select_run.selected_startup_idx = 1 := by
    rw [startup_select_run_eq]
  have hlist : startup_select_run.startup_list = startup_state.startup_list := by
    rw [startup_select_run_eq, startup_tab_click]
  have h0 : 0 ≤ startup_select_run.selected_startup_idx := by rw [hidx]; decide
  have h1 : startup_select_run.selected_startup_idx
      < (startup_select_run.startup_list.length : Int) := by
    rw [hidx, hlist, startup_state_list]; decide
  refine ⟨?_, fun s observers cps h => handle_keyboard_key_e s observers cps h, hidx, ?_, ?_, ?_⟩
  · intro s h0 h1
    have hlt : s.selected_startup_idx.toNat < s.startup_list.length := by omega
    rw [cmd_enable_startup_valid s h0 h1, cmd_disable_startup_valid s h0 h1]
    refine ⟨rfl, rfl, s.startup_list.get ⟨_, hlt⟩, ?_, ?_, ?_, rfl⟩
    · rw [List.getElem?_eq_getElem hlt]; rfl
    · show (startup_toggle_walk s.startup_list 0 s.selected_startup_idx)[
        s.selected_startup_idx.toNat]? = _
      rw [startup_toggle_walk_get _ _ _ h0, sub_zero, if_pos rfl, List.getElem?_eq_getElem hlt]
      rfl
    · show (startup_toggle_walk s.startup_list 0 s.selected_startup_idx)[
        s.selected_startup_idx.toNat]? = _
      rw [startup_toggle_walk_get _ _ _ h0, sub_zero, if_pos rfl, List.getElem?_eq_getElem hlt]
      rfl
  · rw [hlist, startup_state_list]; rfl
  · rw [cmd_enable_startup_valid _ h0 h1]
  · refine ⟨_, handle_keyboard_key_e _ _ _ h0, ?_⟩
    rw [cmd_enable_startup_valid _ h0 h1]
    show (startup_toggle_walk startup_select_run.startup_list 0
      startup_select_run.selected_startup_idx)[1]? = _
    rw [hidx, hlist, startup_state_list]
    rfl

/-! ## Click and render -/

/-- C25: click and render agree in the Processes tab.  With the Processes tab
active, `scroll_pos ≥ 0` and `process_count` equal to the number of listed
processes, for every row that `ui_tab_process_draw` draws at y coordinate
`row.y_pos`, a press at any pointer position inside the list area with
`row.y_pos ≤ pointerY < row.y_pos + 30` makes `handle_process_selection` select
exactly that row: `selected_process_idx` becomes the row's list index, the node
at that index is the process drawn in the row, and it is the one node flagged
`is_selected`. -/
theorem click_selects_drawn_row (s : TmAppState) (mouse : Vector2) (row : DrawnRow)
    (hact : (s.tabs 0).is_active = true)
    (h0 : 0 ≤ s.process_scroll.scroll_pos)
    (hcount : s.process_count = (s.process_list.length : Int))
    (hrow : row ∈ ui_tab_process_draw s)
    (hin : CheckCollisionPointRec mouse
      ⟨10, 120, ((s.screen_w - 30 : Int) : ℚ), ((s.screen_h - 200 : Int) : ℚ)⟩ = true)
    (hy0 : (row.y_pos : ℚ) ≤ mouse.y) (hy1 : mouse.y < (row.y_pos : ℚ) + 30) :
    (handle_process_selection s mouse true).selected_process_idx = row.row_index ∧
    0 ≤ row.row_index ∧
    s.process_list[row.row_index.toNat]? = some row.proc ∧
    (∀ k : Nat, (handle_process_selection s mouse true).process_list[k]? =
      s.process_list[k]?.map
        (fun p => { p with is_selected := decide ((k : Int) = row.row_index) })) := by
  have hy : (120 : ℚ) ≤ mouse.y := by
    simp only [CheckCollisionPointRec, Bool.and_eq_true, decide_eq_true_eq] at hin
    exact hin.1.2
  unfold ui_tab_process_draw at hrow
  rw [mem_draw_process_rows s 120 (s.screen_h - 200) row h0] at hrow
  obtain ⟨i, _, hget, hyp, hidx, _, _⟩ := hrow
  have hk : 0 ≤ rows_skip s.process_scroll.scroll_pos := by
    unfold rows_skip TM_ROW_HEIGHT_PX
    rw [Int.tdiv_eq_ediv h0 (by norm_num)]
    omega
  rw [hyp] at hy0 hy1
  have hci := click_index_of_row s.process_scroll.scroll_pos mouse.y i h0 hy hy0 hy1
  rw [← hidx] at hci
  have hnat : row.row_index.toNat = (rows_skip s.process_scroll.scroll_pos).toNat + i := by
    rw [hidx]; omega
  have hlt : row.row_index.toNat < s.process_list.length := by
    rw [hnat]
    by_contra hge
    rw [List.getElem?_eq_none (not_lt.mp hge)] at hget
    cases hget
  have hge0 : 0 ≤ row.row_index := by rw [hidx]; omega
  have hvalid : ¬ (row.row_index < 0 ∨ row.row_index ≥ s.process_count) := by
    rw [hcount]; omega
  have hsel : handle_process_selection s mouse true =
      { s with
        selected_process_idx := row.row_index
        end_task_btn := { s.end_task_btn with is_enabled := true }
        process_list := mark_selected s.process_list 0 row.row_index } := by
    simp only [handle_process_selection, hact, hin, Bool.not_true, Bool.false_eq_true,
      if_false, hci, hvalid]
  rw [hsel]
  refine ⟨rfl, hge0, by rw [hnat]; exact hget, ?_⟩
  intro k
  show (mark_selected s.process_list 0 row.row_index)[k]? = _
  rw [mark_selected_get]
  simp only [zero_add]

/-- Witness of C25: in `demo_click_state` (30 processes, scrolled by 25 pixels)
the row drawn at y = 245 has list index 5, and a press at y = 250 selects
index 5. -/
theorem click_selects_drawn_row_witness :
    (handle_process_selection demo_click_state ⟨100, 250⟩ true).selected_process_idx = 5 :=
  (click_selects_drawn_row demo_click_state ⟨100, 250⟩ ⟨demo_process, 245, 5⟩ rfl
    (by decide) rfl
    (by
      unfold ui_tab_process_draw
      rw [mem_draw_process_rows _ _ _ _ (by decide)]
      exact ⟨5, by decide, rfl, by decide, by decide, by decide, by decide⟩)
    (by
      simp only [CheckCollisionPointRec, demo_click_state, demo_rows_state, zero_state]
      norm_num)
    (by norm_num) (by norm_num)).1

/-! ## Virtualization completeness -/

/-- C26, as the code has it: `draw_process_rows` draws no row outside the
specified set (every row drawn has a list index `k` with
`firstVisibleIndex ≤ k < N`, the y coordinate
`start_y + (k - firstVisibleIndex) * 30 - scroll_pos mod 30`, inside
`[start_y, start_y + list_h)`), but it does not draw all of that set.  In
`clip_state` (30 processes, `scroll_pos = 25` in `[0, 290]`, `list_h = 610`) row
21 has its top at `120 + 21 * 30 - 25 = 725`, inside `[120, 730)`, and is not
drawn: the loop stops after `610 / 30 + 1 = 21` iterations. -/
theorem bottom_row_not_drawn :
    (∀ (s : TmAppState) (start_y list_h : Int) (row : DrawnRow),
      0 ≤ s.process_scroll.scroll_pos → row ∈ draw_process_rows s start_y list_h →
      rows_skip s.process_scroll.scroll_pos ≤ row.row_index ∧
      row.row_index < (s.process_list.length : Int) ∧
      s.process_list[row.row_index.toNat]? = some row.proc ∧
      row.y_pos = start_y + (row.row_index - rows_skip s.process_scroll.scroll_pos) * 30
        - rows_off s.process_scroll.scroll_pos ∧
      start_y ≤ row.y_pos ∧ row.y_pos < start_y + list_h) ∧
    clip_state.process_list.length = 30 ∧
    clip_state.process_scroll.scroll_pos = 25 ∧
    clip_state.process_scroll.max_scroll = 290 ∧
    clip_state.screen_h - 200 = 610 ∧
    rows_skip clip_state.process_scroll.scroll_pos = 0 ∧
    rows_off clip_state.process_scroll.scroll_pos = 25 ∧
    rows_max_vis (clip_state.screen_h - 200) = 21 ∧
    clip_state.process_list[21]? = some demo_process ∧
    (120 ≤ 120 + (21 - rows_skip clip_state.process_scroll.scroll_pos) * 30
        - rows_off clip_state.process_scroll.scroll_pos ∧
      120 + (21 - rows_skip clip_state.process_scroll.scroll_pos) * 30
        - rows_off clip_state.process_scroll.scroll_pos < 120 + (clip_state.screen_h - 200)) ∧
    (∀ row ∈ ui_tab_process_draw clip_state, row.row_index ≠ 21) := by
  have hsp : clip_state.process_scroll.scroll_pos = 25 := rfl
  have hh : clip_state.screen_h - 200 = 610 := rfl
  have hskip : rows_skip 25 = 0 := by decide
  have hoff : rows_off 25 = 25 := by decide
  have hmv : rows_max_vis 610 = 21 := by decide
  refine ⟨?_, rfl, hsp, rfl, hh, by rw [hsp, hskip], by rw [hsp, hoff], by rw [hh, hmv], rfl,
    by rw [hsp, hskip, hoff, hh]; decide, ?_⟩
  · intro s start_y list_h row h0 hrow
    rw [mem_draw_process_rows s start_y list_h row h0] at hrow
    obtain ⟨i, _, hget, hy, hidx, hlo, hhi⟩ := hrow
    have hk : 0 ≤ rows_skip s.process_scroll.scroll_pos := by
      unfold rows_skip TM_ROW_HEIGHT_PX
      rw [Int.tdiv_eq_ediv h0 (by norm_num)]
      omega
    have hnat : row.row_index.toNat = (rows_skip s.process_scroll.scroll_pos).toNat + i := by
      rw [hidx]; omega
    have hlt : row.row_index.toNat < s.process_list.length := by
      rw [hnat]
      by_contra hge
      rw [List.getElem?_eq_none (not_lt.mp hge)] at hget
      cases hget
    refine ⟨by omega, by omega, by rw [hnat]; exact hget, ?_, hlo, hhi⟩
    rw [hy, hidx]
    ring
  · intro row hrow
    unfold ui_tab_process_draw at hrow
    rw [mem_draw_process_rows clip_state 120 _ row (by rw [hsp]; decide)] at hrow
    obtain ⟨i, h1, _, _, h4, _⟩ := hrow
    rw [hh, hmv] at h1
    rw [hsp, hskip] at h4
    omega

/-! ## Thumb geometry -/

/-- C29, as the code has it: in every state reachable through
`tm_process_list_free`, `prepend_process`, `tm_process_list_refresh`, row
selection and tab switching, `process_count` equals the number of nodes in
`process_list`; but `selected_process_idx` is not always -1 or a valid index.
After a row is selected (`select_run`, index 5), a refresh whose
`open_process_list` fails returns `TM_ERR_IO` with the list freed and the
selection still 5 over 0 processes, the End Task button still enabled; a
refresh whose third allocation fails returns `TM_ERR_ALLOC` with 2 processes
and the selection still 5.  Only the successful exit resets the selection. -/
theorem selection_stale_after_failed_refresh :
    (∀ s : TmAppState, ProcReachable s → s.process_count = (s.process_list.length : Int)) ∧
    ProcReachable io_failure_run ∧
    (tm_process_list_refresh select_run none [on_process_changed]).1
      = tm_result_t.TM_ERR_IO ∧
    io_failure_run.process_list = [] ∧
    io_failure_run.process_count = 0 ∧
    io_failure_run.selected_process_idx = 5 ∧
    io_failure_run.end_task_btn.is_enabled = true ∧
    ¬ (io_failure_run.selected_process_idx = -1 ∨
      (0 ≤ io_failure_run.selected_process_idx ∧
        io_failure_run.selected_process_idx < io_failure_run.process_count)) ∧
    ProcReachable alloc_failure_run ∧
    (tm_process_list_refresh select_run
      (some [(demo_process, true), (demo_process, true), (demo_process, false)])
      [on_process_changed]).1 = tm_result_t.TM_ERR_ALLOC ∧
    alloc_failure_run.process_list = [demo_process, demo_process] ∧
    alloc_failure_run.process_count = 2 ∧
    alloc_failure_run.selected_process_idx = 5 ∧
    (∀ (s : TmAppState) (entries : List TmProcess),
      (tm_process_list_refresh s (some (entries.map fun e => (e, true)))
        [on_process_changed]).2.selected_process_idx = -1) := by
  have hio : io_failure_run = tm_process_list_free select_run := rfl
  have hsel : io_failure_run.selected_process_idx = 5 := by
    rw [hio]
    show select_run.selected_process_idx = 5
    rw [select_run_eq]
  have hal : alloc_failure_run =
      { select_run with process_list := [demo_process, demo_process], process_count := 2 } := by
    simp only [alloc_failure_run, tm_process_list_refresh, refresh_loop, prepend_process,
      tm_process_list_free, Bool.not_true, Bool.not_false, Bool.false_eq_true, if_false,
      if_true]
    rfl
  refine ⟨fun s h => proc_reachable_count h, ?_, rfl, rfl, rfl, hsel, ?_, ?_, ?_, ?_, ?_, ?_,
    ?_, ?_⟩
  · exact ProcReachable.refresh none (fun lines hl => by cases hl) select_run_reachable
  · rw [hio]
    show select_run.end_task_btn.is_enabled = true
    rw [select_run_eq]
  · rw [hsel]
    have : io_failure_run.process_count = 0 := rfl
    rw [this]
    decide
  · refine ProcReachable.refresh _ ?_ select_run_reachable
    intro lines hl e he
    cases hl
    simp only [List.mem_cons, List.mem_singleton, List.not_mem_nil, or_false] at he
    rcases he with rfl | rfl | rfl <;> rfl
  · simp only [tm_process_list_refresh, refresh_loop, prepend_process,
      tm_process_list_free, Bool.not_true, Bool.not_false, Bool.false_eq_true, if_false,
      if_true]
  · rw [hal]
  · rw [hal]
  · rw [hal]
    show select_run.selected_process_idx = 5
    rw [select_run_eq]
  · intro s entries
    rw [refresh_all_ok_eq]
    rfl

/-- C30, as the code has it: `handle_process_selection` flags exactly the node
it selects, but `handle_tab_clicks` resets the index and the button without
clearing the flags.  After `select_run` (index 5 selected, exactly node 5 flagged) a press
on the Processes tab leaves `selected_process_idx = -1` and the End Task button
disabled while node 5 is still flagged, is drawn as selected at y = 270, and
`tm_process_get_selected` finds no process. -/
theorem selected_flag_survives_tab_click :
    select_run.selected_process_idx = 5 ∧
    (∀ k : Nat, select_run.process_list[k]? =
      (List.replicate 25 demo_process)[k]?.map
        (fun p => { p with is_selected := decide ((k : Int) = 5) })) ∧
    ProcReachable tab_click_run ∧
    tab_click_run.active_tab = TmTabId.TM_TAB_PROCESSES ∧
    tab_click_run.selected_process_idx = -1 ∧
    tab_click_run.end_task_btn.is_enabled = false ∧
    tab_click_run.process_list[5]? = some { demo_process with is_selected := true } ∧
    (∃ row ∈ ui_tab_process_draw tab_click_run,
      row.row_index = 5 ∧ row.y_pos = 270 ∧ row.proc.is_selected = true) ∧
    tm_process_get_selected tab_click_run = none := by
  obtain ⟨_, _, _, hh, hsp, _, hl, _, _⟩ := listed_state_facts
  have hlist : select_run.process_list = mark_selected (List.replicate 25 demo_process) 0 5 := by
    rw [select_run_eq]
    show mark_selected listed_state.process_list 0 5 = _
    rw [hl]
  have htl : tab_click_run.process_list = mark_selected (List.replicate 25 demo_process) 0 5 := by
    rw [tab_click_run_eq]
    exact hlist
  have h5 : (mark_selected (List.replicate 25 demo_process) 0 5)[5]?
      = some { demo_process with is_selected := true } := by
    rw [mark_selected_get]
    rfl
  have htsp : tab_click_run.process_scroll.scroll_pos = 0 := by
    rw [tab_click_run_eq]
    show select_run.process_scroll.scroll_pos = 0
    rw [select_run_eq]
    exact hsp
  have hth : tab_click_run.screen_h = 800 := by
    rw [tab_click_run_eq]
    show select_run.screen_h = 800
    rw [select_run_eq]
    exact hh
  refine ⟨by rw [select_run_eq], ?_, ProcReachable.tab _ _ select_run_reachable,
    by rw [tab_click_run_eq], by rw [tab_click_run_eq], by rw [tab_click_run_eq],
    by rw [htl, h5], ?_, ?_⟩
  · intro k
    rw [hlist, mark_selected_get]
    simp only [zero_add]
  · refine ⟨⟨{ demo_process with is_selected := true }, 270, 5⟩, ?_, rfl, rfl, rfl⟩
    unfold ui_tab_process_draw
    rw [mem_draw_process_rows _ _ _ _ (by rw [htsp])]
    rw [htsp, hth, htl]
    exact ⟨5, by decide, h5, by decide, by decide, by decide, by decide⟩
  · have hidx : tab_click_run.selected_process_idx = -1 := by rw [tab_click_run_eq]
    simp [tm_process_get_selected, hidx]

end TaskManager
